import Mathlib

/-!
Shallow embedding of the `spqr-tree` library: the decomposition data model
(`src/decomposition.rs`), the invariant-enforcing incremental builder
(`src/decomposition/builder.rs`), the binary codec (`src/io/binary.rs`) and
the `.spqr` text codec (`src/io/plain_spqr_file.rs`), together with proofs
settling the specification claims.

Modelling conventions:
* Typed arena indices (`ComponentIndex`, `BlockIndex`, …) are modelled as
  `Nat`; the "optional index via max-value sentinel" types are modelled as
  `Option Nat` (the sentinel is a pure representation device; the binary
  codec below re-introduces the sentinel at the byte level).
* A Rust `assert!`/`debug_assert!`/indexing/`unwrap` panic is modelled as
  `Option.none`: a panicking builder call produces no state.
* `TaggedVec`/`Vec`/`SmallVec` are `List`s; `push` is append at the end.
-/

namespace SPQRTree

/-- The underlying graph, as seen through the `StaticGraph` capability
interface: node indices are `0, …, nodeCount-1`, and edges are listed by
index with their endpoint pair (`edge_endpoints`). -/
structure Graph where
  nodeCount : Nat
  edges : List (Nat × Nat)
deriving Repr, DecidableEq

def Graph.edgeCount (g : Graph) : Nat := g.edges.length

/-- `StaticGraph::edge_endpoints`. -/
def Graph.edgeEndpoints (g : Graph) (e : Nat) : Nat × Nat := g.edges.getD e (0, 0)

/-- `StaticGraph::incident_edges`: the indices of the edges having `n` as an
endpoint, in edge-index order. -/
def Graph.incidentEdges (g : Graph) (n : Nat) : List Nat :=
  (List.range g.edges.length).filter fun e =>
    ((g.edgeEndpoints e).1 == n) || ((g.edgeEndpoints e).2 == n)

/-- Well-formedness of the borrowed graph: every edge endpoint is a valid
node index.  The library never checks this itself; it trusts the graph. -/
def Graph.WF (g : Graph) : Prop :=
  ∀ e ∈ g.edges, e.1 < g.nodeCount ∧ e.2 < g.nodeCount

instance (g : Graph) : Decidable g.WF := by
  unfold Graph.WF; infer_instance

/-- `SPQRNodeType` from `src/decomposition.rs`. -/
inductive SPQRNodeType
  | SNode
  | PNode
  | RNode
deriving Repr, DecidableEq

/-- `Component` from `src/decomposition.rs`. -/
structure Component where
  nodes : List Nat
  blocks : List Nat
  cut_nodes : List Nat
deriving Repr, DecidableEq

/-- `Block` from `src/decomposition.rs`. -/
structure Block where
  component : Nat
  nodes : List Nat
  cut_nodes : List Nat
  spqr_nodes : List Nat
  spqr_edges : List Nat
deriving Repr, DecidableEq

/-- `CutNode` from `src/decomposition.rs`. -/
structure CutNode where
  component : Nat
  node : Nat
  adjacent_blocks : List Nat
deriving Repr, DecidableEq

/-- `SPQRNode` from `src/decomposition.rs`. -/
structure SPQRNode where
  block : Nat
  nodes : List Nat
  edges : List Nat
  spqr_node_type : SPQRNodeType
  spqr_edges : List Nat
deriving Repr, DecidableEq

/-- `SPQREdge` from `src/decomposition.rs`. -/
structure SPQREdge where
  endpoints : Nat × Nat
  virtual_edge : Nat × Nat
deriving Repr, DecidableEq

/-- `SPQRDecompositionNodeData` from `src/decomposition.rs` (the finalized
per-node back-reference record). -/
structure SPQRDecompositionNodeData where
  component_index : Nat
  block_indices : List Nat
  cut_node_index : Option Nat
  spqr_node_indices : List Nat
  extra_data : String
deriving Repr, DecidableEq

/-- `SPQRDecompositionEdgeData` from `src/decomposition.rs`. -/
structure SPQRDecompositionEdgeData where
  component_index : Nat
  block_index : Nat
  spqr_node_index : Nat
  extra_data : String
deriving Repr, DecidableEq

/-- `SPQRDecomposition` from `src/decomposition.rs` (the borrowed graph is
passed separately where needed). -/
structure SPQRDecomposition where
  components : List Component
  blocks : List Block
  cut_nodes : List CutNode
  spqr_nodes : List SPQRNode
  spqr_edges : List SPQREdge
  node_data : List SPQRDecompositionNodeData
  edge_data : List SPQRDecompositionEdgeData
deriving Repr, DecidableEq

/-- `SPQRNode::p_node_poles` from `src/decomposition.rs`: the first two
declared vertices, only for P-type nodes.  (The source indexes `nodes[0]`
and `nodes[1]`, which panics on a list shorter than two; built
decompositions always have `≥ 2` vertices per SPQR node.) -/
def SPQRNode.p_node_poles (sn : SPQRNode) : Option (Nat × Nat) :=
  if sn.spqr_node_type = SPQRNodeType.PNode then
    some (sn.nodes.getD 0 0, sn.nodes.getD 1 0)
  else
    none

/-- `SPQRDecompositionNodeDataBuilder` from `src/decomposition/builder.rs`. -/
structure SPQRDecompositionNodeDataBuilder where
  component_index : Option Nat
  block_indices : List Nat
  cut_node_index : Option Nat
  spqr_node_indices : List Nat
  extra_data : String
deriving Repr, DecidableEq

/-- `SPQRDecompositionEdgeDataBuilder` from `src/decomposition/builder.rs`. -/
structure SPQRDecompositionEdgeDataBuilder where
  component_index : Option Nat
  block_index : Option Nat
  spqr_node_index : Option Nat
  extra_data : String
deriving Repr, DecidableEq

/-- The mutable state of `SPQRDecompositionBuilder` (the borrowed graph is
passed to each operation separately). -/
structure BuilderState where
  components : List Component
  blocks : List Block
  cut_nodes : List CutNode
  spqr_nodes : List SPQRNode
  spqr_edges : List SPQREdge
  node_data : List SPQRDecompositionNodeDataBuilder
  edge_data : List SPQRDecompositionEdgeDataBuilder
deriving Repr, DecidableEq

def emptyNodeDataBuilder : SPQRDecompositionNodeDataBuilder :=
  { component_index := none, block_indices := [], cut_node_index := none,
    spqr_node_indices := [], extra_data := "" }

def emptyEdgeDataBuilder : SPQRDecompositionEdgeDataBuilder :=
  { component_index := none, block_index := none, spqr_node_index := none,
    extra_data := "" }

/-- `SPQRDecompositionBuilder::new`. -/
def BuilderState.new (g : Graph) : BuilderState :=
  { components := [], blocks := [], cut_nodes := [], spqr_nodes := [],
    spqr_edges := [],
    node_data := List.replicate g.nodeCount emptyNodeDataBuilder,
    edge_data := List.replicate g.edgeCount emptyEdgeDataBuilder }

/-- Node-data record at index `n` (out-of-range reads yield the fresh
record; Rust would panic, and every operation bounds-checks before use). -/
def BuilderState.ndAt (st : BuilderState) (n : Nat) : SPQRDecompositionNodeDataBuilder :=
  st.node_data.getD n emptyNodeDataBuilder

def BuilderState.edAt (st : BuilderState) (e : Nat) : SPQRDecompositionEdgeDataBuilder :=
  st.edge_data.getD e emptyEdgeDataBuilder

def BuilderState.blkAt (st : BuilderState) (b : Nat) : Block :=
  st.blocks.getD b { component := 0, nodes := [], cut_nodes := [], spqr_nodes := [], spqr_edges := [] }

def BuilderState.compAt (st : BuilderState) (c : Nat) : Component :=
  st.components.getD c { nodes := [], blocks := [], cut_nodes := [] }

def BuilderState.cnAt (st : BuilderState) (c : Nat) : CutNode :=
  st.cut_nodes.getD c { component := 0, node := 0, adjacent_blocks := [] }

def BuilderState.snAt (st : BuilderState) (s : Nat) : SPQRNode :=
  st.spqr_nodes.getD s { block := 0, nodes := [], edges := [], spqr_node_type := SPQRNodeType.SNode, spqr_edges := [] }

/-! State-update helpers (named so that proofs can speak about one field
update at a time; each corresponds to one Rust statement). -/

def setNodeData (st : BuilderState) (n : Nat) (nd : SPQRDecompositionNodeDataBuilder) :
    BuilderState :=
  { st with node_data := st.node_data.set n nd }

def setEdgeData (st : BuilderState) (e : Nat) (ed : SPQRDecompositionEdgeDataBuilder) :
    BuilderState :=
  { st with edge_data := st.edge_data.set e ed }

def setComponent (st : BuilderState) (c : Nat) (comp : Component) : BuilderState :=
  { st with components := st.components.set c comp }

def setBlock (st : BuilderState) (b : Nat) (blk : Block) : BuilderState :=
  { st with blocks := st.blocks.set b blk }

def setSPQRNode (st : BuilderState) (s : Nat) (sn : SPQRNode) : BuilderState :=
  { st with spqr_nodes := st.spqr_nodes.set s sn }

def pushComponent (st : BuilderState) (comp : Component) : BuilderState :=
  { st with components := st.components ++ [comp] }

def pushBlock (st : BuilderState) (blk : Block) : BuilderState :=
  { st with blocks := st.blocks ++ [blk] }

def pushCutNode (st : BuilderState) (cn : CutNode) : BuilderState :=
  { st with cut_nodes := st.cut_nodes ++ [cn] }

def pushSPQRNode (st : BuilderState) (sn : SPQRNode) : BuilderState :=
  { st with spqr_nodes := st.spqr_nodes ++ [sn] }

def pushSPQREdge (st : BuilderState) (se : SPQREdge) : BuilderState :=
  { st with spqr_edges := st.spqr_edges ++ [se] }

/-! ### Builder operations (`src/decomposition/builder.rs`)

Each operation returns `none` where the Rust code panics (failed `assert!`,
failed `debug_assert!`, out-of-bounds indexing, or `Option::unwrap` on
`None`), and otherwise the updated state (plus the new arena index). -/

/-- Inner loop of `add_component`: claim the incident edges of one listed
node into the new component. -/
def addComponentEdges (index : Nat) (st : BuilderState) : List Nat → Option BuilderState
  | [] => some st
  | e :: rest => do
    let ed ← st.edge_data[e]?
    if ed.component_index = some index then
      addComponentEdges index st rest
    else do
      guard ed.component_index.isNone
      addComponentEdges index
        (setEdgeData st e { ed with component_index := some index }) rest

/-- Outer loop of `add_component`: assign the component to each listed node
and claim its incident edges. -/
def addComponentNodes (g : Graph) (index : Nat) (st : BuilderState) :
    List Nat → Option BuilderState
  | [] => some st
  | n :: rest => do
    let nd ← st.node_data[n]?
    guard nd.component_index.isNone
    let st := setNodeData st n { nd with component_index := some index }
    let st ← addComponentEdges index st (g.incidentEdges n)
    addComponentNodes g index st rest

/-- `SPQRDecompositionBuilder::add_component`. -/
def add_component (g : Graph) (st : BuilderState) (nodes : List Nat) :
    Option (BuilderState × Nat) := do
  guard (nodes ≠ [])
  let index := st.components.length
  let st ← addComponentNodes g index st nodes
  some (pushComponent st { nodes := nodes, blocks := [], cut_nodes := [] }, index)

/-- `SPQRDecompositionBuilder::add_extra_data_to_node`. -/
def add_extra_data_to_node (st : BuilderState) (node : Nat) (extra_data : String) :
    Option BuilderState := do
  let nd ← st.node_data[node]?
  guard (nd.extra_data = "")
  some (setNodeData st node { nd with extra_data := extra_data })

/-- First loop of `add_block`: record the new block membership on each
listed node. -/
def addBlockMembership (component index : Nat) (st : BuilderState) :
    List Nat → Option BuilderState
  | [] => some st
  | n :: rest => do
    let nd ← st.node_data[n]?
    guard (nd.component_index = some component)
    guard (index ∉ nd.block_indices)
    addBlockMembership component index
      (setNodeData st n { nd with block_indices := nd.block_indices ++ [index] }) rest

/-- Body of the edge-claiming loop of `add_block`: an edge is claimed into
the new block the moment both its endpoints are members. -/
def claimBlockEdge (g : Graph) (index : Nat) (st : BuilderState) (e : Nat) :
    Option BuilderState := do
  let ed ← st.edge_data[e]?
  if ed.block_index = some index then
    some st
  else do
    let a := (g.edgeEndpoints e).1
    let b := (g.edgeEndpoints e).2
    let nda ← st.node_data[a]?
    let ndb ← st.node_data[b]?
    if index ∈ nda.block_indices ∧ index ∈ ndb.block_indices then do
      guard ed.block_index.isNone
      some (setEdgeData st e { ed with block_index := some index })
    else
      some st

def claimBlockEdges (g : Graph) (index : Nat) (st : BuilderState) :
    List Nat → Option BuilderState
  | [] => some st
  | e :: rest => do
    let st ← claimBlockEdge g index st e
    claimBlockEdges g index st rest

/-- Second loop of `add_block`: examine the incident edges of every listed
node. -/
def claimBlockNodeEdges (g : Graph) (index : Nat) (st : BuilderState) :
    List Nat → Option BuilderState
  | [] => some st
  | n :: rest => do
    let st ← claimBlockEdges g index st (g.incidentEdges n)
    claimBlockNodeEdges g index st rest

/-- `SPQRDecompositionBuilder::add_block`. -/
def add_block (g : Graph) (st : BuilderState) (component : Nat) (nodes : List Nat) :
    Option (BuilderState × Nat) := do
  guard (nodes ≠ [])
  let index := st.blocks.length
  let comp ← st.components[component]?
  let st := setComponent st component { comp with blocks := comp.blocks ++ [index] }
  let st ← addBlockMembership component index st nodes
  let st ← claimBlockNodeEdges g index st nodes
  some (pushBlock st { component := component, nodes := nodes, cut_nodes := [],
                       spqr_nodes := [], spqr_edges := [] },
        index)

/-- Loop of `add_cut_node` (also reused by `build`'s cut-node inference):
register the new cut node on each listed block.  The `contains` check is a
`debug_assert!` in the source. -/
def registerCutNodeBlocks (cut_node_index : Nat) (st : BuilderState) :
    List Nat → Option BuilderState
  | [] => some st
  | b :: rest => do
    let blk ← st.blocks[b]?
    guard (cut_node_index ∉ blk.cut_nodes)
    registerCutNodeBlocks cut_node_index
      (setBlock st b { blk with cut_nodes := blk.cut_nodes ++ [cut_node_index] }) rest

/-- `SPQRDecompositionBuilder::add_cut_node`. -/
def add_cut_node (st : BuilderState) (cut_node : Nat) (blocks : List Nat) :
    Option (BuilderState × Nat) := do
  guard (blocks ≠ [])
  let cut_node_index := st.cut_nodes.length
  let nd ← st.node_data[cut_node]?
  guard nd.cut_node_index.isNone
  let st := setNodeData st cut_node { nd with cut_node_index := some cut_node_index }
  let component_index ← nd.component_index
  let comp ← st.components[component_index]?
  let st := setComponent st component_index
    { comp with cut_nodes := comp.cut_nodes ++ [cut_node_index] }
  let st ← registerCutNodeBlocks cut_node_index st blocks
  some (pushCutNode st { component := component_index, node := cut_node,
                         adjacent_blocks := blocks },
        cut_node_index)

/-- Loop of `add_spqr_node`: record the new SPQR-node membership on each
listed node (after checking component and block membership). -/
def addSPQRNodeMembership (component block index : Nat) (st : BuilderState) :
    List Nat → Option BuilderState
  | [] => some st
  | n :: rest => do
    let nd ← st.node_data[n]?
    guard (nd.component_index = some component)
    guard (block ∈ nd.block_indices)
    guard (index ∉ nd.spqr_node_indices)
    addSPQRNodeMembership component block index
      (setNodeData st n { nd with spqr_node_indices := nd.spqr_node_indices ++ [index] })
      rest

/-- `SPQRDecompositionBuilder::add_spqr_node`. -/
def add_spqr_node (st : BuilderState) (block : Nat) (nodes : List Nat)
    (spqr_node_type : SPQRNodeType) : Option (BuilderState × Nat) := do
  guard (2 ≤ nodes.length)
  let index := st.spqr_nodes.length
  let blk ← st.blocks[block]?
  let st := setBlock st block { blk with spqr_nodes := blk.spqr_nodes ++ [index] }
  let st ← addSPQRNodeMembership blk.component block index st nodes
  some (pushSPQRNode st { block := block, nodes := nodes, edges := [],
                          spqr_node_type := spqr_node_type, spqr_edges := [] },
        index)

/-- `SPQRDecompositionBuilder::add_edge_to_spqr_node`. -/
def add_edge_to_spqr_node (g : Graph) (st : BuilderState) (edge spqr_node : Nat) :
    Option BuilderState := do
  let ed ← st.edge_data[edge]?
  guard ed.spqr_node_index.isNone
  let a := (g.edgeEndpoints edge).1
  let b := (g.edgeEndpoints edge).2
  let nda ← st.node_data[a]?
  guard (spqr_node ∈ nda.spqr_node_indices)
  let ndb ← st.node_data[b]?
  guard (spqr_node ∈ ndb.spqr_node_indices)
  let st := setEdgeData st edge { ed with spqr_node_index := some spqr_node }
  let sn ← st.spqr_nodes[spqr_node]?
  some (setSPQRNode st spqr_node { sn with edges := sn.edges ++ [edge] })

/-- Second half of `add_spqr_edge` (split for elaboration speed): the four
shared-pole assertions, the per-skeleton incidence registration, and the
arena push. -/
def add_spqr_edge_registration (st : BuilderState) (index : Nat)
    (endpoints : Nat × Nat) (virtual_edge : Nat × Nat) : Option (BuilderState × Nat) := do
  let nda ← st.node_data[virtual_edge.1]?
  guard (endpoints.1 ∈ nda.spqr_node_indices)
  guard (endpoints.2 ∈ nda.spqr_node_indices)
  let ndb ← st.node_data[virtual_edge.2]?
  guard (endpoints.1 ∈ ndb.spqr_node_indices)
  guard (endpoints.2 ∈ ndb.spqr_node_indices)
  let su ← st.spqr_nodes[endpoints.1]?
  guard (index ∉ su.spqr_edges)
  let sv ← st.spqr_nodes[endpoints.2]?
  guard (index ∉ sv.spqr_edges)
  let st := setSPQRNode st endpoints.1 { su with spqr_edges := su.spqr_edges ++ [index] }
  let sv2 ← st.spqr_nodes[endpoints.2]?
  let st := setSPQRNode st endpoints.2 { sv2 with spqr_edges := sv2.spqr_edges ++ [index] }
  some (pushSPQREdge st { endpoints := endpoints, virtual_edge := virtual_edge }, index)

/-- `SPQRDecompositionBuilder::add_spqr_edge`: block inference/agreement,
then the registration half above. -/
def add_spqr_edge (st : BuilderState) (blockArg : Option Nat)
    (endpoints : Nat × Nat) (virtual_edge : Nat × Nat) : Option (BuilderState × Nat) := do
  let block ←
    match blockArg with
    | some b => some b
    | none => do
      let su ← st.spqr_nodes[endpoints.1]?
      let sv ← st.spqr_nodes[endpoints.2]?
      guard (su.block = sv.block)
      some su.block
  let index := st.spqr_edges.length
  let su ← st.spqr_nodes[endpoints.1]?
  guard (su.block = block)
  let sv ← st.spqr_nodes[endpoints.2]?
  guard (sv.block = block)
  let blk ← st.blocks[block]?
  let st := setBlock st block { blk with spqr_edges := blk.spqr_edges ++ [index] }
  add_spqr_edge_registration st index endpoints virtual_edge

/-! ### `build()` -/

/-- First `build` loop: the per-node `debug_assert!`s that every node got a
component, a block and an SPQR node. -/
def checkNodesAssigned (st : BuilderState) : List Nat → Option Unit
  | [] => some ()
  | i :: rest => do
    let nd ← st.node_data[i]?
    guard nd.component_index.isSome
    guard (nd.block_indices ≠ [])
    guard (nd.spqr_node_indices ≠ [])
    checkNodesAssigned st rest

/-- Second `build` loop: the per-edge `debug_assert!`s. -/
def checkEdgesAssigned (st : BuilderState) : List Nat → Option Unit
  | [] => some ()
  | i :: rest => do
    let ed ← st.edge_data[i]?
    guard ed.component_index.isSome
    guard ed.block_index.isSome
    guard ed.spqr_node_index.isSome
    checkEdgesAssigned st rest

/-- One iteration of the cut-node inference loop of `build`. -/
def inferCutNode (st : BuilderState) (node_index : Nat) : Option BuilderState := do
  let nd ← st.node_data[node_index]?
  if nd.cut_node_index.isSome then
    some st
  else if 2 ≤ nd.block_indices.length then do
    let block_indices := nd.block_indices
    let component_index ← nd.component_index
    let cut_node_index := st.cut_nodes.length
    let comp ← st.components[component_index]?
    let st := setComponent st component_index
      { comp with cut_nodes := comp.cut_nodes ++ [cut_node_index] }
    let st ← registerCutNodeBlocks cut_node_index st block_indices
    let nd2 ← st.node_data[node_index]?
    guard nd2.cut_node_index.isNone
    let st := setNodeData st node_index { nd2 with cut_node_index := some cut_node_index }
    some (pushCutNode st { component := component_index, node := node_index,
                           adjacent_blocks := block_indices })
  else
    some st

def inferCutNodes (st : BuilderState) : List Nat → Option BuilderState
  | [] => some st
  | i :: rest => do
    let st ← inferCutNode st i
    inferCutNodes st rest

/-- `SPQRDecompositionNodeDataBuilder::build` (unwraps the component). -/
def finalizeNodeData (nd : SPQRDecompositionNodeDataBuilder) :
    Option SPQRDecompositionNodeData := do
  let c ← nd.component_index
  some { component_index := c, block_indices := nd.block_indices,
         cut_node_index := nd.cut_node_index,
         spqr_node_indices := nd.spqr_node_indices, extra_data := nd.extra_data }

/-- `SPQRDecompositionEdgeDataBuilder::build` (unwraps all three). -/
def finalizeEdgeData (ed : SPQRDecompositionEdgeDataBuilder) :
    Option SPQRDecompositionEdgeData := do
  let c ← ed.component_index
  let b ← ed.block_index
  let s ← ed.spqr_node_index
  some { component_index := c, block_index := b, spqr_node_index := s,
         extra_data := ed.extra_data }

def finalizeNodeDataList : List SPQRDecompositionNodeDataBuilder →
    Option (List SPQRDecompositionNodeData)
  | [] => some []
  | nd :: rest => do
    let nd' ← finalizeNodeData nd
    let rest' ← finalizeNodeDataList rest
    some (nd' :: rest')

def finalizeEdgeDataList : List SPQRDecompositionEdgeDataBuilder →
    Option (List SPQRDecompositionEdgeData)
  | [] => some []
  | ed :: rest => do
    let ed' ← finalizeEdgeData ed
    let rest' ← finalizeEdgeDataList rest
    some (ed' :: rest')

/-- `SPQRDecompositionBuilder::build`. -/
def build (g : Graph) (st : BuilderState) : Option SPQRDecomposition := do
  checkNodesAssigned st (List.range g.nodeCount)
  checkEdgesAssigned st (List.range g.edgeCount)
  let st ← inferCutNodes st (List.range g.nodeCount)
  let node_data ← finalizeNodeDataList st.node_data
  let edge_data ← finalizeEdgeDataList st.edge_data
  some { components := st.components, blocks := st.blocks, cut_nodes := st.cut_nodes,
         spqr_nodes := st.spqr_nodes, spqr_edges := st.spqr_edges,
         node_data := node_data, edge_data := edge_data }

/-! ### Builder programs -/

/-- One caller-issued builder call. -/
inductive BuilderOp
  | addComponent (nodes : List Nat)
  | addExtraDataToNode (node : Nat) (extra_data : String)
  | addBlock (component : Nat) (nodes : List Nat)
  | addCutNode (cut_node : Nat) (blocks : List Nat)
  | addSPQRNode (block : Nat) (nodes : List Nat) (spqr_node_type : SPQRNodeType)
  | addEdgeToSPQRNode (edge spqr_node : Nat)
  | addSPQREdge (blockArg : Option Nat) (endpoints virtual_edge : Nat × Nat)
deriving Repr, DecidableEq

def applyOp (g : Graph) (st : BuilderState) : BuilderOp → Option BuilderState
  | .addComponent nodes => (add_component g st nodes).map Prod.fst
  | .addExtraDataToNode node extra_data => add_extra_data_to_node st node extra_data
  | .addBlock component nodes => (add_block g st component nodes).map Prod.fst
  | .addCutNode cut_node blocks => (add_cut_node st cut_node blocks).map Prod.fst
  | .addSPQRNode block nodes t => (add_spqr_node st block nodes t).map Prod.fst
  | .addEdgeToSPQRNode edge spqr_node => add_edge_to_spqr_node g st edge spqr_node
  | .addSPQREdge blockArg endpoints virtual_edge =>
      (add_spqr_edge st blockArg endpoints virtual_edge).map Prod.fst

def runOps (g : Graph) (st : BuilderState) : List BuilderOp → Option BuilderState
  | [] => some st
  | op :: rest => do
    let st ← applyOp g st op
    runOps g st rest

/-- Drive a fresh builder through `ops` and finalize with `build`. -/
def buildDecomposition (g : Graph) (ops : List BuilderOp) : Option SPQRDecomposition := do
  let st ← runOps g (BuilderState.new g) ops
  build g st

/-- Record accessors on the finished decomposition, mirroring the Rust
accessors (out-of-range reads use a default; all theorem statements stay in
range). -/
def SPQRDecomposition.ndAt (d : SPQRDecomposition) (n : Nat) : SPQRDecompositionNodeData :=
  d.node_data.getD n { component_index := 0, block_indices := [], cut_node_index := none,
                       spqr_node_indices := [], extra_data := "" }

def SPQRDecomposition.edAt (d : SPQRDecomposition) (e : Nat) : SPQRDecompositionEdgeData :=
  d.edge_data.getD e { component_index := 0, block_index := 0, spqr_node_index := 0,
                       extra_data := "" }

def SPQRDecomposition.blkAt (d : SPQRDecomposition) (b : Nat) : Block :=
  d.blocks.getD b { component := 0, nodes := [], cut_nodes := [], spqr_nodes := [],
                    spqr_edges := [] }

def SPQRDecomposition.compAt (d : SPQRDecomposition) (c : Nat) : Component :=
  d.components.getD c { nodes := [], blocks := [], cut_nodes := [] }

def SPQRDecomposition.cnAt (d : SPQRDecomposition) (c : Nat) : CutNode :=
  d.cut_nodes.getD c { component := 0, node := 0, adjacent_blocks := [] }

def SPQRDecomposition.snAt (d : SPQRDecomposition) (s : Nat) : SPQRNode :=
  d.spqr_nodes.getD s { block := 0, nodes := [], edges := [],
                        spqr_node_type := SPQRNodeType.SNode, spqr_edges := [] }

def SPQRDecomposition.seAt (d : SPQRDecomposition) (k : Nat) : SPQREdge :=
  d.spqr_edges.getD k { endpoints := (0, 0), virtual_edge := (0, 0) }

/-! ### Text codec (`src/io/plain_spqr_file.rs`)

Files are modelled as `List Char`.  Tokenisation follows
`read_utils::read_next_line`: split the input on `'\n'`, strip a
`'#'`-delimited trailing comment, trim (ASCII whitespace; the source trims
Unicode whitespace, which only differs on exotic inputs none of the claims
use), skip blank lines, and split each remaining line on single `' '`
characters (empty tokens between consecutive spaces are kept, as with
Rust's `str::split(' ')`). -/

def splitOnChar (sep : Char) (l : List Char) : List (List Char) :=
  l.foldr
    (fun c acc =>
      if c = sep then [] :: acc
      else
        match acc with
        | [] => [[c]]
        | t :: ts => (c :: t) :: ts)
    [[]]

def isSpaceChar (c : Char) : Bool := c = ' ' || c = '\t' || c = '\r'

def trimChars (l : List Char) : List Char :=
  ((l.dropWhile isSpaceChar).reverse.dropWhile isSpaceChar).reverse

def stripComment (l : List Char) : List Char := l.takeWhile (fun c => c ≠ '#')

/-- The token lists of the non-blank lines of the input, in order. -/
def tokenLines (input : List Char) : List (List (List Char)) :=
  (splitOnChar '\n' input).filterMap fun l =>
    let l := trimChars (stripComment l)
    if l = [] then none else some (splitOnChar ' ' l)

/-- Rust `str::parse::<usize>` restricted to plain digit strings (the
source also accepts a leading `+`, which no writer ever produces). -/
def parseUsize (l : List Char) : Option Nat :=
  if l ≠ [] ∧ l.all Char.isDigit then
    some (l.foldl (fun acc c => acc * 10 + (c.toNat - 48)) 0)
  else
    none

/-- `StaticGraph::node_index_from_name` as implemented by
`BidirectedAdjacencyArray`: strip one leading `N`, parse, bounds-check. -/
def Graph.node_index_from_name (g : Graph) (name : List Char) : Option Nat := do
  let stripped := match name with
    | 'N' :: rest => rest
    | l => l
  let idx ← parseUsize stripped
  if idx < g.nodeCount then some idx else none

/-- `StaticGraph::node_name` as implemented by `BidirectedAdjacencyArray`. -/
def nodeNameOf (n : Nat) : List Char := 'N' :: (Nat.repr n).data

/-- `StaticGraph::edge_name` as implemented by `BidirectedAdjacencyArray`. -/
def edgeNameOf (e : Nat) : List Char := 'E' :: (Nat.repr e).data

/-- The `edge_between` helper used by the reader's E branch (provided by
the graph implementation as the first element of `edges_between(u, v)`):
the first incident edge of `u` having `v` as an endpoint. -/
def Graph.edge_between (g : Graph) (u v : Nat) : Option Nat :=
  (g.incidentEdges u).find? fun e =>
    ((g.edgeEndpoints e).1 == v) || ((g.edgeEndpoints e).2 == v)

/-- `ReadError` from `src/io/plain_spqr_file/error.rs` (the `Io` variant is
omitted: in-memory reads never fail). -/
inductive ReadError
  | InvalidLineType (t : List Char)
  | MissingHeader
  | UnsupportedVersion
  | MissingHeaderUrl
  | MissingComponentNameInGLine
  | EmptyComponent
  | MissingNodeNameInNLine
  | UnknownNodeName (name : List Char)
  | MissingBlockNameInBLine
  | MissingComponentNameInBLine
  | UnknownComponentName (name : List Char)
  | EmptyBlock
  | MissingNodeNameInCLine
  | UnknownBlockName (name : List Char)
  | EmptyCutNode
  | MissingSPQRNodeNameInSPRLine
  | MissingBlockNameInSPRLine
  | LessThanTwoNodesInSPQRNode
  | MissingSPQREdgeNameInVLine
  | MissingSPQRNodeNameInVLine
  | MissingNodeNameInVLine
  | UnknownSPQRNodeName (name : List Char)
  | SPQREdgeBetweenDifferentBlocks (name : List Char)
  | MissingEdgeNameInELine
  | MissingSPQRNodeNameInELine
  | MissingBlockNameInELine
  | MissingNodeNameInELine
  | EdgeDoesNotExist (name : List Char)
deriving Repr, DecidableEq

/-- Outcome of `read`: a typed parse error, a finished decomposition, or a
builder panic (`crash`) — the reader calls the fail-fast builder directly
and does not catch its panics. -/
inductive ReadOutcome
  | ok (d : SPQRDecomposition)
  | err (e : ReadError)
  | crash
deriving Repr, DecidableEq

/-- Resolve a list of node-name tokens (`collect::<Result<Vec<_>, _>>`:
stops at the first unknown name). -/
def resolveNodeNames (g : Graph) : List (List Char) → Except ReadError (List Nat)
  | [] => .ok []
  | name :: rest =>
    match g.node_index_from_name name with
    | none => .error (.UnknownNodeName name)
    | some i =>
      match resolveNodeNames g rest with
      | .error e => .error e
      | .ok is => .ok (i :: is)

def lookupName (m : List (List Char × Nat)) (k : List Char) : Option Nat :=
  match m with
  | [] => none
  | (k', v) :: rest => if k' = k then some v else lookupName rest k

/-- Resolve a list of block-name tokens against the declared-name map. -/
def resolveBlockNames (bmap : List (List Char × Nat)) :
    List (List Char) → Except ReadError (List Nat)
  | [] => .ok []
  | name :: rest =>
    match lookupName bmap name with
    | none => .error (.UnknownBlockName name)
    | some i =>
      match resolveBlockNames bmap rest with
      | .error e => .error e
      | .ok is => .ok (i :: is)

/-- Join tokens with single spaces (`line[2..].join(" ")`). -/
def joinTokens : List (List Char) → List Char
  | [] => []
  | [t] => t
  | t :: rest => t ++ ' ' :: joinTokens rest

/-- The record-processing loop of `read`.  `cmap`/`bmap`/`smap`/`vmap` are
the name→index maps for components, blocks, SPQR nodes and SPQR edges
(`HashMap::insert` overwrite is modelled by prepending, `get` by
first-match lookup). -/
def readRecords (g : Graph) (st : BuilderState)
    (cmap bmap smap vmap : List (List Char × Nat)) :
    List (List (List Char)) → ReadOutcome
  | [] =>
    match build g st with
    | some d => .ok d
    | none => .crash
  | line :: rest =>
    match line.head? with
    | none => .crash
    | some t0 =>
      if t0 = ['G'] then
        match line.get? 1 with
        | none => .err .MissingComponentNameInGLine
        | some component_name =>
          match resolveNodeNames g (line.drop 2) with
          | .error e => .err e
          | .ok nodes =>
            if nodes = [] then .err .EmptyComponent
            else
              match add_component g st nodes with
              | none => .crash
              | some (st, component_index) =>
                readRecords g st ((component_name, component_index) :: cmap) bmap smap vmap rest
      else if t0 = ['N'] then
        match line.get? 1 with
        | none => .err .MissingNodeNameInNLine
        | some node_name =>
          let extra_data := joinTokens (line.drop 2)
          match g.node_index_from_name node_name with
          | none => .err (.UnknownNodeName node_name)
          | some node_index =>
            match add_extra_data_to_node st node_index (String.mk extra_data) with
            | none => .crash
            | some st => readRecords g st cmap bmap smap vmap rest
      else if t0 = ['B'] then
        match line.get? 1 with
        | none => .err .MissingBlockNameInBLine
        | some block_name =>
          match line.get? 2 with
          | none => .err .MissingComponentNameInBLine
          | some component_name =>
            match lookupName cmap component_name with
            | none => .err (.UnknownComponentName component_name)
            | some component_index =>
              match resolveNodeNames g (line.drop 3) with
              | .error e => .err e
              | .ok nodes =>
                if nodes = [] then .err .EmptyBlock
                else
                  match add_block g st component_index nodes with
                  | none => .crash
                  | some (st, block_index) =>
                    readRecords g st cmap ((block_name, block_index) :: bmap) smap vmap rest
      else if t0 = ['C'] then
        match line.get? 1 with
        | none => .err .MissingNodeNameInCLine
        | some cut_node_name =>
          match g.node_index_from_name cut_node_name with
          | none => .err (.UnknownNodeName cut_node_name)
          | some cut_node_index =>
            match resolveBlockNames bmap (line.drop 2) with
            | .error e => .err e
            | .ok block_indices =>
              if block_indices = [] then .err .EmptyCutNode
              else
                match add_cut_node st cut_node_index block_indices with
                | none => .crash
                | some (st, _) => readRecords g st cmap bmap smap vmap rest
      else if t0 = ['S'] ∨ t0 = ['P'] ∨ t0 = ['R'] then
        let spqr_node_type : SPQRNodeType :=
          if t0 = ['S'] then .SNode else if t0 = ['P'] then .PNode else .RNode
        match line.get? 1 with
        | none => .err .MissingSPQRNodeNameInSPRLine
        | some spqr_node_name =>
          match line.get? 2 with
          | none => .err .MissingBlockNameInSPRLine
          | some block_name =>
            match lookupName bmap block_name with
            | none => .err (.UnknownBlockName block_name)
            | some block_index =>
              match resolveNodeNames g (line.drop 3) with
              | .error e => .err e
              | .ok nodes =>
                if nodes.length < 2 then .err .LessThanTwoNodesInSPQRNode
                else
                  match add_spqr_node st block_index nodes spqr_node_type with
                  | none => .crash
                  | some (st, spqr_node_index) =>
                    readRecords g st cmap bmap ((spqr_node_name, spqr_node_index) :: smap) vmap rest
      else if t0 = ['V'] then
        match line.get? 1 with
        | none => .err .MissingSPQREdgeNameInVLine
        | some spqr_edge_name =>
          match line.get? 2 with
          | none => .err .MissingSPQRNodeNameInVLine
          | some spqr_node_name_u =>
            match line.get? 3 with
            | none => .err .MissingSPQRNodeNameInVLine
            | some spqr_node_name_v =>
              match line.get? 4 with
              | none => .err .MissingNodeNameInVLine
              | some node_name_u =>
                match line.get? 5 with
                | none => .err .MissingNodeNameInVLine
                | some node_name_v =>
                  match lookupName smap spqr_node_name_u with
                  | none => .err (.UnknownSPQRNodeName spqr_node_name_u)
                  | some spqr_node_index_u =>
                    match lookupName smap spqr_node_name_v with
                    | none => .err (.UnknownSPQRNodeName spqr_node_name_v)
                    | some spqr_node_index_v =>
                      match g.node_index_from_name node_name_u with
                      | none => .err (.UnknownNodeName node_name_u)
                      | some node_index_u =>
                        match g.node_index_from_name node_name_v with
                        | none => .err (.UnknownNodeName node_name_v)
                        | some node_index_v =>
                          match st.spqr_nodes.get? spqr_node_index_u,
                                st.spqr_nodes.get? spqr_node_index_v with
                          | some su, some sv =>
                            if su.block ≠ sv.block then
                              .err (.SPQREdgeBetweenDifferentBlocks spqr_edge_name)
                            else
                              match add_spqr_edge st (some su.block)
                                      (spqr_node_index_u, spqr_node_index_v)
                                      (node_index_u, node_index_v) with
                              | none => .crash
                              | some (st, spqr_edge_index) =>
                                readRecords g st cmap bmap smap
                                  ((spqr_edge_name, spqr_edge_index) :: vmap) rest
                          | _, _ => .crash
      else if t0 = ['E'] then
        match line.get? 1 with
        | none => .err .MissingEdgeNameInELine
        | some edge_name =>
          match line.get? 2 with
          | none => .err .MissingSPQRNodeNameInELine
          | some spqr_node_name =>
            match line.get? 3 with
            | none => .err .MissingBlockNameInELine
            | some block_name =>
              match line.get? 4 with
              | none => .err .MissingNodeNameInELine
              | some node_name_u =>
                match line.get? 5 with
                | none => .err .MissingNodeNameInELine
                | some node_name_v =>
                  match g.node_index_from_name node_name_u with
                  | none => .err (.UnknownNodeName node_name_u)
                  | some node_index_u =>
                    match g.node_index_from_name node_name_v with
                    | none => .err (.UnknownNodeName node_name_v)
                    | some node_index_v =>
                      match g.edge_between node_index_u node_index_v with
                      | none => .err (.EdgeDoesNotExist edge_name)
                      | some edge_index =>
                        match lookupName smap spqr_node_name with
                        | none => .err (.UnknownSPQRNodeName spqr_node_name)
                        | some spqr_node_index =>
                          match lookupName bmap block_name with
                          | none => .err (.UnknownBlockName block_name)
                          | some _block_index =>
                            match add_edge_to_spqr_node g st edge_index spqr_node_index with
                            | none => .crash
                            | some st => readRecords g st cmap bmap smap vmap rest
      else
        .err (.InvalidLineType t0)

/-- `plain_spqr_file::read`. -/
def read (g : Graph) (input : List Char) : ReadOutcome :=
  match tokenLines input with
  | [] => .err .MissingHeader
  | header :: rest =>
    if header.head? ≠ some ['H'] then .err .MissingHeader
    else if header.get? 1 ≠ some ("v0.1".data) then .err .UnsupportedVersion
    else if header.get? 2 = none then .err .MissingHeaderUrl
    else readRecords g (BuilderState.new g) [] [] [] [] rest

/-! ### Text writer (`plain_spqr_file::write`) -/

/-- `SPQRDecomposition::spqr_node_name`: type letter followed by the arena
index. -/
def SPQRDecomposition.spqr_node_name (d : SPQRDecomposition) (s : Nat) : List Char :=
  match (d.snAt s).spqr_node_type with
  | .SNode => 'S' :: (Nat.repr s).data
  | .PNode => 'P' :: (Nat.repr s).data
  | .RNode => 'R' :: (Nat.repr s).data

def blockNameOf (b : Nat) : List Char := 'B' :: (Nat.repr b).data

def componentNameOf (c : Nat) : List Char := 'G' :: (Nat.repr c).data

/-- The E-record lines of one SPQR node (`// Write edges (Q-nodes).`). -/
def writeSPQRNodeEdgeLines (g : Graph) (d : SPQRDecomposition)
    (spqr_node_name : List Char) (block_index : Nat) (edges : List Nat) :
    List (List Char) :=
  edges.map fun edge_index =>
    let u := (g.edgeEndpoints edge_index).1
    let v := (g.edgeEndpoints edge_index).2
    let base := ('E' :: ' ' :: edgeNameOf edge_index) ++ ' ' :: spqr_node_name ++
      ' ' :: blockNameOf block_index ++ ' ' :: nodeNameOf u ++ ' ' :: nodeNameOf v
    let extra := (d.edAt edge_index).extra_data
    if extra = "" then base else base ++ ' ' :: extra.data

/-- The S/P/R-record line of one SPQR node plus its E-record lines. -/
def writeSPQRNodeLines (g : Graph) (d : SPQRDecomposition) (block_index : Nat)
    (spqr_node_index : Nat) : List (List Char) :=
  let sn := d.snAt spqr_node_index
  let name := d.spqr_node_name spqr_node_index
  let letter : List Char :=
    match sn.spqr_node_type with
    | .SNode => ['S']
    | .PNode => ['P']
    | .RNode => ['R']
  let head := letter ++ ' ' :: name ++ ' ' :: blockNameOf block_index ++
    (sn.nodes.flatMap fun n => ' ' :: nodeNameOf n)
  head :: writeSPQRNodeEdgeLines g d name block_index sn.edges

/-- The V-record line of one SPQR edge. -/
def writeSPQREdgeLine (d : SPQRDecomposition) (spqr_edge_index : Nat) : List Char :=
  let se := d.seAt spqr_edge_index
  ('V' :: ' ' :: 'V' :: (Nat.repr spqr_edge_index).data) ++
    ' ' :: d.spqr_node_name se.endpoints.1 ++
    ' ' :: d.spqr_node_name se.endpoints.2 ++
    ' ' :: nodeNameOf se.virtual_edge.1 ++ ' ' :: nodeNameOf se.virtual_edge.2

/-- The B-record line of one block plus the lines of its SPQR nodes and
SPQR edges. -/
def writeBlockLines (g : Graph) (d : SPQRDecomposition) (component_index : Nat)
    (block_index : Nat) : List (List Char) :=
  let blk := d.blkAt block_index
  let head := ('B' :: ' ' :: blockNameOf block_index) ++ ' ' :: componentNameOf component_index ++
    (blk.nodes.flatMap fun n => ' ' :: nodeNameOf n)
  head :: ((blk.spqr_nodes.flatMap (writeSPQRNodeLines g d block_index)) ++
    blk.spqr_edges.map (writeSPQREdgeLine d))

/-- The cut-node record as the writer actually emits it: a `writeln!` after
the node name ends the line, so the adjacent-block references land on a
separate following line. -/
def writeCutNodeLines (d : SPQRDecomposition) (cut_node_index : Nat) : List (List Char) :=
  let cn := d.cnAt cut_node_index
  [('C' :: ' ' :: nodeNameOf cn.node),
   cn.adjacent_blocks.flatMap fun b => ' ' :: blockNameOf b]

/-- The G-record line of one component plus its cut-node and block lines
(cut nodes are written before the blocks they reference). -/
def writeComponentLines (g : Graph) (d : SPQRDecomposition) (component_index : Nat) :
    List (List Char) :=
  let comp := d.compAt component_index
  let head := ('G' :: ' ' :: componentNameOf component_index) ++
    (comp.nodes.flatMap fun n => ' ' :: nodeNameOf n)
  head :: (comp.cut_nodes.flatMap (writeCutNodeLines d) ++
    comp.blocks.flatMap (writeBlockLines g d component_index))

/-- `plain_spqr_file::write`, as the list of lines it emits. -/
def write (g : Graph) (d : SPQRDecomposition) : List (List Char) :=
  "H v0.1 https://github.com/sebschmi/SPQR-tree-file-format".data ::
    ((List.range g.nodeCount).filterMap fun n =>
      let extra := (d.ndAt n).extra_data
      if extra = "" then none
      else some (('N' :: ' ' :: nodeNameOf n) ++ ' ' :: extra.data)) ++
    (List.range d.components.length).flatMap (writeComponentLines g d)

/-- Concatenate written lines into a file (`writeln!` terminates every line
with `'\n'`). -/
def joinLines (lines : List (List Char)) : List Char :=
  lines.flatMap fun l => l ++ ['\n']

/-! ### Binary codec (`src/io/binary.rs`)

Byte streams are `List Nat` (each element a byte value).  The source dumps
native in-memory representations: `usize` and every arena index are written
as native-endian fixed-width integers (modelled as 8-byte little-endian;
the claims are per the spec restricted to one platform/build, so only the
fixed width and injectivity matter), the optional cut-node index uses the
library's max-value sentinel, and strings are written as a length followed
by their contents (modelled at character granularity: 4 bytes per scalar
value, where the source writes the UTF-8 bytes; `String::from_utf8(..)
.unwrap()` on malformed content is the `crash` outcome, matching an invalid
scalar value here).  Reads that run out of input are the `ioError` outcome
(`read_exact` failing); `SPQRNodeType::read_binary` hits `panic!()` on a
tag byte outside `0..=2`, the other `crash` outcome. -/

/-- Failure modes of the binary reader: a generic I/O error (truncated
input) or a Rust panic. -/
inductive BinErr
  | ioError
  | crash
deriving Repr, DecidableEq

instance {ε α : Type} [DecidableEq ε] [DecidableEq α] : DecidableEq (Except ε α) :=
  fun a b =>
    match a, b with
    | .error e, .error e' =>
      if h : e = e' then .isTrue (by rw [h]) else .isFalse (fun hh => h (by cases hh; rfl))
    | .ok x, .ok y =>
      if h : x = y then .isTrue (by rw [h]) else .isFalse (fun hh => h (by cases hh; rfl))
    | .error _, .ok _ => .isFalse (fun hh => Except.noConfusion hh)
    | .ok _, .error _ => .isFalse (fun hh => Except.noConfusion hh)

def USIZE : Nat := 2 ^ 64

def SENTINEL : Nat := 2 ^ 64 - 1

def toLEBytes : Nat → Nat → List Nat
  | 0, _ => []
  | k + 1, n => (n % 256) :: toLEBytes k (n / 256)

def fromLEBytes : List Nat → Nat
  | [] => 0
  | b :: bs => b + 256 * fromLEBytes bs

/-- Read exactly `k` bytes (`read_exact`: short reads are I/O errors). -/
def readBytes (k : Nat) (input : List Nat) : Except BinErr (List Nat × List Nat) :=
  if k ≤ input.length then .ok (input.take k, input.drop k) else .error .ioError

/-- Sequencing with early return, mirroring Rust's `?` operator. -/
def andThen (m : Except BinErr (α × List Nat))
    (k : α → List Nat → Except BinErr β) : Except BinErr β :=
  match m with
  | .error e => .error e
  | .ok (x, r) => k x r

theorem andThen_ok {m : Except BinErr (α × List Nat)} {x : α} {r : List Nat}
    {k : α → List Nat → Except BinErr β} (h : m = .ok (x, r)) : andThen m k = k x r := by
  subst h; rfl

theorem andThen_err {m : Except BinErr (α × List Nat)} {e : BinErr}
    {k : α → List Nat → Except BinErr β} (h : m = .error e) : andThen m k = .error e := by
  subst h; rfl

def write_usize_binary (n : Nat) : List Nat := toLEBytes 8 n

def read_usize_binary (input : List Nat) : Except BinErr (Nat × List Nat) :=
  andThen (readBytes 8 input) fun bs r => .ok (fromLEBytes bs, r)

/-- A plain arena index (`read_binary::<SomeIndex>`). -/
def write_index_binary (n : Nat) : List Nat := toLEBytes 8 n

def read_index_binary (input : List Nat) : Except BinErr (Nat × List Nat) :=
  read_usize_binary input

/-- An optional index in its sentinel representation
(`OptionalCutNodeIndex`: `None` is the maximum index value). -/
def write_opt_index_binary : Option Nat → List Nat
  | none => toLEBytes 8 SENTINEL
  | some i => toLEBytes 8 i

def read_opt_index_binary (input : List Nat) : Except BinErr (Option Nat × List Nat) :=
  andThen (read_usize_binary input) fun v r =>
    .ok (if v = SENTINEL then none else some v, r)

def write_index_pair_binary (p : Nat × Nat) : List Nat :=
  write_index_binary p.1 ++ write_index_binary p.2

def read_index_pair_binary (input : List Nat) : Except BinErr ((Nat × Nat) × List Nat) :=
  andThen (read_index_binary input) fun a r =>
  andThen (read_index_binary r) fun b r =>
  .ok ((a, b), r)

/-- `write_slice_binary`: length prefix followed by the elements. -/
def write_vec_binary (enc : α → List Nat) (l : List α) : List Nat :=
  write_usize_binary l.length ++ l.flatMap enc

def readNBinary (dec : List Nat → Except BinErr (α × List Nat)) :
    Nat → List Nat → Except BinErr (List α × List Nat)
  | 0, input => .ok ([], input)
  | k + 1, input =>
    andThen (dec input) fun x r =>
    andThen (readNBinary dec k r) fun xs r' =>
    .ok (x :: xs, r')

/-- `read_vec_binary`. -/
def read_vec_binary (dec : List Nat → Except BinErr (α × List Nat))
    (input : List Nat) : Except BinErr (List α × List Nat) :=
  andThen (read_usize_binary input) fun len r => readNBinary dec len r

def write_char_binary (c : Char) : List Nat := toLEBytes 4 c.toNat

def read_char_binary (input : List Nat) : Except BinErr (Char × List Nat) :=
  andThen (readBytes 4 input) fun bs r =>
    let v := fromLEBytes bs
    if h : v.isValidChar then .ok (Char.ofNatAux v h, r) else .error .crash

/-- `write_str_binary`. -/
def write_str_binary (s : String) : List Nat :=
  write_usize_binary s.data.length ++ s.data.flatMap write_char_binary

/-- `read_string_binary` (the `from_utf8(..).unwrap()` panic is the
invalid-scalar `crash` case in `read_char_binary`). -/
def read_string_binary (input : List Nat) : Except BinErr (String × List Nat) :=
  andThen (read_usize_binary input) fun len r =>
  andThen (readNBinary read_char_binary len r) fun cs r' =>
  .ok (String.mk cs, r')

/-- `SPQRNodeType::write_binary`. -/
def SPQRNodeType.write_binary : SPQRNodeType → List Nat
  | .SNode => [0]
  | .PNode => [1]
  | .RNode => [2]

/-- `SPQRNodeType::read_binary`: `panic!()` on any tag byte other than
`0`, `1`, `2`. -/
def SPQRNodeType.read_binary (input : List Nat) :
    Except BinErr (SPQRNodeType × List Nat) :=
  andThen (readBytes 1 input) fun bs r =>
    match bs.getD 0 0 with
    | 0 => .ok (.SNode, r)
    | 1 => .ok (.PNode, r)
    | 2 => .ok (.RNode, r)
    | _ => .error .crash

def Component.write_binary (c : Component) : List Nat :=
  write_vec_binary write_index_binary c.nodes ++
  write_vec_binary write_index_binary c.blocks ++
  write_vec_binary write_index_binary c.cut_nodes

def Component.read_binary (input : List Nat) : Except BinErr (Component × List Nat) :=
  andThen (read_vec_binary read_index_binary input) fun nodes r =>
  andThen (read_vec_binary read_index_binary r) fun blocks r =>
  andThen (read_vec_binary read_index_binary r) fun cut_nodes r =>
  .ok ({ nodes := nodes, blocks := blocks, cut_nodes := cut_nodes }, r)

def Block.write_binary (b : Block) : List Nat :=
  write_index_binary b.component ++
  write_vec_binary write_index_binary b.nodes ++
  write_vec_binary write_index_binary b.cut_nodes ++
  write_vec_binary write_index_binary b.spqr_nodes ++
  write_vec_binary write_index_binary b.spqr_edges

def Block.read_binary (input : List Nat) : Except BinErr (Block × List Nat) :=
  andThen (read_index_binary input) fun component r =>
  andThen (read_vec_binary read_index_binary r) fun nodes r =>
  andThen (read_vec_binary read_index_binary r) fun cut_nodes r =>
  andThen (read_vec_binary read_index_binary r) fun spqr_nodes r =>
  andThen (read_vec_binary read_index_binary r) fun spqr_edges r =>
  .ok ({ component := component, nodes := nodes, cut_nodes := cut_nodes,
         spqr_nodes := spqr_nodes, spqr_edges := spqr_edges }, r)

def CutNode.write_binary (c : CutNode) : List Nat :=
  write_index_binary c.component ++
  write_index_binary c.node ++
  write_vec_binary write_index_binary c.adjacent_blocks

def CutNode.read_binary (input : List Nat) : Except BinErr (CutNode × List Nat) :=
  andThen (read_index_binary input) fun component r =>
  andThen (read_index_binary r) fun node r =>
  andThen (read_vec_binary read_index_binary r) fun adjacent_blocks r =>
  .ok ({ component := component, node := node, adjacent_blocks := adjacent_blocks }, r)

def SPQRNode.write_binary (s : SPQRNode) : List Nat :=
  write_index_binary s.block ++
  write_vec_binary write_index_binary s.nodes ++
  write_vec_binary write_index_binary s.edges ++
  s.spqr_node_type.write_binary ++
  write_vec_binary write_index_binary s.spqr_edges

def SPQRNode.read_binary (input : List Nat) : Except BinErr (SPQRNode × List Nat) :=
  andThen (read_index_binary input) fun block r =>
  andThen (read_vec_binary read_index_binary r) fun nodes r =>
  andThen (read_vec_binary read_index_binary r) fun edges r =>
  andThen (SPQRNodeType.read_binary r) fun spqr_node_type r =>
  andThen (read_vec_binary read_index_binary r) fun spqr_edges r =>
  .ok ({ block := block, nodes := nodes, edges := edges,
         spqr_node_type := spqr_node_type, spqr_edges := spqr_edges }, r)

def SPQREdge.write_binary (s : SPQREdge) : List Nat :=
  write_index_pair_binary s.endpoints ++ write_index_pair_binary s.virtual_edge

def SPQREdge.read_binary (input : List Nat) : Except BinErr (SPQREdge × List Nat) :=
  andThen (read_index_pair_binary input) fun endpoints r =>
  andThen (read_index_pair_binary r) fun virtual_edge r =>
  .ok ({ endpoints := endpoints, virtual_edge := virtual_edge }, r)

def SPQRDecompositionNodeData.write_binary (nd : SPQRDecompositionNodeData) : List Nat :=
  write_index_binary nd.component_index ++
  write_vec_binary write_index_binary nd.block_indices ++
  write_opt_index_binary nd.cut_node_index ++
  write_vec_binary write_index_binary nd.spqr_node_indices ++
  write_str_binary nd.extra_data

def SPQRDecompositionNodeData.read_binary (input : List Nat) :
    Except BinErr (SPQRDecompositionNodeData × List Nat) :=
  andThen (read_index_binary input) fun component_index r =>
  andThen (read_vec_binary read_index_binary r) fun block_indices r =>
  andThen (read_opt_index_binary r) fun cut_node_index r =>
  andThen (read_vec_binary read_index_binary r) fun spqr_node_indices r =>
  andThen (read_string_binary r) fun extra_data r =>
  .ok ({ component_index := component_index, block_indices := block_indices,
         cut_node_index := cut_node_index, spqr_node_indices := spqr_node_indices,
         extra_data := extra_data }, r)

def SPQRDecompositionEdgeData.write_binary (ed : SPQRDecompositionEdgeData) : List Nat :=
  write_index_binary ed.component_index ++
  write_index_binary ed.block_index ++
  write_index_binary ed.spqr_node_index ++
  write_str_binary ed.extra_data

def SPQRDecompositionEdgeData.read_binary (input : List Nat) :
    Except BinErr (SPQRDecompositionEdgeData × List Nat) :=
  andThen (read_index_binary input) fun component_index r =>
  andThen (read_index_binary r) fun block_index r =>
  andThen (read_index_binary r) fun spqr_node_index r =>
  andThen (read_string_binary r) fun extra_data r =>
  .ok ({ component_index := component_index, block_index := block_index,
         spqr_node_index := spqr_node_index, extra_data := extra_data }, r)

/-- `SPQRDecomposition::write_binary`: the seven length-prefixed sections in
declaration order. -/
def SPQRDecomposition.write_binary (d : SPQRDecomposition) : List Nat :=
  write_vec_binary Component.write_binary d.components ++
  write_vec_binary Block.write_binary d.blocks ++
  write_vec_binary CutNode.write_binary d.cut_nodes ++
  write_vec_binary SPQRNode.write_binary d.spqr_nodes ++
  write_vec_binary SPQREdge.write_binary d.spqr_edges ++
  write_vec_binary SPQRDecompositionNodeData.write_binary d.node_data ++
  write_vec_binary SPQRDecompositionEdgeData.write_binary d.edge_data

/-- `SPQRDecomposition::read_binary`. -/
def SPQRDecomposition.read_binary (input : List Nat) :
    Except BinErr (SPQRDecomposition × List Nat) :=
  andThen (read_vec_binary Component.read_binary input) fun components r =>
  andThen (read_vec_binary Block.read_binary r) fun blocks r =>
  andThen (read_vec_binary CutNode.read_binary r) fun cut_nodes r =>
  andThen (read_vec_binary SPQRNode.read_binary r) fun spqr_nodes r =>
  andThen (read_vec_binary SPQREdge.read_binary r) fun spqr_edges r =>
  andThen (read_vec_binary SPQRDecompositionNodeData.read_binary r) fun node_data r =>
  andThen (read_vec_binary SPQRDecompositionEdgeData.read_binary r) fun edge_data r =>
  .ok ({ components := components, blocks := blocks, cut_nodes := cut_nodes,
         spqr_nodes := spqr_nodes, spqr_edges := spqr_edges,
         node_data := node_data, edge_data := edge_data }, r)

/-! #### Boundedness

Machine integers in the source are always below `2^64`; the `Nat`-valued
model needs that as an explicit hypothesis for the fixed-width encoding to
be injective.  `BList` additionally bounds list lengths (`usize` counts),
and the sentinel representation requires real cut-node indices below the
sentinel value. -/

def BNat (n : Nat) : Prop := n < USIZE

def BList (l : List Nat) : Prop := l.length < USIZE ∧ ∀ x ∈ l, x < USIZE

def BStr (s : String) : Prop := s.data.length < USIZE

def BOptIdx : Option Nat → Prop
  | none => True
  | some i => i < SENTINEL

def Component.Bounded (c : Component) : Prop :=
  BList c.nodes ∧ BList c.blocks ∧ BList c.cut_nodes

def Block.Bounded (b : Block) : Prop :=
  BNat b.component ∧ BList b.nodes ∧ BList b.cut_nodes ∧ BList b.spqr_nodes ∧
    BList b.spqr_edges

def CutNode.Bounded (c : CutNode) : Prop :=
  BNat c.component ∧ BNat c.node ∧ BList c.adjacent_blocks

def SPQRNode.Bounded (s : SPQRNode) : Prop :=
  BNat s.block ∧ BList s.nodes ∧ BList s.edges ∧ BList s.spqr_edges

def SPQREdge.Bounded (s : SPQREdge) : Prop :=
  BNat s.endpoints.1 ∧ BNat s.endpoints.2 ∧ BNat s.virtual_edge.1 ∧ BNat s.virtual_edge.2

def SPQRDecompositionNodeData.Bounded (nd : SPQRDecompositionNodeData) : Prop :=
  BNat nd.component_index ∧ BList nd.block_indices ∧ BOptIdx nd.cut_node_index ∧
    BList nd.spqr_node_indices ∧ BStr nd.extra_data

def SPQRDecompositionEdgeData.Bounded (ed : SPQRDecompositionEdgeData) : Prop :=
  BNat ed.component_index ∧ BNat ed.block_index ∧ BNat ed.spqr_node_index ∧
    BStr ed.extra_data

def BListOf (P : α → Prop) (l : List α) : Prop := l.length < USIZE ∧ ∀ x ∈ l, P x

/-- All machine integers of the decomposition are in range for the
fixed-width binary encoding (trivially true of any decomposition the Rust
library can actually hold in memory). -/
def SPQRDecomposition.Bounded (d : SPQRDecomposition) : Prop :=
  BListOf Component.Bounded d.components ∧
  BListOf Block.Bounded d.blocks ∧
  BListOf CutNode.Bounded d.cut_nodes ∧
  BListOf SPQRNode.Bounded d.spqr_nodes ∧
  BListOf SPQREdge.Bounded d.spqr_edges ∧
  BListOf SPQRDecompositionNodeData.Bounded d.node_data ∧
  BListOf SPQRDecompositionEdgeData.Bounded d.edge_data

instance : DecidablePred BNat := fun _ => by unfold BNat; infer_instance

instance : DecidablePred BList := fun _ => by unfold BList; infer_instance

instance : DecidablePred BStr := fun _ => by unfold BStr; infer_instance

instance : DecidablePred BOptIdx := fun o => by cases o <;> unfold BOptIdx <;> infer_instance

instance [DecidablePred P] : Decidable (BListOf P l) := by unfold BListOf; infer_instance

instance : Decidable (Component.Bounded c) := by unfold Component.Bounded; infer_instance

instance : Decidable (Block.Bounded b) := by unfold Block.Bounded; infer_instance

instance : Decidable (CutNode.Bounded c) := by unfold CutNode.Bounded; infer_instance

instance : Decidable (SPQRNode.Bounded s) := by unfold SPQRNode.Bounded; infer_instance

instance : Decidable (SPQREdge.Bounded s) := by unfold SPQREdge.Bounded; infer_instance

instance : Decidable (SPQRDecompositionNodeData.Bounded nd) := by
  unfold SPQRDecompositionNodeData.Bounded; infer_instance

instance : Decidable (SPQRDecompositionEdgeData.Bounded ed) := by
  unfold SPQRDecompositionEdgeData.Bounded; infer_instance

instance : Decidable (SPQRDecomposition.Bounded d) := by
  unfold SPQRDecomposition.Bounded; infer_instance

/-! ### Concrete scenarios used by counterexamples and witnesses -/

/-- Two triangles sharing node `2` (the spec's Scenario B): nodes `0..4`,
edges `0:(0,1) 1:(1,2) 2:(0,2) 3:(2,3) 4:(3,4) 5:(2,4)`. -/
def twoTrianglesGraph : Graph :=
  { nodeCount := 5, edges := [(0, 1), (1, 2), (0, 2), (2, 3), (3, 4), (2, 4)] }

/-- A valid builder run for `twoTrianglesGraph`: one component, two blocks
sharing node `2`, one S-node per block, every edge claimed.  The cut node
at node `2` is left to `build()`'s inference. -/
def twoTrianglesOps : List BuilderOp :=
  [ .addComponent [0, 1, 2, 3, 4],
    .addBlock 0 [0, 1, 2],
    .addBlock 0 [2, 3, 4],
    .addSPQRNode 0 [0, 1, 2] .SNode,
    .addSPQRNode 1 [2, 3, 4] .SNode,
    .addEdgeToSPQRNode 0 0,
    .addEdgeToSPQRNode 1 0,
    .addEdgeToSPQRNode 2 0,
    .addEdgeToSPQRNode 3 1,
    .addEdgeToSPQRNode 4 1,
    .addEdgeToSPQRNode 5 1 ]

/-- The decomposition `buildDecomposition twoTrianglesGraph twoTrianglesOps`
produces (pinned as a literal; the equation is proved in `C2_…` below). -/
def twoTrianglesD : SPQRDecomposition :=
  { components := [{ nodes := [0, 1, 2, 3, 4], blocks := [0, 1], cut_nodes := [0] }],
    blocks :=
      [{ component := 0, nodes := [0, 1, 2], cut_nodes := [0], spqr_nodes := [0],
         spqr_edges := [] },
       { component := 0, nodes := [2, 3, 4], cut_nodes := [0], spqr_nodes := [1],
         spqr_edges := [] }],
    cut_nodes := [{ component := 0, node := 2, adjacent_blocks := [0, 1] }],
    spqr_nodes :=
      [{ block := 0, nodes := [0, 1, 2], edges := [0, 1, 2], spqr_node_type := .SNode,
         spqr_edges := [] },
       { block := 1, nodes := [2, 3, 4], edges := [3, 4, 5], spqr_node_type := .SNode,
         spqr_edges := [] }],
    spqr_edges := [],
    node_data :=
      [{ component_index := 0, block_indices := [0], cut_node_index := none,
         spqr_node_indices := [0], extra_data := "" },
       { component_index := 0, block_indices := [0], cut_node_index := none,
         spqr_node_indices := [0], extra_data := "" },
       { component_index := 0, block_indices := [0, 1], cut_node_index := some 0,
         spqr_node_indices := [0, 1], extra_data := "" },
       { component_index := 0, block_indices := [1], cut_node_index := none,
         spqr_node_indices := [1], extra_data := "" },
       { component_index := 0, block_indices := [1], cut_node_index := none,
         spqr_node_indices := [1], extra_data := "" }],
    edge_data :=
      [{ component_index := 0, block_index := 0, spqr_node_index := 0, extra_data := "" },
       { component_index := 0, block_index := 0, spqr_node_index := 0, extra_data := "" },
       { component_index := 0, block_index := 0, spqr_node_index := 0, extra_data := "" },
       { component_index := 0, block_index := 1, spqr_node_index := 1, extra_data := "" },
       { component_index := 0, block_index := 1, spqr_node_index := 1, extra_data := "" },
       { component_index := 0, block_index := 1, spqr_node_index := 1, extra_data := "" }] }

/-- A two-node path: nodes `0, 1`, one edge `(0, 1)`. -/
def pathGraph : Graph := { nodeCount := 2, edges := [(0, 1)] }

/-- A valid builder run for `pathGraph` that explicitly declares node `0`
(a member of exactly one block) as a cut node — `add_cut_node` never checks
the node's block memberships. -/
def explicitCutOps : List BuilderOp :=
  [ .addComponent [0, 1],
    .addBlock 0 [0, 1],
    .addCutNode 0 [0],
    .addSPQRNode 0 [0, 1] .SNode,
    .addEdgeToSPQRNode 0 0 ]

/-- A `.spqr` file for `twoTrianglesGraph` whose E-record for edge `0`
names block `b1` (declared second, hence index `1`) even though the named
SPQR node `s0` lives in block `b0` (index `0`). -/
def mismatchedBlockInput : String :=
  "H v0.1 url\nG g0 N0 N1 N2 N3 N4\nB b0 g0 N0 N1 N2\nB b1 g0 N2 N3 N4\n" ++
  "S s0 b0 N0 N1 N2\nS s1 b1 N2 N3 N4\nE x0 s0 b1 N0 N1\nE x1 s0 b0 N1 N2\n" ++
  "E x2 s0 b0 N0 N2\nE x3 s1 b1 N2 N3\nE x4 s1 b1 N3 N4\nE x5 s1 b1 N2 N4\n"

def emptyGraph : Graph := { nodeCount := 0, edges := [] }

/-- A binary stream declaring zero components/blocks/cut nodes and one SPQR
node whose type-tag byte is `3`: `SPQRNodeType::read_binary` hits
`panic!()` there instead of returning an error. -/
def badTagStream : List Nat :=
  write_usize_binary 0 ++ write_usize_binary 0 ++ write_usize_binary 0 ++
  write_usize_binary 1 ++ write_index_binary 0 ++
  write_vec_binary write_index_binary [] ++ write_vec_binary write_index_binary [] ++ [3]

/-- A structurally inconsistent decomposition: its single node record
references component `7`, but there are no components at all.  The binary
codec accepts it without complaint. -/
def inconsistentD : SPQRDecomposition :=
  { components := [], blocks := [], cut_nodes := [], spqr_nodes := [], spqr_edges := [],
    node_data :=
      [{ component_index := 7, block_indices := [3], cut_node_index := none,
         spqr_node_indices := [9], extra_data := "x" }],
    edge_data := [] }

/-! ### Claim theorems: concrete refutations and scenario checks -/

/-- C1, counterexample: after a valid builder run on the two-node path that
explicitly declares node `0` (a member of exactly **one** block) as a cut
node, `build()` returns a decomposition in which node `0` has a CutNode
record while belonging to fewer than two blocks — so "a graph node has a
CutNode record if and only if it belongs to at least two Blocks" fails in
the right-to-left direction. -/
theorem C1_counterexample :
    (buildDecomposition pathGraph explicitCutOps).map
        (fun d => ((d.ndAt 0).cut_node_index.isSome, (d.ndAt 0).block_indices.length)) =
      some (true, 1) := by decide

/-- C4, counterexample: `add_block` accepts a node that is already a member
of another block — reusing node `2` across two blocks of the two-triangles
graph succeeds and leaves node `2` with block memberships `[0, 1]` (this is
precisely how articulation points are represented), refuting "`add_block`
[fails fast] on reusing a node across two blocks". -/
theorem C4_counterexample :
    (runOps twoTrianglesGraph (BuilderState.new twoTrianglesGraph)
        [.addComponent [0, 1, 2, 3, 4], .addBlock 0 [0, 1, 2], .addBlock 0 [2, 3, 4]]).map
        (fun st => (st.ndAt 2).block_indices) =
      some [0, 1] := by decide

/-- C7, counterexample: on `badTagStream` — a byte stream whose single SPQR
node carries the type-tag byte `3` — `read_binary` panics
(`SPQRNodeType::read_binary`'s `panic!()`), which is neither `Ok` nor a
generic `std::io::Error`; so "`read_binary` either returns Ok or returns a
generic `std::io::Error` … it never fails in any other way" is false. -/
theorem C7_counterexample :
    SPQRDecomposition.read_binary badTagStream = .error .crash := by decide

/-- C2 (code bug): for the validly built two-triangles decomposition — any
decomposition with at least one cut node behaves the same — the text
writer splits the cut-node record across two lines (`C N2` and a separate
` B0 B1` line, emitted before the `B` records that declare those names),
so reparsing the writer's own output stops with `EmptyCutNode` instead of
reproducing the line multiset: the writer contradicts both the format
grammar (one record per line, names declared before use) and the
library's own reader. -/
theorem C2_writer_cut_node_record_unparseable :
    buildDecomposition twoTrianglesGraph twoTrianglesOps = some twoTrianglesD ∧
    "C N2".data ∈ write twoTrianglesGraph twoTrianglesD ∧
    " B0 B1".data ∈ write twoTrianglesGraph twoTrianglesD ∧
    read twoTrianglesGraph (joinLines (write twoTrianglesGraph twoTrianglesD)) =
      .err .EmptyCutNode :=
  ⟨by decide, by decide, by decide, by decide⟩

/-- C8: parsing the text input `"H v0.1 url\nG g1"` — a valid header
followed by a `G` record declaring a component with zero nodes — returns
the specific `ReadError::EmptyComponent` variant, and parsing stops there. -/
theorem C8_empty_component_error :
    read emptyGraph ("H v0.1 url\nG g1".data) = .err .EmptyComponent := by decide

/-- C10: the reader's E branch resolves the block name only against the map
of declared block names and never compares it with the named SPQR node's
own block: `mismatchedBlockInput`, whose E-record for edge `0` names block
`b1` (index `1`) while SPQR node `s0` belongs to block `0`, is accepted
without error and edge `0` is attached to SPQR node `0` anyway. -/
theorem C10_e_line_block_unchecked :
    read twoTrianglesGraph mismatchedBlockInput.data = .ok twoTrianglesD ∧
    (twoTrianglesD.edAt 0).spqr_node_index = 0 ∧
    (twoTrianglesD.snAt 0).block = 0 ∧
    twoTrianglesD.blocks.length = 2 :=
  ⟨by decide, by decide, by decide, by decide⟩

/-! ### Binary round-trip lemmas

For every codec: decoding the encoding of a bounded value, followed by any
rest, succeeds and consumes exactly the encoding (`…_cont`). -/

theorem andThen_ok_red (x : α) (r : List Nat) (k : α → List Nat → Except BinErr β) :
    andThen (Except.ok (x, r)) k = k x r := rfl

theorem andThen_err_red (e : BinErr) (k : α → List Nat → Except BinErr β) :
    andThen (Except.error e) k = Except.error e := rfl

theorem toLEBytes_length (k n : Nat) : (toLEBytes k n).length = k := by
  induction k generalizing n with
  | zero => rfl
  | succ k ih => simp [toLEBytes, ih]

theorem fromLEBytes_toLEBytes (k n : Nat) : fromLEBytes (toLEBytes k n) = n % 256 ^ k := by
  induction k generalizing n with
  | zero => simp [toLEBytes, fromLEBytes, Nat.mod_one]
  | succ k ih =>
    simp only [toLEBytes, fromLEBytes, ih]
    rw [Nat.pow_succ', Nat.mod_mul]

theorem readBytes_append (a r : List Nat) : readBytes a.length (a ++ r) = .ok (a, r) := by
  simp [readBytes, List.take_left, List.drop_left]

theorem readBytes_of_length {a : List Nat} {k : Nat} (h : a.length = k) (r : List Nat) :
    readBytes k (a ++ r) = .ok (a, r) := by
  subst h; exact readBytes_append a r

theorem read_usize_cont {n : Nat} (h : n < USIZE) (r : List Nat) :
    read_usize_binary (toLEBytes 8 n ++ r) = .ok (n, r) := by
  simp only [read_usize_binary, readBytes_of_length (toLEBytes_length 8 n) r,
    andThen_ok_red, fromLEBytes_toLEBytes]
  rw [Nat.mod_eq_of_lt (by simpa [USIZE] using h)]

theorem read_index_cont {n : Nat} (h : n < USIZE) (r : List Nat) :
    read_index_binary (write_index_binary n ++ r) = .ok (n, r) :=
  read_usize_cont h r

theorem read_opt_index_cont {o : Option Nat} (h : BOptIdx o) (r : List Nat) :
    read_opt_index_binary (write_opt_index_binary o ++ r) = .ok (o, r) := by
  cases o with
  | none =>
    simp only [read_opt_index_binary, write_opt_index_binary,
      read_usize_cont (n := SENTINEL) (by norm_num [SENTINEL, USIZE]) r, andThen_ok_red]
    simp
  | some i =>
    have hi : i < SENTINEL := h
    simp only [read_opt_index_binary, write_opt_index_binary,
      read_usize_cont (n := i) (lt_trans hi (by norm_num [SENTINEL, USIZE])) r,
      andThen_ok_red]
    simp [Nat.ne_of_lt hi]

theorem read_index_pair_cont {p : Nat × Nat} (h1 : p.1 < USIZE) (h2 : p.2 < USIZE)
    (r : List Nat) : read_index_pair_binary (write_index_pair_binary p ++ r) = .ok (p, r) := by
  simp only [read_index_pair_binary, write_index_pair_binary, List.append_assoc,
    read_index_cont h1, read_index_cont h2, andThen_ok_red]

theorem readNBinary_cont {α : Type} {enc : α → List Nat}
    {dec : List Nat → Except BinErr (α × List Nat)} {l : List α}
    (hel : ∀ x ∈ l, ∀ r, dec (enc x ++ r) = .ok (x, r)) (r : List Nat) :
    readNBinary dec l.length (l.flatMap enc ++ r) = .ok (l, r) := by
  induction l with
  | nil => simp [readNBinary]
  | cons x xs ih =>
    have h1 := hel x (by simp) (xs.flatMap enc ++ r)
    have h2 := ih (fun y hy => hel y (by simp [hy]))
    simp only [List.length_cons, List.flatMap_cons, List.append_assoc, readNBinary, h1, h2,
      andThen_ok_red]

theorem read_vec_cont {α : Type} {enc : α → List Nat}
    {dec : List Nat → Except BinErr (α × List Nat)} {l : List α}
    (hlen : l.length < USIZE) (hel : ∀ x ∈ l, ∀ r, dec (enc x ++ r) = .ok (x, r))
    (r : List Nat) :
    read_vec_binary dec (write_vec_binary enc l ++ r) = .ok (l, r) := by
  simp only [read_vec_binary, write_vec_binary, write_usize_binary, List.append_assoc,
    read_usize_cont hlen, andThen_ok_red]
  exact readNBinary_cont hel r

theorem read_vec_index_cont {l : List Nat} (h : BList l) (r : List Nat) :
    read_vec_binary read_index_binary (write_vec_binary write_index_binary l ++ r) =
      .ok (l, r) :=
  read_vec_cont h.1 (fun x hx r' => read_index_cont (h.2 x hx) r') r

theorem read_char_cont (c : Char) (r : List Nat) :
    read_char_binary (write_char_binary c ++ r) = .ok (c, r) := by
  have hb : c.toNat < 256 ^ 4 := by
    have h32 := c.val.toNat_lt
    norm_num at h32 ⊢
    exact h32
  have hv : c.toNat.isValidChar := c.valid
  simp only [read_char_binary, write_char_binary,
    readBytes_of_length (toLEBytes_length 4 c.toNat) r, andThen_ok_red,
    fromLEBytes_toLEBytes, Nat.mod_eq_of_lt hb, hv, dite_true]
  have hc : Char.ofNatAux c.toNat hv = c := by
    have h0 := Char.ofNat_toNat c
    rw [Char.ofNat, dif_pos hv] at h0
    exact h0
  rw [hc]

theorem read_string_cont {s : String} (h : BStr s) (r : List Nat) :
    read_string_binary (write_str_binary s ++ r) = .ok (s, r) := by
  simp only [read_string_binary, write_str_binary, write_usize_binary, List.append_assoc,
    read_usize_cont h, readNBinary_cont (fun c _ r' => read_char_cont c r') r,
    andThen_ok_red]

theorem readBytes_one (b : Nat) (r : List Nat) : readBytes 1 (b :: r) = .ok ([b], r) := by
  simp [readBytes]

theorem read_spqr_node_type_cont (t : SPQRNodeType) (r : List Nat) :
    SPQRNodeType.read_binary (t.write_binary ++ r) = .ok (t, r) := by
  cases t <;>
    simp [SPQRNodeType.write_binary, SPQRNodeType.read_binary, readBytes_one, andThen]

theorem component_rw_cont (c : Component) (h : c.Bounded) (r : List Nat) :
    Component.read_binary (c.write_binary ++ r) = .ok (c, r) := by
  obtain ⟨h1, h2, h3⟩ := h
  simp only [Component.read_binary, Component.write_binary, List.append_assoc,
    read_vec_index_cont h1, read_vec_index_cont h2, read_vec_index_cont h3, andThen_ok_red]

theorem block_rw_cont (b : Block) (h : b.Bounded) (r : List Nat) :
    Block.read_binary (b.write_binary ++ r) = .ok (b, r) := by
  obtain ⟨h1, h2, h3, h4, h5⟩ := h
  simp only [Block.read_binary, Block.write_binary, List.append_assoc,
    read_index_cont h1, read_vec_index_cont h2, read_vec_index_cont h3,
    read_vec_index_cont h4, read_vec_index_cont h5, andThen_ok_red]

theorem cut_node_rw_cont (c : CutNode) (h : c.Bounded) (r : List Nat) :
    CutNode.read_binary (c.write_binary ++ r) = .ok (c, r) := by
  obtain ⟨h1, h2, h3⟩ := h
  simp only [CutNode.read_binary, CutNode.write_binary, List.append_assoc,
    read_index_cont h1, read_index_cont h2, read_vec_index_cont h3, andThen_ok_red]

theorem spqr_node_rw_cont (s : SPQRNode) (h : s.Bounded) (r : List Nat) :
    SPQRNode.read_binary (s.write_binary ++ r) = .ok (s, r) := by
  obtain ⟨h1, h2, h3, h4⟩ := h
  simp only [SPQRNode.read_binary, SPQRNode.write_binary, List.append_assoc,
    read_index_cont h1, read_vec_index_cont h2, read_vec_index_cont h3,
    read_spqr_node_type_cont, read_vec_index_cont h4, andThen_ok_red]

theorem spqr_edge_rw_cont (s : SPQREdge) (h : s.Bounded) (r : List Nat) :
    SPQREdge.read_binary (s.write_binary ++ r) = .ok (s, r) := by
  obtain ⟨h1, h2, h3, h4⟩ := h
  simp only [SPQREdge.read_binary, SPQREdge.write_binary, List.append_assoc,
    read_index_pair_cont h1 h2, read_index_pair_cont h3 h4, andThen_ok_red]

theorem nd_record_rw_cont (nd : SPQRDecompositionNodeData)
    (h : nd.Bounded) (r : List Nat) :
    SPQRDecompositionNodeData.read_binary (nd.write_binary ++ r) = .ok (nd, r) := by
  obtain ⟨h1, h2, h3, h4, h5⟩ := h
  simp only [SPQRDecompositionNodeData.read_binary, SPQRDecompositionNodeData.write_binary,
    List.append_assoc, read_index_cont h1, read_vec_index_cont h2, read_opt_index_cont h3,
    read_vec_index_cont h4, read_string_cont h5, andThen_ok_red]

theorem ed_record_rw_cont (ed : SPQRDecompositionEdgeData)
    (h : ed.Bounded) (r : List Nat) :
    SPQRDecompositionEdgeData.read_binary (ed.write_binary ++ r) = .ok (ed, r) := by
  obtain ⟨h1, h2, h3, h4⟩ := h
  simp only [SPQRDecompositionEdgeData.read_binary, SPQRDecompositionEdgeData.write_binary,
    List.append_assoc, read_index_cont h1, read_index_cont h2, read_index_cont h3,
    read_string_cont h4, andThen_ok_red]

/-- Core binary round-trip: decoding the encoding of any bounded
decomposition, followed by any rest, recovers it exactly. -/
theorem decomposition_rw_cont (d : SPQRDecomposition) (h : d.Bounded)
    (r : List Nat) : SPQRDecomposition.read_binary (d.write_binary ++ r) = .ok (d, r) := by
  obtain ⟨hc, hb, hcn, hsn, hse, hnd, hed⟩ := h
  simp only [SPQRDecomposition.read_binary, SPQRDecomposition.write_binary,
    List.append_assoc,
    read_vec_cont hc.1 (fun x hx r' => component_rw_cont x (hc.2 x hx) r'),
    read_vec_cont hb.1 (fun x hx r' => block_rw_cont x (hb.2 x hx) r'),
    read_vec_cont hcn.1 (fun x hx r' => cut_node_rw_cont x (hcn.2 x hx) r'),
    read_vec_cont hsn.1 (fun x hx r' => spqr_node_rw_cont x (hsn.2 x hx) r'),
    read_vec_cont hse.1 (fun x hx r' => spqr_edge_rw_cont x (hse.2 x hx) r'),
    read_vec_cont hnd.1
      (fun x hx r' => nd_record_rw_cont x (hnd.2 x hx) r'),
    read_vec_cont hed.1
      (fun x hx r' => ed_record_rw_cont x (hed.2 x hx) r'), andThen_ok_red]

/-- C3: binary round-trip — for every decomposition `D` whose machine
integers fit the platform word (true of every validly built decomposition
the Rust library can hold), `read_binary (write_binary D)` succeeds,
consumes the whole stream, and returns `D` field-for-field: all five arenas,
both back-reference tables, nested list order and string content included
(record equality here is structural equality of all fields). -/
theorem C3_binary_round_trip (d : SPQRDecomposition) (h : d.Bounded) :
    SPQRDecomposition.read_binary d.write_binary = .ok (d, []) := by
  have h0 := decomposition_rw_cont d h []
  simpa using h0

/-- Witness for C3 at the two-triangles decomposition. -/
theorem C3_witness :
    twoTrianglesD.Bounded ∧
      SPQRDecomposition.read_binary twoTrianglesD.write_binary = .ok (twoTrianglesD, []) :=
  ⟨by decide, C3_binary_round_trip twoTrianglesD (by decide)⟩

/-! ### Truncation lemmas

Every strict prefix of a valid encoding decodes to the generic I/O error
(`read_exact` hitting end-of-stream), never to a panic or to success. -/

theorem readBytes_short {k : Nat} {l : List Nat} (h : l.length < k) :
    readBytes k l = .error .ioError := by
  unfold readBytes
  rw [if_neg (Nat.not_le.mpr h)]

theorem read_usize_short {l : List Nat} (h : l.length < 8) :
    read_usize_binary l = .error .ioError := by
  simp only [read_usize_binary, readBytes_short h, andThen_err_red]

theorem read_usize_trunc {m n : Nat} (hn : n < (toLEBytes 8 m).length) :
    read_usize_binary ((toLEBytes 8 m).take n) = .error .ioError := by
  refine read_usize_short ?_
  rw [toLEBytes_length] at hn
  rw [List.length_take, toLEBytes_length]
  omega

/-- Chaining: if the first decoder consumes exactly `a` and the
continuation errors with `ioError` on every strict prefix of `b`, the
combined decode errors with `ioError` on every strict prefix of `a ++ b`. -/
theorem chain_trunc {α β : Type} {decA : List Nat → Except BinErr (α × List Nat)}
    {k : α → List Nat → Except BinErr β} {a b : List Nat} {x : α}
    (contA : ∀ r, decA (a ++ r) = .ok (x, r))
    (truncA : ∀ n, n < a.length → decA (a.take n) = .error .ioError)
    (hk : ∀ m, m < b.length → k x (b.take m) = .error .ioError)
    {n : Nat} (hn : n < (a ++ b).length) :
    andThen (decA ((a ++ b).take n)) k = .error .ioError := by
  rw [List.take_append_eq_append_take]
  rcases lt_or_ge n a.length with h | h
  · have h0 : n - a.length = 0 := by omega
    rw [h0, List.take_zero, List.append_nil, andThen_err (truncA n h)]
  · rw [List.take_of_length_le h, andThen_ok (contA _)]
    have hb : n - a.length < b.length := by
      rw [List.length_append] at hn; omega
    exact hk _ hb

theorem read_index_pair_trunc {p : Nat × Nat} (h1 : p.1 < USIZE) :
    ∀ n, n < (write_index_pair_binary p).length →
      read_index_pair_binary ((write_index_pair_binary p).take n) = .error .ioError := by
  intro n hn
  simp only [read_index_pair_binary, write_index_pair_binary]
  refine chain_trunc (fun r => read_index_cont h1 r) (fun m hm => read_usize_trunc hm)
    ?_ hn
  intro m hm
  exact andThen_err (read_usize_trunc hm)

theorem readNBinary_trunc {α : Type} {enc : α → List Nat}
    {dec : List Nat → Except BinErr (α × List Nat)} {l : List α}
    (hel : ∀ x ∈ l, ∀ r, dec (enc x ++ r) = .ok (x, r))
    (het : ∀ x ∈ l, ∀ n, n < (enc x).length → dec ((enc x).take n) = .error .ioError) :
    ∀ m, m < (l.flatMap enc).length →
      readNBinary dec l.length ((l.flatMap enc).take m) = .error .ioError := by
  induction l with
  | nil => intro m hm; simp at hm
  | cons x xs ih =>
    intro m hm
    rw [List.flatMap_cons] at hm ⊢
    rw [List.length_cons]
    simp only [readNBinary]
    refine chain_trunc (hel x (by simp)) (het x (by simp)) ?_ hm
    intro m' hm'
    exact andThen_err
      (ih (fun y hy => hel y (by simp [hy])) (fun y hy => het y (by simp [hy])) m' hm')

theorem read_vec_trunc {α : Type} {enc : α → List Nat}
    {dec : List Nat → Except BinErr (α × List Nat)} {l : List α}
    (hlen : l.length < USIZE)
    (hel : ∀ x ∈ l, ∀ r, dec (enc x ++ r) = .ok (x, r))
    (het : ∀ x ∈ l, ∀ n, n < (enc x).length → dec ((enc x).take n) = .error .ioError) :
    ∀ n, n < (write_vec_binary enc l).length →
      read_vec_binary dec ((write_vec_binary enc l).take n) = .error .ioError := by
  intro n hn
  simp only [read_vec_binary, write_vec_binary, write_usize_binary] at hn ⊢
  refine chain_trunc (fun r => read_usize_cont hlen r) (fun m hm => read_usize_trunc hm)
    ?_ hn
  intro m hm
  exact readNBinary_trunc hel het m hm

theorem read_vec_index_trunc {l : List Nat} (h : BList l) :
    ∀ n, n < (write_vec_binary write_index_binary l).length →
      read_vec_binary read_index_binary
        ((write_vec_binary write_index_binary l).take n) = .error .ioError :=
  read_vec_trunc h.1 (fun x hx r => read_index_cont (h.2 x hx) r)
    (fun _ _ _ hn => read_usize_trunc hn)

theorem read_char_short {l : List Nat} (h : l.length < 4) :
    read_char_binary l = .error .ioError :=
  andThen_err (readBytes_short h)

theorem read_char_trunc {c : Char} {n : Nat} (hn : n < (write_char_binary c).length) :
    read_char_binary ((write_char_binary c).take n) = .error .ioError := by
  refine read_char_short ?_
  simp only [write_char_binary, toLEBytes_length] at hn
  rw [List.length_take, write_char_binary, toLEBytes_length]
  omega

theorem read_opt_index_short {l : List Nat} (h : l.length < 8) :
    read_opt_index_binary l = .error .ioError :=
  andThen_err (read_usize_short h)

theorem read_opt_index_trunc (o : Option Nat) :
    ∀ n, n < (write_opt_index_binary o).length →
      read_opt_index_binary ((write_opt_index_binary o).take n) = .error .ioError := by
  intro n hn
  refine read_opt_index_short ?_
  cases o <;>
    · simp only [write_opt_index_binary, toLEBytes_length] at hn
      simp only [write_opt_index_binary]
      rw [List.length_take, toLEBytes_length]
      omega

theorem read_string_trunc {s : String} (h : BStr s) :
    ∀ n, n < (write_str_binary s).length →
      read_string_binary ((write_str_binary s).take n) = .error .ioError := by
  intro n hn
  simp only [read_string_binary, write_str_binary, write_usize_binary] at hn ⊢
  refine chain_trunc (fun r => read_usize_cont h r) (fun m hm => read_usize_trunc hm) ?_ hn
  intro m hm
  exact andThen_err
    (readNBinary_trunc (fun c _ r => read_char_cont c r) (fun _ _ _ hn' => read_char_trunc hn')
      m hm)

theorem read_spqr_node_type_trunc (t : SPQRNodeType) :
    ∀ n, n < t.write_binary.length →
      SPQRNodeType.read_binary (t.write_binary.take n) = .error .ioError := by
  cases t <;> intro n hn <;>
    · have h0 : n = 0 := by simpa [SPQRNodeType.write_binary] using hn
      subst h0
      decide

theorem component_read_trunc (c : Component) (h : c.Bounded) :
    ∀ n, n < c.write_binary.length →
      Component.read_binary (c.write_binary.take n) = .error .ioError := by
  obtain ⟨h1, h2, h3⟩ := h
  intro n hn
  simp only [Component.read_binary, Component.write_binary, List.append_assoc] at hn ⊢
  refine chain_trunc (read_vec_index_cont h1) (read_vec_index_trunc h1) ?_ hn
  intro m hm
  refine chain_trunc (read_vec_index_cont h2) (read_vec_index_trunc h2) ?_ hm
  intro m' hm'
  exact andThen_err (read_vec_index_trunc h3 m' hm')

theorem block_read_trunc (b : Block) (h : b.Bounded) :
    ∀ n, n < b.write_binary.length →
      Block.read_binary (b.write_binary.take n) = .error .ioError := by
  obtain ⟨h1, h2, h3, h4, h5⟩ := h
  intro n hn
  simp only [Block.read_binary, Block.write_binary, List.append_assoc] at hn ⊢
  refine chain_trunc (read_index_cont h1) (fun m hm => read_usize_trunc hm) ?_ hn
  intro m hm
  refine chain_trunc (read_vec_index_cont h2) (read_vec_index_trunc h2) ?_ hm
  intro m hm
  refine chain_trunc (read_vec_index_cont h3) (read_vec_index_trunc h3) ?_ hm
  intro m hm
  refine chain_trunc (read_vec_index_cont h4) (read_vec_index_trunc h4) ?_ hm
  intro m hm
  exact andThen_err (read_vec_index_trunc h5 m hm)

theorem cut_node_read_trunc (c : CutNode) (h : c.Bounded) :
    ∀ n, n < c.write_binary.length →
      CutNode.read_binary (c.write_binary.take n) = .error .ioError := by
  obtain ⟨h1, h2, h3⟩ := h
  intro n hn
  simp only [CutNode.read_binary, CutNode.write_binary, List.append_assoc] at hn ⊢
  refine chain_trunc (read_index_cont h1) (fun m hm => read_usize_trunc hm) ?_ hn
  intro m hm
  refine chain_trunc (read_index_cont h2) (fun m' hm' => read_usize_trunc hm') ?_ hm
  intro m hm
  exact andThen_err (read_vec_index_trunc h3 m hm)

theorem spqr_node_read_trunc (s : SPQRNode) (h : s.Bounded) :
    ∀ n, n < s.write_binary.length →
      SPQRNode.read_binary (s.write_binary.take n) = .error .ioError := by
  obtain ⟨h1, h2, h3, h4⟩ := h
  intro n hn
  simp only [SPQRNode.read_binary, SPQRNode.write_binary, List.append_assoc] at hn ⊢
  refine chain_trunc (read_index_cont h1) (fun m hm => read_usize_trunc hm) ?_ hn
  intro m hm
  refine chain_trunc (read_vec_index_cont h2) (read_vec_index_trunc h2) ?_ hm
  intro m hm
  refine chain_trunc (read_vec_index_cont h3) (read_vec_index_trunc h3) ?_ hm
  intro m hm
  refine chain_trunc (read_spqr_node_type_cont s.spqr_node_type)
    (read_spqr_node_type_trunc s.spqr_node_type) ?_ hm
  intro m hm
  exact andThen_err (read_vec_index_trunc h4 m hm)

theorem spqr_edge_read_trunc (s : SPQREdge) (h : s.Bounded) :
    ∀ n, n < s.write_binary.length →
      SPQREdge.read_binary (s.write_binary.take n) = .error .ioError := by
  obtain ⟨h1, h2, h3, h4⟩ := h
  intro n hn
  simp only [SPQREdge.read_binary, SPQREdge.write_binary, List.append_assoc] at hn ⊢
  refine chain_trunc (read_index_pair_cont h1 h2) (read_index_pair_trunc h1) ?_ hn
  intro m hm
  exact andThen_err (read_index_pair_trunc h3 m hm)

theorem nd_record_read_trunc (nd : SPQRDecompositionNodeData)
    (h : nd.Bounded) :
    ∀ n, n < nd.write_binary.length →
      SPQRDecompositionNodeData.read_binary (nd.write_binary.take n) = .error .ioError := by
  obtain ⟨h1, h2, h3, h4, h5⟩ := h
  intro n hn
  simp only [SPQRDecompositionNodeData.read_binary, SPQRDecompositionNodeData.write_binary,
    List.append_assoc] at hn ⊢
  refine chain_trunc (read_index_cont h1) (fun m hm => read_usize_trunc hm) ?_ hn
  intro m hm
  refine chain_trunc (read_vec_index_cont h2) (read_vec_index_trunc h2) ?_ hm
  intro m hm
  refine chain_trunc (read_opt_index_cont h3) (read_opt_index_trunc nd.cut_node_index)
    ?_ hm
  intro m hm
  refine chain_trunc (read_vec_index_cont h4) (read_vec_index_trunc h4) ?_ hm
  intro m hm
  exact andThen_err (read_string_trunc h5 m hm)

theorem ed_record_read_trunc (ed : SPQRDecompositionEdgeData)
    (h : ed.Bounded) :
    ∀ n, n < ed.write_binary.length →
      SPQRDecompositionEdgeData.read_binary (ed.write_binary.take n) = .error .ioError := by
  obtain ⟨h1, h2, h3, h4⟩ := h
  intro n hn
  simp only [SPQRDecompositionEdgeData.read_binary, SPQRDecompositionEdgeData.write_binary,
    List.append_assoc] at hn ⊢
  refine chain_trunc (read_index_cont h1) (fun m hm => read_usize_trunc hm) ?_ hn
  intro m hm
  refine chain_trunc (read_index_cont h2) (fun m' hm' => read_usize_trunc hm') ?_ hm
  intro m hm
  refine chain_trunc (read_index_cont h3) (fun m' hm' => read_usize_trunc hm') ?_ hm
  intro m hm
  exact andThen_err (read_string_trunc h4 m hm)

/-- Any strict prefix of the binary encoding of a bounded decomposition
decodes to the generic I/O error. -/
theorem decomposition_read_trunc (d : SPQRDecomposition) (h : d.Bounded) :
    ∀ n, n < d.write_binary.length →
      SPQRDecomposition.read_binary (d.write_binary.take n) = .error .ioError := by
  obtain ⟨hc, hb, hcn, hsn, hse, hnd, hed⟩ := h
  intro n hn
  simp only [SPQRDecomposition.read_binary, SPQRDecomposition.write_binary,
    List.append_assoc] at hn ⊢
  refine chain_trunc
    (read_vec_cont hc.1 (fun x hx r => component_rw_cont x (hc.2 x hx) r))
    (read_vec_trunc hc.1 (fun x hx r => component_rw_cont x (hc.2 x hx) r)
      (fun x hx => component_read_trunc x (hc.2 x hx))) ?_ hn
  intro m hm
  refine chain_trunc
    (read_vec_cont hb.1 (fun x hx r => block_rw_cont x (hb.2 x hx) r))
    (read_vec_trunc hb.1 (fun x hx r => block_rw_cont x (hb.2 x hx) r)
      (fun x hx => block_read_trunc x (hb.2 x hx))) ?_ hm
  intro m hm
  refine chain_trunc
    (read_vec_cont hcn.1 (fun x hx r => cut_node_rw_cont x (hcn.2 x hx) r))
    (read_vec_trunc hcn.1 (fun x hx r => cut_node_rw_cont x (hcn.2 x hx) r)
      (fun x hx => cut_node_read_trunc x (hcn.2 x hx))) ?_ hm
  intro m hm
  refine chain_trunc
    (read_vec_cont hsn.1 (fun x hx r => spqr_node_rw_cont x (hsn.2 x hx) r))
    (read_vec_trunc hsn.1 (fun x hx r => spqr_node_rw_cont x (hsn.2 x hx) r)
      (fun x hx => spqr_node_read_trunc x (hsn.2 x hx))) ?_ hm
  intro m hm
  refine chain_trunc
    (read_vec_cont hse.1 (fun x hx r => spqr_edge_rw_cont x (hse.2 x hx) r))
    (read_vec_trunc hse.1 (fun x hx r => spqr_edge_rw_cont x (hse.2 x hx) r)
      (fun x hx => spqr_edge_read_trunc x (hse.2 x hx))) ?_ hm
  intro m hm
  refine chain_trunc
    (read_vec_cont hnd.1
      (fun x hx r => nd_record_rw_cont x (hnd.2 x hx) r))
    (read_vec_trunc hnd.1
      (fun x hx r => nd_record_rw_cont x (hnd.2 x hx) r)
      (fun x hx => nd_record_read_trunc x (hnd.2 x hx))) ?_ hm
  intro m hm
  exact andThen_err
    (read_vec_trunc hed.1
      (fun x hx r => ed_record_rw_cont x (hed.2 x hx) r)
      (fun x hx => ed_record_read_trunc x (hed.2 x hx)) m hm)

/-- C7 (amended): `read_binary` returns a generic I/O error on every
truncated (strict) prefix of a valid write, and performs no structural
re-validation whatsoever — it happily returns `Ok` for a stream encoding a
decomposition whose node record references component `7` while the
component arena is empty.  (The amendment is forced by `C7_counterexample`:
a stream carrying an invalid SPQR-node-type tag byte makes `read_binary`
panic instead of returning an error, so "it never fails in any other way"
does not hold of arbitrary byte streams.) -/
theorem C7_binary_reader_failures :
    (∀ d : SPQRDecomposition, d.Bounded → ∀ n, n < d.write_binary.length →
        SPQRDecomposition.read_binary (d.write_binary.take n) = .error .ioError) ∧
    SPQRDecomposition.read_binary inconsistentD.write_binary = .ok (inconsistentD, []) ∧
    inconsistentD.components.length = 0 ∧ (inconsistentD.ndAt 0).component_index = 7 :=
  ⟨fun d h n hn => decomposition_read_trunc d h n hn,
   by
     have h0 := decomposition_rw_cont inconsistentD (by decide) []
     simpa using h0,
   by decide, by decide⟩

/-- Witness for C7 at the truncation `n = 0` of `inconsistentD`'s stream. -/
theorem C7_witness :
    inconsistentD.Bounded ∧ 0 < inconsistentD.write_binary.length ∧
      SPQRDecomposition.read_binary (inconsistentD.write_binary.take 0) =
        .error .ioError :=
  ⟨by decide, by decide,
   C7_binary_reader_failures.1 inconsistentD (by decide) 0 (by decide)⟩

/-! ### Proof toolkit: `Option`-monadic inversion and list access -/

theorem obind_eq_some {α β : Type} {o : Option α} {f : α → Option β} {b : β} :
    (o >>= f) = some b ↔ ∃ a, o = some a ∧ f a = some b := by
  cases o <;> simp

theorem guard_bind_eq_some {p : Prop} [Decidable p] {k : Unit → Option α} {b : α} :
    (guard p >>= k) = some b ↔ p ∧ k () = some b := by
  by_cases hp : p
  · simp [guard, hp]
  · simp only [guard, if_neg hp]
    constructor
    · intro hcontra; exact Option.noConfusion hcontra
    · rintro ⟨hc, -⟩; exact absurd hc hp

theorem guard_neg {p : Prop} [Decidable p] (hp : ¬p) : (guard p : Option Unit) = none := by
  simp only [guard, if_neg hp]; rfl

theorem getD_of_some {α : Type} {l : List α} {n : Nat} {x : α} (d : α) (h : l[n]? = some x) :
    l.getD n d = x := by
  simp [List.getD_eq_getElem?_getD, h]

theorem length_of_some {α : Type} {l : List α} {n : Nat} {x : α} (h : l[n]? = some x) :
    n < l.length :=
  (List.getElem?_eq_some_iff.mp h).1

theorem getElem?_of_lt {α : Type} {l : List α} {n : Nat} (d : α) (h : n < l.length) :
    l[n]? = some (l.getD n d) := by
  simp [List.getElem?_eq_getElem, h, List.getD_eq_getElem]

theorem getD_set_ne {α : Type} {l : List α} {i n : Nat} (x d : α) (h : i ≠ n) :
    (l.set i x).getD n d = l.getD n d := by
  simp [List.getD_eq_getElem?_getD, List.getElem?_set_ne h]

theorem getD_set_self {α : Type} {l : List α} {i : Nat} (x d : α) (h : i < l.length) :
    (l.set i x).getD i d = x := by
  simp [List.getD_eq_getElem?_getD, List.getElem?_set_self, h]

theorem getD_append_lt {α : Type} {l l2 : List α} (d : α) {n : Nat} (h : n < l.length) :
    (l ++ l2).getD n d = l.getD n d := by
  simp [List.getD_eq_getElem?_getD, List.getElem?_append, if_pos h]

theorem getD_append_self_len {α : Type} {l : List α} (x d : α) :
    (l ++ [x]).getD l.length d = x := by
  rw [List.getD_eq_getElem?_getD, List.getElem?_append, if_neg (by omega)]
  simp

def BuilderState.seAt (st : BuilderState) (k : Nat) : SPQREdge :=
  st.spqr_edges.getD k { endpoints := (0, 0), virtual_edge := (0, 0) }

/-! Projection lemmas for the state-update helpers: each update changes
exactly one field of the state. -/

@[simp] theorem setNodeData_components (st : BuilderState) (n : Nat) (v : SPQRDecompositionNodeDataBuilder) :
    (setNodeData st n v).components = st.components := rfl

@[simp] theorem setNodeData_blocks (st : BuilderState) (n : Nat) (v : SPQRDecompositionNodeDataBuilder) :
    (setNodeData st n v).blocks = st.blocks := rfl

@[simp] theorem setNodeData_cut_nodes (st : BuilderState) (n : Nat) (v : SPQRDecompositionNodeDataBuilder) :
    (setNodeData st n v).cut_nodes = st.cut_nodes := rfl

@[simp] theorem setNodeData_spqr_nodes (st : BuilderState) (n : Nat) (v : SPQRDecompositionNodeDataBuilder) :
    (setNodeData st n v).spqr_nodes = st.spqr_nodes := rfl

@[simp] theorem setNodeData_spqr_edges (st : BuilderState) (n : Nat) (v : SPQRDecompositionNodeDataBuilder) :
    (setNodeData st n v).spqr_edges = st.spqr_edges := rfl

@[simp] theorem setNodeData_node_data (st : BuilderState) (n : Nat) (v : SPQRDecompositionNodeDataBuilder) :
    (setNodeData st n v).node_data = st.node_data.set n v := rfl

@[simp] theorem setNodeData_edge_data (st : BuilderState) (n : Nat) (v : SPQRDecompositionNodeDataBuilder) :
    (setNodeData st n v).edge_data = st.edge_data := rfl

@[simp] theorem setEdgeData_components (st : BuilderState) (n : Nat) (v : SPQRDecompositionEdgeDataBuilder) :
    (setEdgeData st n v).components = st.components := rfl

@[simp] theorem setEdgeData_blocks (st : BuilderState) (n : Nat) (v : SPQRDecompositionEdgeDataBuilder) :
    (setEdgeData st n v).blocks = st.blocks := rfl

@[simp] theorem setEdgeData_cut_nodes (st : BuilderState) (n : Nat) (v : SPQRDecompositionEdgeDataBuilder) :
    (setEdgeData st n v).cut_nodes = st.cut_nodes := rfl

@[simp] theorem setEdgeData_spqr_nodes (st : BuilderState) (n : Nat) (v : SPQRDecompositionEdgeDataBuilder) :
    (setEdgeData st n v).spqr_nodes = st.spqr_nodes := rfl

@[simp] theorem setEdgeData_spqr_edges (st : BuilderState) (n : Nat) (v : SPQRDecompositionEdgeDataBuilder) :
    (setEdgeData st n v).spqr_edges = st.spqr_edges := rfl

@[simp] theorem setEdgeData_node_data (st : BuilderState) (n : Nat) (v : SPQRDecompositionEdgeDataBuilder) :
    (setEdgeData st n v).node_data = st.node_data := rfl

@[simp] theorem setEdgeData_edge_data (st : BuilderState) (n : Nat) (v : SPQRDecompositionEdgeDataBuilder) :
    (setEdgeData st n v).edge_data = st.edge_data.set n v := rfl

@[simp] theorem setComponent_components (st : BuilderState) (n : Nat) (v : Component) :
    (setComponent st n v).components = st.components.set n v := rfl

@[simp] theorem setComponent_blocks (st : BuilderState) (n : Nat) (v : Component) :
    (setComponent st n v).blocks = st.blocks := rfl

@[simp] theorem setComponent_cut_nodes (st : BuilderState) (n : Nat) (v : Component) :
    (setComponent st n v).cut_nodes = st.cut_nodes := rfl

@[simp] theorem setComponent_spqr_nodes (st : BuilderState) (n : Nat) (v : Component) :
    (setComponent st n v).spqr_nodes = st.spqr_nodes := rfl

@[simp] theorem setComponent_spqr_edges (st : BuilderState) (n : Nat) (v : Component) :
    (setComponent st n v).spqr_edges = st.spqr_edges := rfl

@[simp] theorem setComponent_node_data (st : BuilderState) (n : Nat) (v : Component) :
    (setComponent st n v).node_data = st.node_data := rfl

@[simp] theorem setComponent_edge_data (st : BuilderState) (n : Nat) (v : Component) :
    (setComponent st n v).edge_data = st.edge_data := rfl

@[simp] theorem setBlock_components (st : BuilderState) (n : Nat) (v : Block) :
    (setBlock st n v).components = st.components := rfl

@[simp] theorem setBlock_blocks (st : BuilderState) (n : Nat) (v : Block) :
    (setBlock st n v).blocks = st.blocks.set n v := rfl

@[simp] theorem setBlock_cut_nodes (st : BuilderState) (n : Nat) (v : Block) :
    (setBlock st n v).cut_nodes = st.cut_nodes := rfl

@[simp] theorem setBlock_spqr_nodes (st : BuilderState) (n : Nat) (v : Block) :
    (setBlock st n v).spqr_nodes = st.spqr_nodes := rfl

@[simp] theorem setBlock_spqr_edges (st : BuilderState) (n : Nat) (v : Block) :
    (setBlock st n v).spqr_edges = st.spqr_edges := rfl

@[simp] theorem setBlock_node_data (st : BuilderState) (n : Nat) (v : Block) :
    (setBlock st n v).node_data = st.node_data := rfl

@[simp] theorem setBlock_edge_data (st : BuilderState) (n : Nat) (v : Block) :
    (setBlock st n v).edge_data = st.edge_data := rfl

@[simp] theorem setSPQRNode_components (st : BuilderState) (n : Nat) (v : SPQRNode) :
    (setSPQRNode st n v).components = st.components := rfl

@[simp] theorem setSPQRNode_blocks (st : BuilderState) (n : Nat) (v : SPQRNode) :
    (setSPQRNode st n v).blocks = st.blocks := rfl

@[simp] theorem setSPQRNode_cut_nodes (st : BuilderState) (n : Nat) (v : SPQRNode) :
    (setSPQRNode st n v).cut_nodes = st.cut_nodes := rfl

@[simp] theorem setSPQRNode_spqr_nodes (st : BuilderState) (n : Nat) (v : SPQRNode) :
    (setSPQRNode st n v).spqr_nodes = st.spqr_nodes.set n v := rfl

@[simp] theorem setSPQRNode_spqr_edges (st : BuilderState) (n : Nat) (v : SPQRNode) :
    (setSPQRNode st n v).spqr_edges = st.spqr_edges := rfl

@[simp] theorem setSPQRNode_node_data (st : BuilderState) (n : Nat) (v : SPQRNode) :
    (setSPQRNode st n v).node_data = st.node_data := rfl

@[simp] theorem setSPQRNode_edge_data (st : BuilderState) (n : Nat) (v : SPQRNode) :
    (setSPQRNode st n v).edge_data = st.edge_data := rfl

@[simp] theorem pushComponent_components (st : BuilderState) (v : Component) :
    (pushComponent st v).components = st.components ++ [v] := rfl

@[simp] theorem pushComponent_blocks (st : BuilderState) (v : Component) :
    (pushComponent st v).blocks = st.blocks := rfl

@[simp] theorem pushComponent_cut_nodes (st : BuilderState) (v : Component) :
    (pushComponent st v).cut_nodes = st.cut_nodes := rfl

@[simp] theorem pushComponent_spqr_nodes (st : BuilderState) (v : Component) :
    (pushComponent st v).spqr_nodes = st.spqr_nodes := rfl

@[simp] theorem pushComponent_spqr_edges (st : BuilderState) (v : Component) :
    (pushComponent st v).spqr_edges = st.spqr_edges := rfl

@[simp] theorem pushComponent_node_data (st : BuilderState) (v : Component) :
    (pushComponent st v).node_data = st.node_data := rfl

@[simp] theorem pushComponent_edge_data (st : BuilderState) (v : Component) :
    (pushComponent st v).edge_data = st.edge_data := rfl

@[simp] theorem pushBlock_components (st : BuilderState) (v : Block) :
    (pushBlock st v).components = st.components := rfl

@[simp] theorem pushBlock_blocks (st : BuilderState) (v : Block) :
    (pushBlock st v).blocks = st.blocks ++ [v] := rfl

@[simp] theorem pushBlock_cut_nodes (st : BuilderState) (v : Block) :
    (pushBlock st v).cut_nodes = st.cut_nodes := rfl

@[simp] theorem pushBlock_spqr_nodes (st : BuilderState) (v : Block) :
    (pushBlock st v).spqr_nodes = st.spqr_nodes := rfl

@[simp] theorem pushBlock_spqr_edges (st : BuilderState) (v : Block) :
    (pushBlock st v).spqr_edges = st.spqr_edges := rfl

@[simp] theorem pushBlock_node_data (st : BuilderState) (v : Block) :
    (pushBlock st v).node_data = st.node_data := rfl

@[simp] theorem pushBlock_edge_data (st : BuilderState) (v : Block) :
    (pushBlock st v).edge_data = st.edge_data := rfl

@[simp] theorem pushCutNode_components (st : BuilderState) (v : CutNode) :
    (pushCutNode st v).components = st.components := rfl

@[simp] theorem pushCutNode_blocks (st : BuilderState) (v : CutNode) :
    (pushCutNode st v).blocks = st.blocks := rfl

@[simp] theorem pushCutNode_cut_nodes (st : BuilderState) (v : CutNode) :
    (pushCutNode st v).cut_nodes = st.cut_nodes ++ [v] := rfl

@[simp] theorem pushCutNode_spqr_nodes (st : BuilderState) (v : CutNode) :
    (pushCutNode st v).spqr_nodes = st.spqr_nodes := rfl

@[simp] theorem pushCutNode_spqr_edges (st : BuilderState) (v : CutNode) :
    (pushCutNode st v).spqr_edges = st.spqr_edges := rfl

@[simp] theorem pushCutNode_node_data (st : BuilderState) (v : CutNode) :
    (pushCutNode st v).node_data = st.node_data := rfl

@[simp] theorem pushCutNode_edge_data (st : BuilderState) (v : CutNode) :
    (pushCutNode st v).edge_data = st.edge_data := rfl

@[simp] theorem pushSPQRNode_components (st : BuilderState) (v : SPQRNode) :
    (pushSPQRNode st v).components = st.components := rfl

@[simp] theorem pushSPQRNode_blocks (st : BuilderState) (v : SPQRNode) :
    (pushSPQRNode st v).blocks = st.blocks := rfl

@[simp] theorem pushSPQRNode_cut_nodes (st : BuilderState) (v : SPQRNode) :
    (pushSPQRNode st v).cut_nodes = st.cut_nodes := rfl

@[simp] theorem pushSPQRNode_spqr_nodes (st : BuilderState) (v : SPQRNode) :
    (pushSPQRNode st v).spqr_nodes = st.spqr_nodes ++ [v] := rfl

@[simp] theorem pushSPQRNode_spqr_edges (st : BuilderState) (v : SPQRNode) :
    (pushSPQRNode st v).spqr_edges = st.spqr_edges := rfl

@[simp] theorem pushSPQRNode_node_data (st : BuilderState) (v : SPQRNode) :
    (pushSPQRNode st v).node_data = st.node_data := rfl

@[simp] theorem pushSPQRNode_edge_data (st : BuilderState) (v : SPQRNode) :
    (pushSPQRNode st v).edge_data = st.edge_data := rfl

@[simp] theorem pushSPQREdge_components (st : BuilderState) (v : SPQREdge) :
    (pushSPQREdge st v).components = st.components := rfl

@[simp] theorem pushSPQREdge_blocks (st : BuilderState) (v : SPQREdge) :
    (pushSPQREdge st v).blocks = st.blocks := rfl

@[simp] theorem pushSPQREdge_cut_nodes (st : BuilderState) (v : SPQREdge) :
    (pushSPQREdge st v).cut_nodes = st.cut_nodes := rfl

@[simp] theorem pushSPQREdge_spqr_nodes (st : BuilderState) (v : SPQREdge) :
    (pushSPQREdge st v).spqr_nodes = st.spqr_nodes := rfl

@[simp] theorem pushSPQREdge_spqr_edges (st : BuilderState) (v : SPQREdge) :
    (pushSPQREdge st v).spqr_edges = st.spqr_edges ++ [v] := rfl

@[simp] theorem pushSPQREdge_node_data (st : BuilderState) (v : SPQREdge) :
    (pushSPQREdge st v).node_data = st.node_data := rfl

@[simp] theorem pushSPQREdge_edge_data (st : BuilderState) (v : SPQREdge) :
    (pushSPQREdge st v).edge_data = st.edge_data := rfl

/-! Accessor lemmas: how each record accessor interacts with each state
update. -/

theorem ndAt_setNodeData_self (st : BuilderState) {n : Nat} (v : SPQRDecompositionNodeDataBuilder)
    (h : n < st.node_data.length) : (setNodeData st n v).ndAt n = v := by
  unfold BuilderState.ndAt setNodeData
  exact getD_set_self _ _ h

theorem ndAt_setNodeData_ne (st : BuilderState) {n k : Nat} (v : SPQRDecompositionNodeDataBuilder) (h : n ≠ k) :
    (setNodeData st n v).ndAt k = st.ndAt k := by
  unfold BuilderState.ndAt setNodeData
  exact getD_set_ne _ _ h

@[simp] theorem ndAt_setEdgeData (st : BuilderState) (n : Nat) (v : SPQRDecompositionEdgeDataBuilder) (k : Nat) :
    (setEdgeData st n v).ndAt k = st.ndAt k := rfl

@[simp] theorem ndAt_setComponent (st : BuilderState) (n : Nat) (v : Component) (k : Nat) :
    (setComponent st n v).ndAt k = st.ndAt k := rfl

@[simp] theorem ndAt_setBlock (st : BuilderState) (n : Nat) (v : Block) (k : Nat) :
    (setBlock st n v).ndAt k = st.ndAt k := rfl

@[simp] theorem ndAt_setSPQRNode (st : BuilderState) (n : Nat) (v : SPQRNode) (k : Nat) :
    (setSPQRNode st n v).ndAt k = st.ndAt k := rfl

@[simp] theorem ndAt_pushComponent (st : BuilderState) (v : Component) (k : Nat) :
    (pushComponent st v).ndAt k = st.ndAt k := rfl

@[simp] theorem ndAt_pushBlock (st : BuilderState) (v : Block) (k : Nat) :
    (pushBlock st v).ndAt k = st.ndAt k := rfl

@[simp] theorem ndAt_pushCutNode (st : BuilderState) (v : CutNode) (k : Nat) :
    (pushCutNode st v).ndAt k = st.ndAt k := rfl

@[simp] theorem ndAt_pushSPQRNode (st : BuilderState) (v : SPQRNode) (k : Nat) :
    (pushSPQRNode st v).ndAt k = st.ndAt k := rfl

@[simp] theorem ndAt_pushSPQREdge (st : BuilderState) (v : SPQREdge) (k : Nat) :
    (pushSPQREdge st v).ndAt k = st.ndAt k := rfl

@[simp] theorem edAt_setNodeData (st : BuilderState) (n : Nat) (v : SPQRDecompositionNodeDataBuilder) (k : Nat) :
    (setNodeData st n v).edAt k = st.edAt k := rfl

theorem edAt_setEdgeData_self (st : BuilderState) {n : Nat} (v : SPQRDecompositionEdgeDataBuilder)
    (h : n < st.edge_data.length) : (setEdgeData st n v).edAt n = v := by
  unfold BuilderState.edAt setEdgeData
  exact getD_set_self _ _ h

theorem edAt_setEdgeData_ne (st : BuilderState) {n k : Nat} (v : SPQRDecompositionEdgeDataBuilder) (h : n ≠ k) :
    (setEdgeData st n v).edAt k = st.edAt k := by
  unfold BuilderState.edAt setEdgeData
  exact getD_set_ne _ _ h

@[simp] theorem edAt_setComponent (st : BuilderState) (n : Nat) (v : Component) (k : Nat) :
    (setComponent st n v).edAt k = st.edAt k := rfl

@[simp] theorem edAt_setBlock (st : BuilderState) (n : Nat) (v : Block) (k : Nat) :
    (setBlock st n v).edAt k = st.edAt k := rfl

@[simp] theorem edAt_setSPQRNode (st : BuilderState) (n : Nat) (v : SPQRNode) (k : Nat) :
    (setSPQRNode st n v).edAt k = st.edAt k := rfl

@[simp] theorem edAt_pushComponent (st : BuilderState) (v : Component) (k : Nat) :
    (pushComponent st v).edAt k = st.edAt k := rfl

@[simp] theorem edAt_pushBlock (st : BuilderState) (v : Block) (k : Nat) :
    (pushBlock st v).edAt k = st.edAt k := rfl

@[simp] theorem edAt_pushCutNode (st : BuilderState) (v : CutNode) (k : Nat) :
    (pushCutNode st v).edAt k = st.edAt k := rfl

@[simp] theorem edAt_pushSPQRNode (st : BuilderState) (v : SPQRNode) (k : Nat) :
    (pushSPQRNode st v).edAt k = st.edAt k := rfl

@[simp] theorem edAt_pushSPQREdge (st : BuilderState) (v : SPQREdge) (k : Nat) :
    (pushSPQREdge st v).edAt k = st.edAt k := rfl

@[simp] theorem compAt_setNodeData (st : BuilderState) (n : Nat) (v : SPQRDecompositionNodeDataBuilder) (k : Nat) :
    (setNodeData st n v).compAt k = st.compAt k := rfl

@[simp] theorem compAt_setEdgeData (st : BuilderState) (n : Nat) (v : SPQRDecompositionEdgeDataBuilder) (k : Nat) :
    (setEdgeData st n v).compAt k = st.compAt k := rfl

theorem compAt_setComponent_self (st : BuilderState) {n : Nat} (v : Component)
    (h : n < st.components.length) : (setComponent st n v).compAt n = v := by
  unfold BuilderState.compAt setComponent
  exact getD_set_self _ _ h

theorem compAt_setComponent_ne (st : BuilderState) {n k : Nat} (v : Component) (h : n ≠ k) :
    (setComponent st n v).compAt k = st.compAt k := by
  unfold BuilderState.compAt setComponent
  exact getD_set_ne _ _ h

@[simp] theorem compAt_setBlock (st : BuilderState) (n : Nat) (v : Block) (k : Nat) :
    (setBlock st n v).compAt k = st.compAt k := rfl

@[simp] theorem compAt_setSPQRNode (st : BuilderState) (n : Nat) (v : SPQRNode) (k : Nat) :
    (setSPQRNode st n v).compAt k = st.compAt k := rfl

theorem compAt_pushComponent_lt (st : BuilderState) {k : Nat} (v : Component)
    (h : k < st.components.length) : (pushComponent st v).compAt k = st.compAt k := by
  unfold BuilderState.compAt pushComponent
  exact getD_append_lt _ h

theorem compAt_pushComponent_last (st : BuilderState) (v : Component) :
    (pushComponent st v).compAt st.components.length = v := by
  unfold BuilderState.compAt pushComponent
  exact getD_append_self_len _ _

@[simp] theorem compAt_pushBlock (st : BuilderState) (v : Block) (k : Nat) :
    (pushBlock st v).compAt k = st.compAt k := rfl

@[simp] theorem compAt_pushCutNode (st : BuilderState) (v : CutNode) (k : Nat) :
    (pushCutNode st v).compAt k = st.compAt k := rfl

@[simp] theorem compAt_pushSPQRNode (st : BuilderState) (v : SPQRNode) (k : Nat) :
    (pushSPQRNode st v).compAt k = st.compAt k := rfl

@[simp] theorem compAt_pushSPQREdge (st : BuilderState) (v : SPQREdge) (k : Nat) :
    (pushSPQREdge st v).compAt k = st.compAt k := rfl

@[simp] theorem blkAt_setNodeData (st : BuilderState) (n : Nat) (v : SPQRDecompositionNodeDataBuilder) (k : Nat) :
    (setNodeData st n v).blkAt k = st.blkAt k := rfl

@[simp] theorem blkAt_setEdgeData (st : BuilderState) (n : Nat) (v : SPQRDecompositionEdgeDataBuilder) (k : Nat) :
    (setEdgeData st n v).blkAt k = st.blkAt k := rfl

@[simp] theorem blkAt_setComponent (st : BuilderState) (n : Nat) (v : Component) (k : Nat) :
    (setComponent st n v).blkAt k = st.blkAt k := rfl

theorem blkAt_setBlock_self (st : BuilderState) {n : Nat} (v : Block)
    (h : n < st.blocks.length) : (setBlock st n v).blkAt n = v := by
  unfold BuilderState.blkAt setBlock
  exact getD_set_self _ _ h

theorem blkAt_setBlock_ne (st : BuilderState) {n k : Nat} (v : Block) (h : n ≠ k) :
    (setBlock st n v).blkAt k = st.blkAt k := by
  unfold BuilderState.blkAt setBlock
  exact getD_set_ne _ _ h

@[simp] theorem blkAt_setSPQRNode (st : BuilderState) (n : Nat) (v : SPQRNode) (k : Nat) :
    (setSPQRNode st n v).blkAt k = st.blkAt k := rfl

@[simp] theorem blkAt_pushComponent (st : BuilderState) (v : Component) (k : Nat) :
    (pushComponent st v).blkAt k = st.blkAt k := rfl

theorem blkAt_pushBlock_lt (st : BuilderState) {k : Nat} (v : Block)
    (h : k < st.blocks.length) : (pushBlock st v).blkAt k = st.blkAt k := by
  unfold BuilderState.blkAt pushBlock
  exact getD_append_lt _ h

theorem blkAt_pushBlock_last (st : BuilderState) (v : Block) :
    (pushBlock st v).blkAt st.blocks.length = v := by
  unfold BuilderState.blkAt pushBlock
  exact getD_append_self_len _ _

@[simp] theorem blkAt_pushCutNode (st : BuilderState) (v : CutNode) (k : Nat) :
    (pushCutNode st v).blkAt k = st.blkAt k := rfl

@[simp] theorem blkAt_pushSPQRNode (st : BuilderState) (v : SPQRNode) (k : Nat) :
    (pushSPQRNode st v).blkAt k = st.blkAt k := rfl

@[simp] theorem blkAt_pushSPQREdge (st : BuilderState) (v : SPQREdge) (k : Nat) :
    (pushSPQREdge st v).blkAt k = st.blkAt k := rfl

@[simp] theorem cnAt_setNodeData (st : BuilderState) (n : Nat) (v : SPQRDecompositionNodeDataBuilder) (k : Nat) :
    (setNodeData st n v).cnAt k = st.cnAt k := rfl

@[simp] theorem cnAt_setEdgeData (st : BuilderState) (n : Nat) (v : SPQRDecompositionEdgeDataBuilder) (k : Nat) :
    (setEdgeData st n v).cnAt k = st.cnAt k := rfl

@[simp] theorem cnAt_setComponent (st : BuilderState) (n : Nat) (v : Component) (k : Nat) :
    (setComponent st n v).cnAt k = st.cnAt k := rfl

@[simp] theorem cnAt_setBlock (st : BuilderState) (n : Nat) (v : Block) (k : Nat) :
    (setBlock st n v).cnAt k = st.cnAt k := rfl

@[simp] theorem cnAt_setSPQRNode (st : BuilderState) (n : Nat) (v : SPQRNode) (k : Nat) :
    (setSPQRNode st n v).cnAt k = st.cnAt k := rfl

@[simp] theorem cnAt_pushComponent (st : BuilderState) (v : Component) (k : Nat) :
    (pushComponent st v).cnAt k = st.cnAt k := rfl

@[simp] theorem cnAt_pushBlock (st : BuilderState) (v : Block) (k : Nat) :
    (pushBlock st v).cnAt k = st.cnAt k := rfl

theorem cnAt_pushCutNode_lt (st : BuilderState) {k : Nat} (v : CutNode)
    (h : k < st.cut_nodes.length) : (pushCutNode st v).cnAt k = st.cnAt k := by
  unfold BuilderState.cnAt pushCutNode
  exact getD_append_lt _ h

theorem cnAt_pushCutNode_last (st : BuilderState) (v : CutNode) :
    (pushCutNode st v).cnAt st.cut_nodes.length = v := by
  unfold BuilderState.cnAt pushCutNode
  exact getD_append_self_len _ _

@[simp] theorem cnAt_pushSPQRNode (st : BuilderState) (v : SPQRNode) (k : Nat) :
    (pushSPQRNode st v).cnAt k = st.cnAt k := rfl

@[simp] theorem cnAt_pushSPQREdge (st : BuilderState) (v : SPQREdge) (k : Nat) :
    (pushSPQREdge st v).cnAt k = st.cnAt k := rfl

@[simp] theorem snAt_setNodeData (st : BuilderState) (n : Nat) (v : SPQRDecompositionNodeDataBuilder) (k : Nat) :
    (setNodeData st n v).snAt k = st.snAt k := rfl

@[simp] theorem snAt_setEdgeData (st : BuilderState) (n : Nat) (v : SPQRDecompositionEdgeDataBuilder) (k : Nat) :
    (setEdgeData st n v).snAt k = st.snAt k := rfl

@[simp] theorem snAt_setComponent (st : BuilderState) (n : Nat) (v : Component) (k : Nat) :
    (setComponent st n v).snAt k = st.snAt k := rfl

@[simp] theorem snAt_setBlock (st : BuilderState) (n : Nat) (v : Block) (k : Nat) :
    (setBlock st n v).snAt k = st.snAt k := rfl

theorem snAt_setSPQRNode_self (st : BuilderState) {n : Nat} (v : SPQRNode)
    (h : n < st.spqr_nodes.length) : (setSPQRNode st n v).snAt n = v := by
  unfold BuilderState.snAt setSPQRNode
  exact getD_set_self _ _ h

theorem snAt_setSPQRNode_ne (st : BuilderState) {n k : Nat} (v : SPQRNode) (h : n ≠ k) :
    (setSPQRNode st n v).snAt k = st.snAt k := by
  unfold BuilderState.snAt setSPQRNode
  exact getD_set_ne _ _ h

@[simp] theorem snAt_pushComponent (st : BuilderState) (v : Component) (k : Nat) :
    (pushComponent st v).snAt k = st.snAt k := rfl

@[simp] theorem snAt_pushBlock (st : BuilderState) (v : Block) (k : Nat) :
    (pushBlock st v).snAt k = st.snAt k := rfl

@[simp] theorem snAt_pushCutNode (st : BuilderState) (v : CutNode) (k : Nat) :
    (pushCutNode st v).snAt k = st.snAt k := rfl

theorem snAt_pushSPQRNode_lt (st : BuilderState) {k : Nat} (v : SPQRNode)
    (h : k < st.spqr_nodes.length) : (pushSPQRNode st v).snAt k = st.snAt k := by
  unfold BuilderState.snAt pushSPQRNode
  exact getD_append_lt _ h

theorem snAt_pushSPQRNode_last (st : BuilderState) (v : SPQRNode) :
    (pushSPQRNode st v).snAt st.spqr_nodes.length = v := by
  unfold BuilderState.snAt pushSPQRNode
  exact getD_append_self_len _ _

@[simp] theorem snAt_pushSPQREdge (st : BuilderState) (v : SPQREdge) (k : Nat) :
    (pushSPQREdge st v).snAt k = st.snAt k := rfl

/-! `seAt` accessor lemmas. -/

theorem seAt_pushSPQREdge_lt (st : BuilderState) {k : Nat} (v : SPQREdge)
    (h : k < st.spqr_edges.length) : (pushSPQREdge st v).seAt k = st.seAt k := by
  unfold BuilderState.seAt pushSPQREdge
  exact getD_append_lt _ h

theorem seAt_pushSPQREdge_last (st : BuilderState) (v : SPQREdge) :
    (pushSPQREdge st v).seAt st.spqr_edges.length = v := by
  unfold BuilderState.seAt pushSPQREdge
  exact getD_append_self_len _ _

@[simp] theorem seAt_setNodeData (st : BuilderState) (n : Nat)
    (v : SPQRDecompositionNodeDataBuilder) (k : Nat) :
    (setNodeData st n v).seAt k = st.seAt k := rfl

@[simp] theorem seAt_setEdgeData (st : BuilderState) (n : Nat)
    (v : SPQRDecompositionEdgeDataBuilder) (k : Nat) :
    (setEdgeData st n v).seAt k = st.seAt k := rfl

@[simp] theorem seAt_setComponent (st : BuilderState) (n : Nat) (v : Component) (k : Nat) :
    (setComponent st n v).seAt k = st.seAt k := rfl

@[simp] theorem seAt_setBlock (st : BuilderState) (n : Nat) (v : Block) (k : Nat) :
    (setBlock st n v).seAt k = st.seAt k := rfl

@[simp] theorem seAt_setSPQRNode (st : BuilderState) (n : Nat) (v : SPQRNode) (k : Nat) :
    (setSPQRNode st n v).seAt k = st.seAt k := rfl

@[simp] theorem seAt_pushComponent (st : BuilderState) (v : Component) (k : Nat) :
    (pushComponent st v).seAt k = st.seAt k := rfl

@[simp] theorem seAt_pushBlock (st : BuilderState) (v : Block) (k : Nat) :
    (pushBlock st v).seAt k = st.seAt k := rfl

@[simp] theorem seAt_pushCutNode (st : BuilderState) (v : CutNode) (k : Nat) :
    (pushCutNode st v).seAt k = st.seAt k := rfl

@[simp] theorem seAt_pushSPQRNode (st : BuilderState) (v : SPQRNode) (k : Nat) :
    (pushSPQRNode st v).seAt k = st.seAt k := rfl

/-! ### C4: fail-fast lemmas -/

theorem addComponentEdges_node_data {idx : Nat} {st st' : BuilderState} {es : List Nat}
    (h : addComponentEdges idx st es = some st') : st'.node_data = st.node_data := by
  induction es generalizing st with
  | nil => simp only [addComponentEdges] at h; cases h; rfl
  | cons e rest ih =>
    rw [addComponentEdges, obind_eq_some] at h
    obtain ⟨ed, he, h⟩ := h
    split at h
    · exact ih h
    · rw [guard_bind_eq_some] at h
      have h2 := ih h.2
      exact h2

/-- `add_component` on an empty node list panics at its first assertion. -/
theorem add_component_nil (g : Graph) (st : BuilderState) :
    add_component g st [] = none := by
  unfold add_component
  rw [guard_neg (by simp)]
  rfl

theorem addComponentNodes_assigned (g : Graph) {idx : Nat} {st : BuilderState}
    {nodes : List Nat} {n c : Nat} (hn : n ∈ nodes)
    (hc : (st.ndAt n).component_index = some c) :
    addComponentNodes g idx st nodes = none := by
  induction nodes generalizing st with
  | nil => cases hn
  | cons x xs ih =>
    cases hres : addComponentNodes g idx st (x :: xs) with
    | none => rfl
    | some st' =>
      exfalso
      rw [addComponentNodes, obind_eq_some] at hres
      obtain ⟨nd, he, hres⟩ := hres
      rw [guard_bind_eq_some] at hres
      obtain ⟨hnone, hres⟩ := hres
      rw [obind_eq_some] at hres
      obtain ⟨st2, hedges, hres⟩ := hres
      rcases eq_or_ne x n with rfl | hne
      · have hx : st.ndAt x = nd := getD_of_some _ he
        rw [hx] at hc
        rw [hc] at hnone
        simp at hnone
      · have hn' : n ∈ xs := by
          rcases List.mem_cons.mp hn with h | h
          · exact absurd h.symm hne
          · exact h
        have hnd : st2.node_data =
            (setNodeData st x { nd with component_index := some idx }).node_data :=
          addComponentEdges_node_data hedges
        have hpres : (st2.ndAt n).component_index = some c := by
          unfold BuilderState.ndAt
          rw [hnd]
          show ((st.node_data.set x _).getD n _).component_index = some c
          rw [getD_set_ne _ _ hne]
          exact hc
        rw [ih hn' hpres] at hres
        exact Option.noConfusion hres

/-- `add_component` panics when a listed node already has a component. -/
theorem add_component_assigned (g : Graph) {st : BuilderState} {nodes : List Nat}
    {n c : Nat} (hn : n ∈ nodes) (hc : (st.ndAt n).component_index = some c) :
    add_component g st nodes = none := by
  cases hres : add_component g st nodes with
  | none => rfl
  | some p =>
    exfalso
    rw [add_component, guard_bind_eq_some] at hres
    obtain ⟨-, hres⟩ := hres
    rw [obind_eq_some] at hres
    obtain ⟨st2, hloop, -⟩ := hres
    rw [addComponentNodes_assigned g hn hc] at hloop
    exact Option.noConfusion hloop

theorem addBlockMembership_mem_idx (component idx : Nat) {st : BuilderState}
    {nodes : List Nat} {n : Nat} (hn : n ∈ nodes)
    (hmem : idx ∈ (st.ndAt n).block_indices) :
    addBlockMembership component idx st nodes = none := by
  induction nodes generalizing st with
  | nil => cases hn
  | cons x xs ih =>
    cases hres : addBlockMembership component idx st (x :: xs) with
    | none => rfl
    | some st' =>
      exfalso
      rw [addBlockMembership, obind_eq_some] at hres
      obtain ⟨nd, he, hres⟩ := hres
      rw [guard_bind_eq_some] at hres
      obtain ⟨-, hres⟩ := hres
      rw [guard_bind_eq_some] at hres
      obtain ⟨hnotmem, hres⟩ := hres
      rcases eq_or_ne x n with rfl | hne
      · have hx : st.ndAt x = nd := getD_of_some _ he
        rw [hx] at hmem
        exact hnotmem hmem
      · have hn' : n ∈ xs := by
          rcases List.mem_cons.mp hn with h | h
          · exact absurd h.symm hne
          · exact h
        have hpres : idx ∈ ((setNodeData st x
            { nd with block_indices := nd.block_indices ++ [idx] }).ndAt n).block_indices := by
          rw [ndAt_setNodeData_ne st _ hne]
          exact hmem
        rw [ih hn' hpres] at hres
        exact Option.noConfusion hres

theorem addBlockMembership_dup (component idx : Nat) {st : BuilderState}
    {nodes : List Nat} (hnd : ¬ nodes.Nodup) :
    addBlockMembership component idx st nodes = none := by
  induction nodes generalizing st with
  | nil => exact absurd List.nodup_nil hnd
  | cons x xs ih =>
    cases hres : addBlockMembership component idx st (x :: xs) with
    | none => rfl
    | some st' =>
      exfalso
      rw [addBlockMembership, obind_eq_some] at hres
      obtain ⟨nd, he, hres⟩ := hres
      rw [guard_bind_eq_some] at hres
      obtain ⟨-, hres⟩ := hres
      rw [guard_bind_eq_some] at hres
      obtain ⟨-, hres⟩ := hres
      rw [List.nodup_cons, not_and_or] at hnd
      rcases hnd with hmem | hnd
      · rw [not_not] at hmem
        have hlt : x < st.node_data.length := length_of_some he
        have hself : idx ∈ ((setNodeData st x
            { nd with block_indices := nd.block_indices ++ [idx] }).ndAt x).block_indices := by
          rw [ndAt_setNodeData_self st _ hlt]
          simp
        rw [addBlockMembership_mem_idx component idx hmem hself] at hres
        exact Option.noConfusion hres
      · rw [ih hnd] at hres
        exact Option.noConfusion hres

/-- `add_block` on an empty node list panics at its first assertion. -/
theorem add_block_nil (g : Graph) (st : BuilderState) (component : Nat) :
    add_block g st component [] = none := by
  unfold add_block
  rw [guard_neg (by simp)]
  rfl

/-- `add_block` panics when the same node is listed twice in one call (the
`contains(&index)` assertion; a node already in a *different* block is
accepted). -/
theorem add_block_dup (g : Graph) {st : BuilderState} {component : Nat}
    {nodes : List Nat} (hnd : ¬ nodes.Nodup) :
    add_block g st component nodes = none := by
  cases hres : add_block g st component nodes with
  | none => rfl
  | some p =>
    exfalso
    rw [add_block, guard_bind_eq_some] at hres
    obtain ⟨-, hres⟩ := hres
    rw [obind_eq_some] at hres
    obtain ⟨comp, -, hres⟩ := hres
    rw [obind_eq_some] at hres
    obtain ⟨st2, hloop, -⟩ := hres
    rw [addBlockMembership_dup component _ hnd] at hloop
    exact Option.noConfusion hloop

theorem addSPQRNodeMembership_mem_idx (component block idx : Nat) {st : BuilderState}
    {nodes : List Nat} {n : Nat} (hn : n ∈ nodes)
    (hmem : idx ∈ (st.ndAt n).spqr_node_indices) :
    addSPQRNodeMembership component block idx st nodes = none := by
  induction nodes generalizing st with
  | nil => cases hn
  | cons x xs ih =>
    cases hres : addSPQRNodeMembership component block idx st (x :: xs) with
    | none => rfl
    | some st' =>
      exfalso
      rw [addSPQRNodeMembership, obind_eq_some] at hres
      obtain ⟨nd, he, hres⟩ := hres
      rw [guard_bind_eq_some] at hres
      obtain ⟨-, hres⟩ := hres
      rw [guard_bind_eq_some] at hres
      obtain ⟨-, hres⟩ := hres
      rw [guard_bind_eq_some] at hres
      obtain ⟨hnotmem, hres⟩ := hres
      rcases eq_or_ne x n with rfl | hne
      · have hx : st.ndAt x = nd := getD_of_some _ he
        rw [hx] at hmem
        exact hnotmem hmem
      · have hn' : n ∈ xs := by
          rcases List.mem_cons.mp hn with h | h
          · exact absurd h.symm hne
          · exact h
        have hpres : idx ∈ ((setNodeData st x
            { nd with spqr_node_indices :=
                nd.spqr_node_indices ++ [idx] }).ndAt n).spqr_node_indices := by
          rw [ndAt_setNodeData_ne st _ hne]
          exact hmem
        rw [ih hn' hpres] at hres
        exact Option.noConfusion hres

theorem addSPQRNodeMembership_dup (component block idx : Nat) {st : BuilderState}
    {nodes : List Nat} (hnd : ¬ nodes.Nodup) :
    addSPQRNodeMembership component block idx st nodes = none := by
  induction nodes generalizing st with
  | nil => exact absurd List.nodup_nil hnd
  | cons x xs ih =>
    cases hres : addSPQRNodeMembership component block idx st (x :: xs) with
    | none => rfl
    | some st' =>
      exfalso
      rw [addSPQRNodeMembership, obind_eq_some] at hres
      obtain ⟨nd, he, hres⟩ := hres
      rw [guard_bind_eq_some] at hres
      obtain ⟨-, hres⟩ := hres
      rw [guard_bind_eq_some] at hres
      obtain ⟨-, hres⟩ := hres
      rw [guard_bind_eq_some] at hres
      obtain ⟨-, hres⟩ := hres
      rw [List.nodup_cons, not_and_or] at hnd
      rcases hnd with hmem | hnd
      · rw [not_not] at hmem
        have hlt : x < st.node_data.length := length_of_some he
        have hself : idx ∈ ((setNodeData st x
            { nd with spqr_node_indices :=
                nd.spqr_node_indices ++ [idx] }).ndAt x).spqr_node_indices := by
          rw [ndAt_setNodeData_self st _ hlt]
          simp
        rw [addSPQRNodeMembership_mem_idx component block idx hmem hself] at hres
        exact Option.noConfusion hres
      · rw [ih hnd] at hres
        exact Option.noConfusion hres

/-- `add_spqr_node` panics on fewer than two nodes. -/
theorem add_spqr_node_short {st : BuilderState} {block : Nat} {nodes : List Nat}
    {t : SPQRNodeType} (h : nodes.length < 2) : add_spqr_node st block nodes t = none := by
  unfold add_spqr_node
  rw [guard_neg (by omega)]
  rfl

/-- `add_spqr_node` panics when the same node is listed twice in one call. -/
theorem add_spqr_node_dup {st : BuilderState} {block : Nat} {nodes : List Nat}
    {t : SPQRNodeType} (hnd : ¬ nodes.Nodup) : add_spqr_node st block nodes t = none := by
  cases hres : add_spqr_node st block nodes t with
  | none => rfl
  | some p =>
    exfalso
    rw [add_spqr_node, guard_bind_eq_some] at hres
    obtain ⟨-, hres⟩ := hres
    rw [obind_eq_some] at hres
    obtain ⟨blk, -, hres⟩ := hres
    rw [obind_eq_some] at hres
    obtain ⟨st2, hloop, -⟩ := hres
    rw [addSPQRNodeMembership_dup _ _ _ hnd] at hloop
    exact Option.noConfusion hloop

/-- `add_cut_node` on an empty block list panics at its first assertion. -/
theorem add_cut_node_nil (st : BuilderState) (n : Nat) : add_cut_node st n [] = none := by
  unfold add_cut_node
  rw [guard_neg (by simp)]
  rfl

/-- A state with node `0` already assigned to component `0` (for the C4
witness). -/
def assignedState : BuilderState :=
  (applyOp pathGraph (BuilderState.new pathGraph)
    (.addComponent [0, 1])).getD (BuilderState.new pathGraph)

/-- C4 (amended): each builder operation fails fast — by `assert!`-style
panic, modelled as `none` — on its actual contract violations:
`add_component` on an empty node list or on a node already assigned to a
component; `add_block` on an empty node list or on listing the same node
twice in one call (the per-call `contains(&index)` assertion); likewise
`add_spqr_node` on fewer than two nodes or on a same-call duplicate; and
`add_cut_node` on an empty block list.  Reusing a node across two
*different* blocks or SPQR nodes is accepted (see `C4_counterexample`),
which is the one part of the claim the code refutes. -/
theorem C4_builder_fail_fast :
    (∀ (g : Graph) (st : BuilderState), add_component g st [] = none) ∧
    (∀ (g : Graph) (st : BuilderState) (nodes : List Nat) (n c : Nat), n ∈ nodes →
      (st.ndAt n).component_index = some c → add_component g st nodes = none) ∧
    (∀ (g : Graph) (st : BuilderState) (component : Nat),
      add_block g st component [] = none) ∧
    (∀ (g : Graph) (st : BuilderState) (component : Nat) (nodes : List Nat),
      ¬ nodes.Nodup → add_block g st component nodes = none) ∧
    (∀ (st : BuilderState) (block : Nat) (nodes : List Nat) (t : SPQRNodeType),
      nodes.length < 2 → add_spqr_node st block nodes t = none) ∧
    (∀ (st : BuilderState) (block : Nat) (nodes : List Nat) (t : SPQRNodeType),
      ¬ nodes.Nodup → add_spqr_node st block nodes t = none) ∧
    (∀ (st : BuilderState) (n : Nat), add_cut_node st n [] = none) :=
  ⟨add_component_nil,
   fun g _ _ _ _ hn hc => add_component_assigned g hn hc,
   add_block_nil,
   fun g _ _ _ hnd => add_block_dup g hnd,
   fun _ _ _ _ h => add_spqr_node_short h,
   fun _ _ _ _ hnd => add_spqr_node_dup hnd,
   add_cut_node_nil⟩

/-- Witness for C4 at concrete states and node lists. -/
theorem C4_witness :
    add_component pathGraph assignedState [] = none ∧
    (0 ∈ [0] ∧ (assignedState.ndAt 0).component_index = some 0 ∧
      add_component pathGraph assignedState [0] = none) ∧
    add_block pathGraph assignedState 0 [] = none ∧
    (¬ [0, 0].Nodup ∧ add_block pathGraph assignedState 0 [0, 0] = none) ∧
    ([1].length < 2 ∧ add_spqr_node assignedState 0 [1] .SNode = none) ∧
    (¬ [1, 1].Nodup ∧ add_spqr_node assignedState 0 [1, 1] .SNode = none) ∧
    add_cut_node assignedState 0 [] = none :=
  ⟨C4_builder_fail_fast.1 pathGraph assignedState,
   ⟨by decide, by decide,
    C4_builder_fail_fast.2.1 pathGraph assignedState [0] 0 0 (by decide) (by decide)⟩,
   C4_builder_fail_fast.2.2.1 pathGraph assignedState 0,
   ⟨by decide,
    C4_builder_fail_fast.2.2.2.1 pathGraph assignedState 0 [0, 0] (by decide)⟩,
   ⟨by decide,
    C4_builder_fail_fast.2.2.2.2.1 assignedState 0 [1] .SNode (by decide)⟩,
   ⟨by decide,
    C4_builder_fail_fast.2.2.2.2.2.1 assignedState 0 [1, 1] .SNode (by decide)⟩,
   C4_builder_fail_fast.2.2.2.2.2.2 assignedState 0⟩

/-! ### Builder operation characterizations and the global builder invariant -/

/-- Full effect of the `add_component` edge loop: only `edge_data` changes,
and each entry either keeps its component or receives `some idx`. -/
theorem addComponentEdges_spec {idx : Nat} {st st' : BuilderState} {es : List Nat}
    (h : addComponentEdges idx st es = some st') :
    st'.node_data = st.node_data ∧ st'.components = st.components ∧
    st'.blocks = st.blocks ∧ st'.cut_nodes = st.cut_nodes ∧
    st'.spqr_nodes = st.spqr_nodes ∧ st'.spqr_edges = st.spqr_edges ∧
    st'.edge_data.length = st.edge_data.length ∧
    (∀ e, (st'.edAt e).block_index = (st.edAt e).block_index ∧
      (st'.edAt e).spqr_node_index = (st.edAt e).spqr_node_index ∧
      (st'.edAt e).extra_data = (st.edAt e).extra_data ∧
      ((st'.edAt e).component_index = (st.edAt e).component_index ∨
        (st'.edAt e).component_index = some idx)) := by
  induction es generalizing st with
  | nil =>
    simp only [addComponentEdges] at h
    cases h
    exact ⟨rfl, rfl, rfl, rfl, rfl, rfl, rfl, fun e => ⟨rfl, rfl, rfl, Or.inl rfl⟩⟩
  | cons e rest ih =>
    rw [addComponentEdges, obind_eq_some] at h
    obtain ⟨ed, he, h⟩ := h
    split at h
    · exact ih h
    · rw [guard_bind_eq_some] at h
      obtain ⟨-, h⟩ := h
      obtain ⟨h1, h2, h3, h4, h5, h6, h7, h8⟩ := ih h
      have hlt : e < st.edge_data.length := length_of_some he
      refine ⟨h1, h2, h3, h4, h5, h6, by rw [h7]; simp [setEdgeData], ?_⟩
      intro e'
      obtain ⟨g1, g2, g3, g4⟩ := h8 e'
      rcases eq_or_ne e e' with rfl | hne
      · have hself : (setEdgeData st e { ed with component_index := some idx }).edAt e =
            { ed with component_index := some idx } :=
          edAt_setEdgeData_self st _ hlt
        have hed : st.edAt e = ed := getD_of_some _ he
        rw [hself] at g1 g2 g3 g4
        rw [hed]
        refine ⟨g1, g2, g3, ?_⟩
        rcases g4 with g4 | g4
        · right; rw [g4]
        · right; exact g4
      · rw [edAt_setEdgeData_ne st _ hne] at g1 g2 g3 g4
        exact ⟨g1, g2, g3, g4⟩

theorem addComponentNodes_spec (g : Graph) {idx : Nat} {st st' : BuilderState}
    {nodes : List Nat} (h : addComponentNodes g idx st nodes = some st') :
    st'.components = st.components ∧ st'.blocks = st.blocks ∧
    st'.cut_nodes = st.cut_nodes ∧ st'.spqr_nodes = st.spqr_nodes ∧
    st'.spqr_edges = st.spqr_edges ∧
    st'.node_data.length = st.node_data.length ∧
    st'.edge_data.length = st.edge_data.length ∧
    (∀ m, m ∉ nodes → st'.ndAt m = st.ndAt m) ∧
    (∀ m ∈ nodes, m < st.node_data.length ∧ (st.ndAt m).component_index = none ∧
      st'.ndAt m = { st.ndAt m with component_index := some idx }) ∧
    (∀ e, (st'.edAt e).block_index = (st.edAt e).block_index ∧
      (st'.edAt e).spqr_node_index = (st.edAt e).spqr_node_index ∧
      (st'.edAt e).extra_data = (st.edAt e).extra_data) := by
  induction nodes generalizing st with
  | nil =>
    simp only [addComponentNodes] at h
    cases h
    refine ⟨rfl, rfl, rfl, rfl, rfl, rfl, rfl, fun m _ => rfl, by simp, fun e => ⟨rfl, rfl, rfl⟩⟩
  | cons x xs ih =>
    rw [addComponentNodes, obind_eq_some] at h
    obtain ⟨nd, he, h⟩ := h
    rw [guard_bind_eq_some] at h
    obtain ⟨hnone, h⟩ := h
    rw [obind_eq_some] at h
    obtain ⟨st2, hedges, h⟩ := h
    obtain ⟨e1, e2, e3, e4, e5, e6, e7, e8⟩ := addComponentEdges_spec hedges
    obtain ⟨i1, i2, i3, i4, i5, i6, i7, i8, i9, i10⟩ := ih h
    have hxlt : x < st.node_data.length := length_of_some he
    have hndx : st.ndAt x = nd := getD_of_some _ he
    have hst2nd : ∀ m, st2.ndAt m =
        (setNodeData st x { nd with component_index := some idx }).ndAt m := by
      intro m
      unfold BuilderState.ndAt
      rw [e1]
    have hxnotin : x ∉ xs := by
      intro hmem
      have := (i9 x hmem).2.1
      rw [hst2nd x, ndAt_setNodeData_self st _ hxlt] at this
      exact Option.noConfusion this
    have hnone' : (st.ndAt x).component_index = none := by
      rw [hndx]
      exact Option.isNone_iff_eq_none.mp hnone
    constructor
    · rw [i1, e2, setNodeData_components]
    constructor
    · rw [i2, e3, setNodeData_blocks]
    constructor
    · rw [i3, e4, setNodeData_cut_nodes]
    constructor
    · rw [i4, e5, setNodeData_spqr_nodes]
    constructor
    · rw [i5, e6, setNodeData_spqr_edges]
    constructor
    · rw [i6, e1]; simp [setNodeData]
    constructor
    · rw [i7, e7]; simp [setEdgeData]
    constructor
    · intro m hm
      have hmx : m ≠ x := fun hc => hm (hc ▸ List.mem_cons_self x xs)
      have hmxs : m ∉ xs := fun hc => hm (List.mem_cons_of_mem x hc)
      rw [i8 m hmxs, hst2nd m, ndAt_setNodeData_ne st _ (Ne.symm hmx)]
    constructor
    · intro m hm
      rcases List.mem_cons.mp hm with rfl | hmxs
      · refine ⟨hxlt, hnone', ?_⟩
        rw [i8 m hxnotin, hst2nd m, ndAt_setNodeData_self st _ hxlt, hndx]
      · have hmx : m ≠ x := fun hc => hxnotin (hc ▸ hmxs)
        obtain ⟨q1, q2, q3⟩ := i9 m hmxs
        rw [hst2nd m, ndAt_setNodeData_ne st _ (Ne.symm hmx)] at q2 q3
        refine ⟨?_, q2, q3⟩
        have : st2.node_data.length = st.node_data.length := by
          rw [e1]; simp [setNodeData]
        omega
    · intro e
      obtain ⟨q1, q2, q3⟩ := i10 e
      obtain ⟨p1, p2, p3, -⟩ := e8 e
      have hsted : (setNodeData st x { nd with component_index := some idx }).edAt e =
          st.edAt e := rfl
      rw [hsted] at p1 p2 p3
      exact ⟨q1.trans p1, q2.trans p2, q3.trans p3⟩

theorem add_component_spec (g : Graph) {st st' : BuilderState} {nodes : List Nat}
    {idx : Nat} (h : add_component g st nodes = some (st', idx)) :
    idx = st.components.length ∧
    st'.components = st.components ++ [{ nodes := nodes, blocks := [], cut_nodes := [] }] ∧
    st'.blocks = st.blocks ∧ st'.cut_nodes = st.cut_nodes ∧
    st'.spqr_nodes = st.spqr_nodes ∧ st'.spqr_edges = st.spqr_edges ∧
    st'.node_data.length = st.node_data.length ∧
    st'.edge_data.length = st.edge_data.length ∧
    (∀ m, m ∉ nodes → st'.ndAt m = st.ndAt m) ∧
    (∀ m ∈ nodes, m < st.node_data.length ∧ (st.ndAt m).component_index = none ∧
      st'.ndAt m = { st.ndAt m with component_index := some idx }) ∧
    (∀ e, (st'.edAt e).block_index = (st.edAt e).block_index ∧
      (st'.edAt e).spqr_node_index = (st.edAt e).spqr_node_index ∧
      (st'.edAt e).extra_data = (st.edAt e).extra_data) := by
  rw [add_component, guard_bind_eq_some] at h
  obtain ⟨-, h⟩ := h
  rw [obind_eq_some] at h
  obtain ⟨st2, hloop, h⟩ := h
  obtain ⟨l1, l2, l3, l4, l5, l6, l7, l8, l9, l10⟩ := addComponentNodes_spec g hloop
  rw [Option.some_inj] at h
  injection h with h1 h2
  subst h1
  subst h2
  refine ⟨rfl, ?_, l2, l3, l4, l5, l6, l7, l8, l9, l10⟩
  rw [pushComponent_components, l1]

theorem addBlockMembership_spec {component idx : Nat} {st st' : BuilderState}
    {nodes : List Nat} (h : addBlockMembership component idx st nodes = some st') :
    st'.components = st.components ∧ st'.blocks = st.blocks ∧
    st'.cut_nodes = st.cut_nodes ∧ st'.spqr_nodes = st.spqr_nodes ∧
    st'.spqr_edges = st.spqr_edges ∧
    st'.node_data.length = st.node_data.length ∧ st'.edge_data = st.edge_data ∧
    (∀ m, m ∉ nodes → st'.ndAt m = st.ndAt m) ∧
    (∀ m ∈ nodes, m < st.node_data.length ∧
      (st.ndAt m).component_index = some component ∧
      idx ∉ (st.ndAt m).block_indices ∧
      st'.ndAt m =
        { st.ndAt m with block_indices := (st.ndAt m).block_indices ++ [idx] }) := by
  induction nodes generalizing st with
  | nil =>
    simp only [addBlockMembership] at h
    cases h
    exact ⟨rfl, rfl, rfl, rfl, rfl, rfl, rfl, fun m _ => rfl, by simp⟩
  | cons x xs ih =>
    rw [addBlockMembership, obind_eq_some] at h
    obtain ⟨nd, he, h⟩ := h
    rw [guard_bind_eq_some] at h
    obtain ⟨hcomp, h⟩ := h
    rw [guard_bind_eq_some] at h
    obtain ⟨hnotmem, h⟩ := h
    obtain ⟨i1, i2, i3, i4, i5, i6, i7, i8, i9⟩ := ih h
    have hxlt : x < st.node_data.length := length_of_some he
    have hndx : st.ndAt x = nd := getD_of_some _ he
    have hst2nd : ∀ m, (setNodeData st x
        { nd with block_indices := nd.block_indices ++ [idx] }).ndAt m =
        (setNodeData st x { nd with block_indices := nd.block_indices ++ [idx] }).ndAt m :=
      fun _ => rfl
    have hxnotin : x ∉ xs := by
      intro hmem
      have hni := (i9 x hmem).2.2.1
      rw [ndAt_setNodeData_self st _ hxlt] at hni
      simp at hni
    refine ⟨i1, i2, i3, i4, i5, by rw [i6]; simp [setNodeData], i7, ?_, ?_⟩
    · intro m hm
      have hmx : m ≠ x := fun hc => hm (hc ▸ List.mem_cons_self x xs)
      have hmxs : m ∉ xs := fun hc => hm (List.mem_cons_of_mem x hc)
      rw [i8 m hmxs, ndAt_setNodeData_ne st _ (Ne.symm hmx)]
    · intro m hm
      rcases List.mem_cons.mp hm with rfl | hmxs
      · refine ⟨hxlt, by rw [hndx]; exact hcomp, by rw [hndx]; exact hnotmem, ?_⟩
        rw [i8 m hxnotin, ndAt_setNodeData_self st _ hxlt, hndx]
      · have hmx : m ≠ x := fun hc => hxnotin (hc ▸ hmxs)
        obtain ⟨q1, q2, q3, q4⟩ := i9 m hmxs
        rw [ndAt_setNodeData_ne st _ (Ne.symm hmx)] at q2 q3 q4
        refine ⟨?_, q2, q3, q4⟩
        have : (setNodeData st x { nd with block_indices := nd.block_indices ++ [idx]
          }).node_data.length = st.node_data.length := by simp [setNodeData]
        omega

theorem claimBlockEdge_spec {g : Graph} {idx : Nat} {st st' : BuilderState} {e : Nat}
    (h : claimBlockEdge g idx st e = some st') :
    st'.components = st.components ∧ st'.blocks = st.blocks ∧
    st'.cut_nodes = st.cut_nodes ∧ st'.spqr_nodes = st.spqr_nodes ∧
    st'.spqr_edges = st.spqr_edges ∧ st'.node_data = st.node_data ∧
    st'.edge_data.length = st.edge_data.length ∧
    (∀ e', e' ≠ e → st'.edAt e' = st.edAt e') ∧
    ((st'.edAt e).block_index = (st.edAt e).block_index ∨
      ((st.edAt e).block_index = none ∧ (st'.edAt e).block_index = some idx ∧
        idx ∈ (st.ndAt (g.edgeEndpoints e).1).block_indices ∧
        idx ∈ (st.ndAt (g.edgeEndpoints e).2).block_indices)) ∧
    ((st'.edAt e).spqr_node_index = (st.edAt e).spqr_node_index ∧
      (st'.edAt e).extra_data = (st.edAt e).extra_data ∧
      (st'.edAt e).component_index = (st.edAt e).component_index) ∧
    (idx ∈ (st.ndAt (g.edgeEndpoints e).1).block_indices →
      idx ∈ (st.ndAt (g.edgeEndpoints e).2).block_indices →
      (st'.edAt e).block_index = some idx) := by
  rw [claimBlockEdge, obind_eq_some] at h
  obtain ⟨ed, he, h⟩ := h
  have hed : st.edAt e = ed := getD_of_some _ he
  have helt : e < st.edge_data.length := length_of_some he
  split at h
  · rename_i hidx
    cases h
    refine ⟨rfl, rfl, rfl, rfl, rfl, rfl, rfl, fun e' _ => rfl, Or.inl rfl,
      ⟨rfl, rfl, rfl⟩, ?_⟩
    intro h1 h2
    rw [hed]
    exact hidx
  · rename_i hidx
    rw [obind_eq_some] at h
    obtain ⟨nda, hea, h⟩ := h
    rw [obind_eq_some] at h
    obtain ⟨ndb, heb, h⟩ := h
    have hnda : st.ndAt (g.edgeEndpoints e).1 = nda := getD_of_some _ hea
    have hndb : st.ndAt (g.edgeEndpoints e).2 = ndb := getD_of_some _ heb
    split at h
    · rename_i hcond
      rw [guard_bind_eq_some] at h
      obtain ⟨hnone, h⟩ := h
      cases h
      have hself : (setEdgeData st e { ed with block_index := some idx }).edAt e =
          { ed with block_index := some idx } := edAt_setEdgeData_self st _ helt
      refine ⟨rfl, rfl, rfl, rfl, rfl, rfl, by simp [setEdgeData], ?_, ?_, ?_, ?_⟩
      · intro e' hne
        exact edAt_setEdgeData_ne st _ (Ne.symm hne)
      · right
        refine ⟨?_, ?_, ?_, ?_⟩
        · rw [hed]
          exact Option.isNone_iff_eq_none.mp hnone
        · rw [hself]
        · rw [hnda]
          exact hcond.1
        · rw [hndb]
          exact hcond.2
      · rw [hself, hed]
        exact ⟨rfl, rfl, rfl⟩
      · intro h1 h2
        rw [hself]
    · rename_i hcond
      cases h
      refine ⟨rfl, rfl, rfl, rfl, rfl, rfl, rfl, fun e' _ => rfl, Or.inl rfl,
        ⟨rfl, rfl, rfl⟩, ?_⟩
      intro h1 h2
      rw [hnda] at h1
      rw [hndb] at h2
      exact absurd ⟨h1, h2⟩ hcond

theorem claimBlockEdges_spec {g : Graph} {idx : Nat} {st st' : BuilderState}
    {es : List Nat} (h : claimBlockEdges g idx st es = some st') :
    st'.components = st.components ∧ st'.blocks = st.blocks ∧
    st'.cut_nodes = st.cut_nodes ∧ st'.spqr_nodes = st.spqr_nodes ∧
    st'.spqr_edges = st.spqr_edges ∧ st'.node_data = st.node_data ∧
    st'.edge_data.length = st.edge_data.length ∧
    (∀ e, e ∉ es → st'.edAt e = st.edAt e) ∧
    (∀ e, (st'.edAt e).block_index = (st.edAt e).block_index ∨
      ((st.edAt e).block_index = none ∧ (st'.edAt e).block_index = some idx ∧
        idx ∈ (st.ndAt (g.edgeEndpoints e).1).block_indices ∧
        idx ∈ (st.ndAt (g.edgeEndpoints e).2).block_indices)) ∧
    (∀ e, (st'.edAt e).spqr_node_index = (st.edAt e).spqr_node_index ∧
      (st'.edAt e).extra_data = (st.edAt e).extra_data ∧
      (st'.edAt e).component_index = (st.edAt e).component_index) ∧
    (∀ e ∈ es, idx ∈ (st.ndAt (g.edgeEndpoints e).1).block_indices →
      idx ∈ (st.ndAt (g.edgeEndpoints e).2).block_indices →
      (st'.edAt e).block_index = some idx) := by
  induction es generalizing st with
  | nil =>
    simp only [claimBlockEdges] at h
    cases h
    exact ⟨rfl, rfl, rfl, rfl, rfl, rfl, rfl, fun e _ => rfl, fun e => Or.inl rfl,
      fun e => ⟨rfl, rfl, rfl⟩, by simp⟩
  | cons e0 rest ih =>
    rw [claimBlockEdges, obind_eq_some] at h
    obtain ⟨st1, hstep, h⟩ := h
    obtain ⟨s1, s2, s3, s4, s5, s6, s7, s8, s9, s10, s11⟩ := claimBlockEdge_spec hstep
    obtain ⟨i1, i2, i3, i4, i5, i6, i7, i8, i9, i10, i11⟩ := ih h
    have hnd : ∀ m, st1.ndAt m = st.ndAt m := by
      intro m; unfold BuilderState.ndAt; rw [s6]
    refine ⟨i1.trans s1, i2.trans s2, i3.trans s3, i4.trans s4, i5.trans s5,
      i6.trans s6, i7.trans s7, ?_, ?_, ?_, ?_⟩
    · intro e he
      have he0 : e ≠ e0 := fun hc => he (hc ▸ List.mem_cons_self e0 rest)
      have hrest : e ∉ rest := fun hc => he (List.mem_cons_of_mem e0 hc)
      rw [i8 e hrest, s8 e he0]
    · intro e
      rcases i9 e with h1 | h1
      · rcases eq_or_ne e e0 with rfl | hne
        · rcases s9 with h2 | h2
          · exact Or.inl (h1.trans h2)
          · exact Or.inr ⟨h2.1, h1.trans h2.2.1, h2.2.2.1, h2.2.2.2⟩
        · rw [s8 e (by exact hne)] at h1
          exact Or.inl h1
      · obtain ⟨hn1, hs1, hm1, hm2⟩ := h1
        rw [hnd] at hm1 hm2
        rcases eq_or_ne e e0 with rfl | hne
        · rcases s9 with h2 | h2
          · rw [h2] at hn1
            exact Or.inr ⟨hn1, hs1, hm1, hm2⟩
          · exact Or.inr ⟨h2.1, hs1, hm1, hm2⟩
        · rw [s8 e (by exact hne)] at hn1
          exact Or.inr ⟨hn1, hs1, hm1, hm2⟩
    · intro e
      obtain ⟨q1, q2, q3⟩ := i10 e
      rcases eq_or_ne e e0 with rfl | hne
      · obtain ⟨p1, p2, p3⟩ := s10
        exact ⟨q1.trans p1, q2.trans p2, q3.trans p3⟩
      · rw [s8 e (by exact hne)] at q1 q2 q3
        exact ⟨q1, q2, q3⟩
    · intro e he h1 h2
      rcases List.mem_cons.mp he with rfl | hrest
      · have hclaimed : (st1.edAt e).block_index = some idx := s11 h1 h2
        rcases i9 e with h3 | h3
        · rw [h3, hclaimed]
        · rw [hclaimed] at h3
          exact absurd h3.1 (by simp)
      · rw [← hnd (g.edgeEndpoints e).1] at h1
        rw [← hnd (g.edgeEndpoints e).2] at h2
        exact i11 e hrest h1 h2

theorem claimBlockNodeEdges_spec {g : Graph} {idx : Nat} {st st' : BuilderState}
    {nodes : List Nat} (h : claimBlockNodeEdges g idx st nodes = some st') :
    st'.components = st.components ∧ st'.blocks = st.blocks ∧
    st'.cut_nodes = st.cut_nodes ∧ st'.spqr_nodes = st.spqr_nodes ∧
    st'.spqr_edges = st.spqr_edges ∧ st'.node_data = st.node_data ∧
    st'.edge_data.length = st.edge_data.length ∧
    (∀ e, (st'.edAt e).block_index = (st.edAt e).block_index ∨
      ((st.edAt e).block_index = none ∧ (st'.edAt e).block_index = some idx ∧
        idx ∈ (st.ndAt (g.edgeEndpoints e).1).block_indices ∧
        idx ∈ (st.ndAt (g.edgeEndpoints e).2).block_indices)) ∧
    (∀ e, (st'.edAt e).spqr_node_index = (st.edAt e).spqr_node_index ∧
      (st'.edAt e).extra_data = (st.edAt e).extra_data ∧
      (st'.edAt e).component_index = (st.edAt e).component_index) ∧
    (∀ n ∈ nodes, ∀ e ∈ g.incidentEdges n,
      idx ∈ (st.ndAt (g.edgeEndpoints e).1).block_indices →
      idx ∈ (st.ndAt (g.edgeEndpoints e).2).block_indices →
      (st'.edAt e).block_index = some idx) := by
  induction nodes generalizing st with
  | nil =>
    simp only [claimBlockNodeEdges] at h
    cases h
    exact ⟨rfl, rfl, rfl, rfl, rfl, rfl, rfl, fun e => Or.inl rfl,
      fun e => ⟨rfl, rfl, rfl⟩, by simp⟩
  | cons x xs ih =>
    rw [claimBlockNodeEdges, obind_eq_some] at h
    obtain ⟨st1, hstep, h⟩ := h
    obtain ⟨s1, s2, s3, s4, s5, s6, s7, s8, s9, s10, s11⟩ := claimBlockEdges_spec hstep
    obtain ⟨i1, i2, i3, i4, i5, i6, i7, i8, i9, i10⟩ := ih h
    have hnd : ∀ m, st1.ndAt m = st.ndAt m := by
      intro m; unfold BuilderState.ndAt; rw [s6]
    refine ⟨i1.trans s1, i2.trans s2, i3.trans s3, i4.trans s4, i5.trans s5,
      i6.trans s6, i7.trans s7, ?_, ?_, ?_⟩
    · intro e
      rcases i8 e with h1 | h1
      · rcases s9 e with h2 | h2
        · exact Or.inl (h1.trans h2)
        · exact Or.inr ⟨h2.1, h1.trans h2.2.1, h2.2.2.1, h2.2.2.2⟩
      · obtain ⟨hn1, hs1, hm1, hm2⟩ := h1
        rw [hnd] at hm1 hm2
        rcases s9 e with h2 | h2
        · rw [h2] at hn1
          exact Or.inr ⟨hn1, hs1, hm1, hm2⟩
        · exact Or.inr ⟨h2.1, hs1, hm1, hm2⟩
    · intro e
      obtain ⟨q1, q2, q3⟩ := i9 e
      obtain ⟨p1, p2, p3⟩ := s10 e
      exact ⟨q1.trans p1, q2.trans p2, q3.trans p3⟩
    · intro n hn e he h1 h2
      rcases List.mem_cons.mp hn with rfl | hxs
      · have hclaimed : (st1.edAt e).block_index = some idx := s11 e he h1 h2
        rcases i8 e with h3 | h3
        · rw [h3, hclaimed]
        · rw [hclaimed] at h3
          exact absurd h3.1 (by simp)
      · rw [← hnd (g.edgeEndpoints e).1] at h1
        rw [← hnd (g.edgeEndpoints e).2] at h2
        exact i10 n hxs e he h1 h2

/-- `StaticGraph::incident_edges` membership characterization. -/
theorem Graph.mem_incidentEdges {g : Graph} {n e : Nat} :
    e ∈ g.incidentEdges n ↔
      e < g.edgeCount ∧ ((g.edgeEndpoints e).1 = n ∨ (g.edgeEndpoints e).2 = n) := by
  simp [Graph.incidentEdges, Graph.edgeCount, List.mem_filter, List.mem_range]

theorem add_block_spec (g : Graph) {st st' : BuilderState} {component idx : Nat}
    {nodes : List Nat} (h : add_block g st component nodes = some (st', idx)) :
    idx = st.blocks.length ∧
    component < st.components.length ∧
    st'.components.length = st.components.length ∧
    (∀ c, c ≠ component → st'.compAt c = st.compAt c) ∧
    st'.compAt component =
      { st.compAt component with blocks := (st.compAt component).blocks ++ [idx] } ∧
    st'.blocks = st.blocks ++ [Block.mk component nodes [] [] []] ∧
    st'.cut_nodes = st.cut_nodes ∧ st'.spqr_nodes = st.spqr_nodes ∧
    st'.spqr_edges = st.spqr_edges ∧
    st'.node_data.length = st.node_data.length ∧
    st'.edge_data.length = st.edge_data.length ∧
    (∀ m, m ∉ nodes → st'.ndAt m = st.ndAt m) ∧
    (∀ m ∈ nodes, m < st.node_data.length ∧
      (st.ndAt m).component_index = some component ∧
      idx ∉ (st.ndAt m).block_indices ∧
      st'.ndAt m = { st.ndAt m with
        block_indices := (st.ndAt m).block_indices ++ [idx] }) ∧
    (∀ e, (st'.edAt e).block_index = (st.edAt e).block_index ∨
      ((st.edAt e).block_index = none ∧ (st'.edAt e).block_index = some idx ∧
        idx ∈ (st'.ndAt (g.edgeEndpoints e).1).block_indices ∧
        idx ∈ (st'.ndAt (g.edgeEndpoints e).2).block_indices)) ∧
    (∀ e, (st'.edAt e).spqr_node_index = (st.edAt e).spqr_node_index ∧
      (st'.edAt e).extra_data = (st.edAt e).extra_data ∧
      (st'.edAt e).component_index = (st.edAt e).component_index) ∧
    ((∀ m, idx ∉ (st.ndAt m).block_indices) →
      ∀ e, e < g.edgeCount →
      idx ∈ (st'.ndAt (g.edgeEndpoints e).1).block_indices →
      idx ∈ (st'.ndAt (g.edgeEndpoints e).2).block_indices →
      (st'.edAt e).block_index = some idx) := by
  rw [add_block, guard_bind_eq_some] at h
  obtain ⟨-, h⟩ := h
  rw [obind_eq_some] at h
  obtain ⟨comp, hcomp, h⟩ := h
  rw [obind_eq_some] at h
  obtain ⟨st2, hmem, h⟩ := h
  rw [obind_eq_some] at h
  obtain ⟨st3, hclaim, h⟩ := h
  rw [Option.some_inj] at h
  injection h with h1 h2
  subst h1
  subst h2
  obtain ⟨m1, m2, m3, m4, m5, m6, m7, m8, m9⟩ := addBlockMembership_spec hmem
  obtain ⟨c1, c2, c3, c4, c5, c6, c7, c8, c9, c10⟩ := claimBlockNodeEdges_spec hclaim
  have hcomplt : component < st.components.length := length_of_some hcomp
  have hcompAt : st.compAt component = comp := getD_of_some _ hcomp
  have hndAt1 : ∀ m, (setComponent st component
      { comp with blocks := comp.blocks ++ [st.blocks.length] }).ndAt m = st.ndAt m :=
    fun m => rfl
  have hedAt1 : ∀ e, (setComponent st component
      { comp with blocks := comp.blocks ++ [st.blocks.length] }).edAt e = st.edAt e :=
    fun e => rfl
  have hnd32 : ∀ m, st3.ndAt m = st2.ndAt m := by
    intro m
    unfold BuilderState.ndAt
    rw [c6]
  have hcomps : st3.components = (setComponent st component
      { comp with blocks := comp.blocks ++ [st.blocks.length] }).components := by
    rw [c1, m1]
  refine ⟨rfl, hcomplt, ?_, ?_, ?_, ?_, ?_, ?_, ?_, ?_, ?_, ?_, ?_, ?_, ?_, ?_⟩
  · rw [pushBlock_components, hcomps]
    simp [setComponent]
  · intro c hc
    unfold BuilderState.compAt
    rw [pushBlock_components, hcomps]
    simp only [setComponent]
    exact getD_set_ne _ _ (Ne.symm hc)
  · unfold BuilderState.compAt
    rw [pushBlock_components, hcomps]
    simp only [setComponent]
    have hcompAt2 : st.components.getD component
        { nodes := [], blocks := [], cut_nodes := [] } = comp := hcompAt
    rw [getD_set_self _ _ hcomplt, hcompAt2]
  · rw [pushBlock_blocks, c2, m2, setComponent_blocks]
  · rw [pushBlock_cut_nodes, c3, m3, setComponent_cut_nodes]
  · rw [pushBlock_spqr_nodes, c4, m4, setComponent_spqr_nodes]
  · rw [pushBlock_spqr_edges, c5, m5, setComponent_spqr_edges]
  · rw [pushBlock_node_data, c6, m6, setComponent_node_data]
  · rw [pushBlock_edge_data, c7]
    have : st2.edge_data = (setComponent st component
        { comp with blocks := comp.blocks ++ [st.blocks.length] }).edge_data := m7
    rw [this, setComponent_edge_data]
  · intro m hm
    rw [ndAt_pushBlock, hnd32, m8 m hm, hndAt1]
  · intro m hm
    obtain ⟨q1, q2, q3, q4⟩ := m9 m hm
    rw [hndAt1] at q2 q3 q4
    have hlen : (setComponent st component
        { comp with blocks := comp.blocks ++ [st.blocks.length] }).node_data.length =
        st.node_data.length := rfl
    refine ⟨by omega, q2, q3, ?_⟩
    rw [ndAt_pushBlock, hnd32, q4]
  · intro e
    rcases c8 e with h1 | h1
    · left
      rw [edAt_pushBlock, h1]
      have : st2.edAt e = st.edAt e := by
        unfold BuilderState.edAt
        rw [m7, setComponent_edge_data]
      rw [this]
    · obtain ⟨hn1, hs1, hmm1, hmm2⟩ := h1
      right
      have hed2 : ∀ e', st2.edAt e' = st.edAt e' := by
        intro e'
        unfold BuilderState.edAt
        rw [m7, setComponent_edge_data]
      refine ⟨by rw [← hed2 e]; exact hn1, by rw [edAt_pushBlock]; exact hs1, ?_, ?_⟩
      · rw [ndAt_pushBlock, hnd32]
        exact hmm1
      · rw [ndAt_pushBlock, hnd32]
        exact hmm2
  · intro e
    obtain ⟨q1, q2, q3⟩ := c9 e
    have hed2 : st2.edAt e = st.edAt e := by
      unfold BuilderState.edAt
      rw [m7, setComponent_edge_data]
    rw [hed2] at q1 q2 q3
    rw [edAt_pushBlock]
    exact ⟨q1, q2, q3⟩
  · intro hfresh e helt hm1 hm2
    rw [ndAt_pushBlock, hnd32] at hm1 hm2
    have ha : (g.edgeEndpoints e).1 ∈ nodes := by
      by_contra hno
      rw [m8 _ hno, hndAt1] at hm1
      exact hfresh _ hm1
    have hincident : e ∈ g.incidentEdges (g.edgeEndpoints e).1 :=
      Graph.mem_incidentEdges.mpr ⟨helt, Or.inl rfl⟩
    rw [edAt_pushBlock]
    exact c10 _ ha e hincident hm1 hm2

theorem add_extra_data_to_node_spec {st st' : BuilderState} {node : Nat} {xd : String}
    (h : add_extra_data_to_node st node xd = some st') :
    st'.components = st.components ∧ st'.blocks = st.blocks ∧
    st'.cut_nodes = st.cut_nodes ∧ st'.spqr_nodes = st.spqr_nodes ∧
    st'.spqr_edges = st.spqr_edges ∧
    st'.node_data.length = st.node_data.length ∧ st'.edge_data = st.edge_data ∧
    (∀ m, m ≠ node → st'.ndAt m = st.ndAt m) ∧
    st'.ndAt node = { st.ndAt node with extra_data := xd } ∧
    node < st.node_data.length := by
  rw [add_extra_data_to_node, obind_eq_some] at h
  obtain ⟨nd, he, h⟩ := h
  rw [guard_bind_eq_some] at h
  obtain ⟨-, h⟩ := h
  cases h
  have hlt : node < st.node_data.length := length_of_some he
  have hnd : st.ndAt node = nd := getD_of_some _ he
  refine ⟨rfl, rfl, rfl, rfl, rfl, by simp [setNodeData], rfl, ?_, ?_, hlt⟩
  · intro m hm
    exact ndAt_setNodeData_ne st _ (Ne.symm hm)
  · rw [ndAt_setNodeData_self st _ hlt, hnd]

theorem registerCutNodeBlocks_spec {cn : Nat} {st st' : BuilderState} {bs : List Nat}
    (h : registerCutNodeBlocks cn st bs = some st') :
    st'.components = st.components ∧ st'.cut_nodes = st.cut_nodes ∧
    st'.spqr_nodes = st.spqr_nodes ∧ st'.spqr_edges = st.spqr_edges ∧
    st'.node_data = st.node_data ∧ st'.edge_data = st.edge_data ∧
    st'.blocks.length = st.blocks.length ∧
    (∀ b, b ∉ bs → st'.blkAt b = st.blkAt b) ∧
    (∀ b, (st'.blkAt b).component = (st.blkAt b).component ∧
      (st'.blkAt b).nodes = (st.blkAt b).nodes ∧
      (st'.blkAt b).spqr_nodes = (st.blkAt b).spqr_nodes ∧
      (st'.blkAt b).spqr_edges = (st.blkAt b).spqr_edges ∧
      (∀ c ∈ (st.blkAt b).cut_nodes, c ∈ (st'.blkAt b).cut_nodes)) ∧
    (∀ b ∈ bs, b < st.blocks.length ∧ cn ∈ (st'.blkAt b).cut_nodes) := by
  induction bs generalizing st with
  | nil =>
    simp only [registerCutNodeBlocks] at h
    cases h
    exact ⟨rfl, rfl, rfl, rfl, rfl, rfl, rfl, fun b _ => rfl,
      fun b => ⟨rfl, rfl, rfl, rfl, fun c hc => hc⟩, by simp⟩
  | cons b0 rest ih =>
    rw [registerCutNodeBlocks, obind_eq_some] at h
    obtain ⟨blk, hb, h⟩ := h
    rw [guard_bind_eq_some] at h
    obtain ⟨-, h⟩ := h
    obtain ⟨i1, i2, i3, i4, i5, i6, i7, i8, i9, i10⟩ := ih h
    have hlt : b0 < st.blocks.length := length_of_some hb
    have hblk : st.blkAt b0 = blk := getD_of_some _ hb
    have hself : (setBlock st b0 { blk with cut_nodes := blk.cut_nodes ++ [cn] }).blkAt b0 =
        { blk with cut_nodes := blk.cut_nodes ++ [cn] } := blkAt_setBlock_self st _ hlt
    refine ⟨i1, i2, i3, i4, i5, i6, by rw [i7]; simp [setBlock], ?_, ?_, ?_⟩
    · intro b hbm
      have hb0 : b ≠ b0 := fun hc => hbm (hc ▸ List.mem_cons_self b0 rest)
      have hrest : b ∉ rest := fun hc => hbm (List.mem_cons_of_mem b0 hc)
      rw [i8 b hrest, blkAt_setBlock_ne st _ (Ne.symm hb0)]
    · intro b
      obtain ⟨q1, q2, q3, q4, q5⟩ := i9 b
      rcases eq_or_ne b b0 with rfl | hne
      · rw [hself] at q1 q2 q3 q4
        rw [hblk]
        refine ⟨q1, q2, q3, q4, ?_⟩
        intro c hc
        apply q5
        rw [hself]
        exact List.mem_append_left _ hc
      · rw [blkAt_setBlock_ne st _ (Ne.symm hne)] at q1 q2 q3 q4 q5
        exact ⟨q1, q2, q3, q4, q5⟩
    · intro b hbm
      rcases List.mem_cons.mp hbm with rfl | hrest
      · refine ⟨hlt, ?_⟩
        obtain ⟨-, -, -, -, q5⟩ := i9 b
        apply q5
        rw [hself]
        exact List.mem_append_right _ (List.mem_singleton.mpr rfl)
      · obtain ⟨q1, q2⟩ := i10 b hrest
        have : (setBlock st b0 { blk with cut_nodes := blk.cut_nodes ++ [cn]
          }).blocks.length = st.blocks.length := by simp [setBlock]
        exact ⟨by omega, q2⟩

theorem add_cut_node_spec {st st' : BuilderState} {cut_node idx : Nat} {blocks : List Nat}
    (h : add_cut_node st cut_node blocks = some (st', idx)) :
    idx = st.cut_nodes.length ∧
    cut_node < st.node_data.length ∧
    (st.ndAt cut_node).cut_node_index = none ∧
    st'.components.length = st.components.length ∧
    st'.blocks.length = st.blocks.length ∧
    st'.spqr_nodes = st.spqr_nodes ∧ st'.spqr_edges = st.spqr_edges ∧
    st'.node_data.length = st.node_data.length ∧
    st'.edge_data = st.edge_data ∧
    (∀ m, m ≠ cut_node → st'.ndAt m = st.ndAt m) ∧
    st'.ndAt cut_node = { st.ndAt cut_node with cut_node_index := some idx } ∧
    (∀ b, b ∉ blocks → st'.blkAt b = st.blkAt b) ∧
    (∀ b, (st'.blkAt b).component = (st.blkAt b).component ∧
      (st'.blkAt b).nodes = (st.blkAt b).nodes ∧
      (st'.blkAt b).spqr_nodes = (st.blkAt b).spqr_nodes ∧
      (st'.blkAt b).spqr_edges = (st.blkAt b).spqr_edges ∧
      (∀ c ∈ (st.blkAt b).cut_nodes, c ∈ (st'.blkAt b).cut_nodes)) ∧
    (∀ b ∈ blocks, b < st.blocks.length ∧ idx ∈ (st'.blkAt b).cut_nodes) ∧
    (∃ ci, (st.ndAt cut_node).component_index = some ci ∧ ci < st.components.length ∧
      st'.cut_nodes = st.cut_nodes ++ [CutNode.mk ci cut_node blocks] ∧
      (∀ c, c ≠ ci → st'.compAt c = st.compAt c) ∧
      st'.compAt ci = { st.compAt ci with
        cut_nodes := (st.compAt ci).cut_nodes ++ [idx] }) := by
  rw [add_cut_node, guard_bind_eq_some] at h
  obtain ⟨-, h⟩ := h
  rw [obind_eq_some] at h
  obtain ⟨nd, he, h⟩ := h
  rw [guard_bind_eq_some] at h
  obtain ⟨hnone, h⟩ := h
  rw [obind_eq_some] at h
  obtain ⟨ci, hci, h⟩ := h
  rw [obind_eq_some] at h
  obtain ⟨comp, hcomp, h⟩ := h
  rw [obind_eq_some] at h
  obtain ⟨st3, hreg, h⟩ := h
  rw [Option.some_inj] at h
  injection h with h1 h2
  subst h1
  subst h2
  obtain ⟨r1, r2, r3, r4, r5, r6, r7, r8, r9, r10⟩ := registerCutNodeBlocks_spec hreg
  have hnlt : cut_node < st.node_data.length := length_of_some he
  have hnd : st.ndAt cut_node = nd := getD_of_some _ he
  have hcilt : ci < st.components.length := length_of_some hcomp
  have hcompAt : st.components.getD ci { nodes := [], blocks := [], cut_nodes := [] } =
      comp := getD_of_some _ hcomp
  have hnd1 : ∀ m, st3.ndAt m = (setNodeData st cut_node
      { nd with cut_node_index := some st.cut_nodes.length }).ndAt m := by
    intro m
    unfold BuilderState.ndAt
    rw [r5, setComponent_node_data]
  have hblk2 : ∀ b, (setComponent (setNodeData st cut_node
      { nd with cut_node_index := some st.cut_nodes.length }) ci
      { comp with cut_nodes := comp.cut_nodes ++ [st.cut_nodes.length] }).blkAt b =
      st.blkAt b := fun b => rfl
  refine ⟨rfl, hnlt, by rw [hnd]; exact Option.isNone_iff_eq_none.mp hnone,
    ?_, ?_, ?_, ?_, ?_, ?_, ?_, ?_, ?_, ?_, ?_, ?_⟩
  · rw [pushCutNode_components, r1]
    simp [setComponent, setNodeData]
  · rw [pushCutNode_blocks]
    have : (setComponent (setNodeData st cut_node
        { nd with cut_node_index := some st.cut_nodes.length }) ci
        { comp with cut_nodes := comp.cut_nodes ++ [st.cut_nodes.length]
        }).blocks.length = st.blocks.length := rfl
    omega
  · rw [pushCutNode_spqr_nodes, r3, setComponent_spqr_nodes, setNodeData_spqr_nodes]
  · rw [pushCutNode_spqr_edges, r4, setComponent_spqr_edges, setNodeData_spqr_edges]
  · rw [pushCutNode_node_data, r5, setComponent_node_data]
    simp [setNodeData]
  · rw [pushCutNode_edge_data, r6, setComponent_edge_data, setNodeData_edge_data]
  · intro m hm
    rw [ndAt_pushCutNode, hnd1, ndAt_setNodeData_ne st _ (Ne.symm hm)]
  · rw [ndAt_pushCutNode, hnd1, ndAt_setNodeData_self st _ hnlt, hnd]
  · intro b hbm
    rw [blkAt_pushCutNode, r8 b hbm, hblk2]
  · intro b
    obtain ⟨q1, q2, q3, q4, q5⟩ := r9 b
    rw [hblk2] at q1 q2 q3 q4 q5
    rw [blkAt_pushCutNode]
    exact ⟨q1, q2, q3, q4, q5⟩
  · intro b hbm
    obtain ⟨q1, q2⟩ := r10 b hbm
    have : (setComponent (setNodeData st cut_node
        { nd with cut_node_index := some st.cut_nodes.length }) ci
        { comp with cut_nodes := comp.cut_nodes ++ [st.cut_nodes.length]
        }).blocks.length = st.blocks.length := rfl
    refine ⟨by omega, ?_⟩
    rw [blkAt_pushCutNode]
    exact q2
  · refine ⟨ci, by rw [hnd]; exact hci, hcilt, ?_, ?_, ?_⟩
    · rw [pushCutNode_cut_nodes, r2, setComponent_cut_nodes, setNodeData_cut_nodes]
    · intro c hc
      unfold BuilderState.compAt
      rw [pushCutNode_components, r1]
      simp only [setComponent, setNodeData]
      exact getD_set_ne _ _ (Ne.symm hc)
    · unfold BuilderState.compAt
      rw [pushCutNode_components, r1]
      simp only [setComponent, setNodeData]
      rw [getD_set_self _ _ (by simpa using hcilt), hcompAt]

theorem addSPQRNodeMembership_spec {component block idx : Nat} {st st' : BuilderState}
    {nodes : List Nat} (h : addSPQRNodeMembership component block idx st nodes = some st') :
    st'.components = st.components ∧ st'.blocks = st.blocks ∧
    st'.cut_nodes = st.cut_nodes ∧ st'.spqr_nodes = st.spqr_nodes ∧
    st'.spqr_edges = st.spqr_edges ∧
    st'.node_data.length = st.node_data.length ∧ st'.edge_data = st.edge_data ∧
    (∀ m, m ∉ nodes → st'.ndAt m = st.ndAt m) ∧
    (∀ m ∈ nodes, m < st.node_data.length ∧
      (st.ndAt m).component_index = some component ∧
      block ∈ (st.ndAt m).block_indices ∧
      idx ∉ (st.ndAt m).spqr_node_indices ∧
      st'.ndAt m = { st.ndAt m with
        spqr_node_indices := (st.ndAt m).spqr_node_indices ++ [idx] }) := by
  induction nodes generalizing st with
  | nil =>
    simp only [addSPQRNodeMembership] at h
    cases h
    exact ⟨rfl, rfl, rfl, rfl, rfl, rfl, rfl, fun m _ => rfl, by simp⟩
  | cons x xs ih =>
    rw [addSPQRNodeMembership, obind_eq_some] at h
    obtain ⟨nd, he, h⟩ := h
    rw [guard_bind_eq_some] at h
    obtain ⟨hcomp, h⟩ := h
    rw [guard_bind_eq_some] at h
    obtain ⟨hblk, h⟩ := h
    rw [guard_bind_eq_some] at h
    obtain ⟨hnotmem, h⟩ := h
    obtain ⟨i1, i2, i3, i4, i5, i6, i7, i8, i9⟩ := ih h
    have hxlt : x < st.node_data.length := length_of_some he
    have hndx : st.ndAt x = nd := getD_of_some _ he
    have hxnotin : x ∉ xs := by
      intro hmem
      have hni := (i9 x hmem).2.2.2.1
      rw [ndAt_setNodeData_self st _ hxlt] at hni
      simp at hni
    refine ⟨i1, i2, i3, i4, i5, by rw [i6]; simp [setNodeData], i7, ?_, ?_⟩
    · intro m hm
      have hmx : m ≠ x := fun hc => hm (hc ▸ List.mem_cons_self x xs)
      have hmxs : m ∉ xs := fun hc => hm (List.mem_cons_of_mem x hc)
      rw [i8 m hmxs, ndAt_setNodeData_ne st _ (Ne.symm hmx)]
    · intro m hm
      rcases List.mem_cons.mp hm with rfl | hmxs
      · refine ⟨hxlt, by rw [hndx]; exact hcomp, by rw [hndx]; exact hblk,
          by rw [hndx]; exact hnotmem, ?_⟩
        rw [i8 m hxnotin, ndAt_setNodeData_self st _ hxlt, hndx]
      · have hmx : m ≠ x := fun hc => hxnotin (hc ▸ hmxs)
        obtain ⟨q1, q2, q3, q4, q5⟩ := i9 m hmxs
        rw [ndAt_setNodeData_ne st _ (Ne.symm hmx)] at q2 q3 q4 q5
        refine ⟨?_, q2, q3, q4, q5⟩
        have : (setNodeData st x { nd with spqr_node_indices := nd.spqr_node_indices ++
          [idx] }).node_data.length = st.node_data.length := by simp [setNodeData]
        omega

theorem add_spqr_node_spec {st st' : BuilderState} {block idx : Nat} {nodes : List Nat}
    {t : SPQRNodeType} (h : add_spqr_node st block nodes t = some (st', idx)) :
    idx = st.spqr_nodes.length ∧
    2 ≤ nodes.length ∧
    block < st.blocks.length ∧
    st'.components = st.components ∧
    st'.cut_nodes = st.cut_nodes ∧
    st'.spqr_edges = st.spqr_edges ∧
    st'.node_data.length = st.node_data.length ∧
    st'.edge_data = st.edge_data ∧
    st'.spqr_nodes = st.spqr_nodes ++ [SPQRNode.mk block nodes [] t []] ∧
    st'.blocks.length = st.blocks.length ∧
    (∀ b, b ≠ block → st'.blkAt b = st.blkAt b) ∧
    st'.blkAt block = { st.blkAt block with
      spqr_nodes := (st.blkAt block).spqr_nodes ++ [idx] } ∧
    (∀ m, m ∉ nodes → st'.ndAt m = st.ndAt m) ∧
    (∀ m ∈ nodes, m < st.node_data.length ∧
      (st.ndAt m).component_index = some (st.blkAt block).component ∧
      block ∈ (st.ndAt m).block_indices ∧
      idx ∉ (st.ndAt m).spqr_node_indices ∧
      st'.ndAt m = { st.ndAt m with
        spqr_node_indices := (st.ndAt m).spqr_node_indices ++ [idx] }) := by
  rw [add_spqr_node, guard_bind_eq_some] at h
  obtain ⟨hlen, h⟩ := h
  rw [obind_eq_some] at h
  obtain ⟨blk, hblk, h⟩ := h
  rw [obind_eq_some] at h
  obtain ⟨st2, hmem, h⟩ := h
  rw [Option.some_inj] at h
  injection h with h1 h2
  subst h1
  subst h2
  obtain ⟨m1, m2, m3, m4, m5, m6, m7, m8, m9⟩ := addSPQRNodeMembership_spec hmem
  have hblt : block < st.blocks.length := length_of_some hblk
  have hblkAt : st.blkAt block = blk := getD_of_some _ hblk
  have hnd1 : ∀ m, (setBlock st block
      { blk with spqr_nodes := blk.spqr_nodes ++ [st.spqr_nodes.length] }).ndAt m =
      st.ndAt m := fun m => rfl
  have hself : (setBlock st block
      { blk with spqr_nodes := blk.spqr_nodes ++ [st.spqr_nodes.length] }).blkAt block =
      { blk with spqr_nodes := blk.spqr_nodes ++ [st.spqr_nodes.length] } :=
    blkAt_setBlock_self st _ hblt
  have hblk2 : ∀ b, st2.blkAt b = (setBlock st block
      { blk with spqr_nodes := blk.spqr_nodes ++ [st.spqr_nodes.length] }).blkAt b := by
    intro b
    unfold BuilderState.blkAt
    rw [m2]
  refine ⟨rfl, hlen, hblt, ?_, ?_, ?_, ?_, ?_, ?_, ?_, ?_, ?_, ?_, ?_⟩
  · rw [pushSPQRNode_components, m1, setBlock_components]
  · rw [pushSPQRNode_cut_nodes, m3, setBlock_cut_nodes]
  · rw [pushSPQRNode_spqr_edges, m5, setBlock_spqr_edges]
  · rw [pushSPQRNode_node_data]
    have : (setBlock st block { blk with spqr_nodes := blk.spqr_nodes ++
      [st.spqr_nodes.length] }).node_data.length = st.node_data.length := rfl
    omega
  · rw [pushSPQRNode_edge_data, m7, setBlock_edge_data]
  · rw [pushSPQRNode_spqr_nodes, m4, setBlock_spqr_nodes]
  · rw [pushSPQRNode_blocks]
    have : st2.blocks.length = (setBlock st block { blk with spqr_nodes :=
      blk.spqr_nodes ++ [st.spqr_nodes.length] }).blocks.length := by rw [m2]
    have h2 : (setBlock st block { blk with spqr_nodes := blk.spqr_nodes ++
      [st.spqr_nodes.length] }).blocks.length = st.blocks.length := by simp [setBlock]
    omega
  · intro b hb
    rw [blkAt_pushSPQRNode, hblk2, blkAt_setBlock_ne st _ (Ne.symm hb)]
  · rw [blkAt_pushSPQRNode, hblk2, hself, hblkAt]
  · intro m hm
    rw [ndAt_pushSPQRNode, m8 m hm, hnd1]
  · intro m hm
    obtain ⟨q1, q2, q3, q4, q5⟩ := m9 m hm
    rw [hnd1] at q2 q3 q4 q5
    have hl : (setBlock st block { blk with spqr_nodes := blk.spqr_nodes ++
      [st.spqr_nodes.length] }).node_data.length = st.node_data.length := rfl
    refine ⟨by omega, by rw [hblkAt]; exact q2, q3, q4, ?_⟩
    rw [ndAt_pushSPQRNode, q5]

theorem add_edge_to_spqr_node_spec (g : Graph) {st st' : BuilderState}
    {edge spqr_node : Nat} (h : add_edge_to_spqr_node g st edge spqr_node = some st') :
    edge < st.edge_data.length ∧
    spqr_node < st.spqr_nodes.length ∧
    spqr_node ∈ (st.ndAt (g.edgeEndpoints edge).1).spqr_node_indices ∧
    spqr_node ∈ (st.ndAt (g.edgeEndpoints edge).2).spqr_node_indices ∧
    (st.edAt edge).spqr_node_index = none ∧
    st'.components = st.components ∧ st'.blocks = st.blocks ∧
    st'.cut_nodes = st.cut_nodes ∧ st'.spqr_edges = st.spqr_edges ∧
    st'.node_data = st.node_data ∧
    st'.edge_data.length = st.edge_data.length ∧
    st'.spqr_nodes.length = st.spqr_nodes.length ∧
    (∀ e, e ≠ edge → st'.edAt e = st.edAt e) ∧
    st'.edAt edge = { st.edAt edge with spqr_node_index := some spqr_node } ∧
    (∀ s, s ≠ spqr_node → st'.snAt s = st.snAt s) ∧
    st'.snAt spqr_node = { st.snAt spqr_node with
      edges := (st.snAt spqr_node).edges ++ [edge] } := by
  rw [add_edge_to_spqr_node, obind_eq_some] at h
  obtain ⟨ed, he, h⟩ := h
  rw [guard_bind_eq_some] at h
  obtain ⟨hnone, h⟩ := h
  rw [obind_eq_some] at h
  obtain ⟨nda, hea, h⟩ := h
  rw [guard_bind_eq_some] at h
  obtain ⟨hma, h⟩ := h
  rw [obind_eq_some] at h
  obtain ⟨ndb, heb, h⟩ := h
  rw [guard_bind_eq_some] at h
  obtain ⟨hmb, h⟩ := h
  rw [obind_eq_some] at h
  obtain ⟨sn, hsn, h⟩ := h
  cases h
  have helt : edge < st.edge_data.length := length_of_some he
  have hed : st.edAt edge = ed := getD_of_some _ he
  have hnda : st.ndAt (g.edgeEndpoints edge).1 = nda := getD_of_some _ hea
  have hndb : st.ndAt (g.edgeEndpoints edge).2 = ndb := getD_of_some _ heb
  have hslt : spqr_node < st.spqr_nodes.length := by
    have := length_of_some hsn
    simpa [setEdgeData] using this
  have hsnAt : st.snAt spqr_node = sn := by
    have : (setEdgeData st edge { ed with spqr_node_index := some spqr_node
      }).snAt spqr_node = sn := getD_of_some _ hsn
    rw [← this, snAt_setEdgeData]
  refine ⟨helt, hslt, by rw [hnda]; exact hma, by rw [hndb]; exact hmb,
    by rw [hed]; exact Option.isNone_iff_eq_none.mp hnone,
    rfl, rfl, rfl, rfl, rfl, by simp [setSPQRNode, setEdgeData], ?_, ?_, ?_, ?_, ?_⟩
  · simp [setSPQRNode, setEdgeData]
  · intro e hne
    rw [edAt_setSPQRNode, edAt_setEdgeData_ne st _ (Ne.symm hne)]
  · rw [edAt_setSPQRNode, edAt_setEdgeData_self st _ helt, hed]
  · intro s hne
    rw [snAt_setSPQRNode_ne _ _ (Ne.symm hne), snAt_setEdgeData]
  · rw [snAt_setSPQRNode_self]
    · rw [hsnAt]
    · simpa [setEdgeData] using hslt

theorem add_spqr_edge_registration_spec {st st' : BuilderState} {index idx2 : Nat}
    {endpoints virtual_edge : Nat × Nat}
    (h : add_spqr_edge_registration st index endpoints virtual_edge = some (st', idx2)) :
    idx2 = index ∧
    virtual_edge.1 < st.node_data.length ∧ virtual_edge.2 < st.node_data.length ∧
    endpoints.1 < st.spqr_nodes.length ∧ endpoints.2 < st.spqr_nodes.length ∧
    endpoints.1 ∈ (st.ndAt virtual_edge.1).spqr_node_indices ∧
    endpoints.2 ∈ (st.ndAt virtual_edge.1).spqr_node_indices ∧
    endpoints.1 ∈ (st.ndAt virtual_edge.2).spqr_node_indices ∧
    endpoints.2 ∈ (st.ndAt virtual_edge.2).spqr_node_indices ∧
    st'.components = st.components ∧ st'.blocks = st.blocks ∧
    st'.cut_nodes = st.cut_nodes ∧
    st'.node_data = st.node_data ∧ st'.edge_data = st.edge_data ∧
    st'.spqr_edges = st.spqr_edges ++ [SPQREdge.mk endpoints virtual_edge] ∧
    st'.spqr_nodes.length = st.spqr_nodes.length ∧
    (∀ s, (st'.snAt s).block = (st.snAt s).block ∧
      (st'.snAt s).nodes = (st.snAt s).nodes ∧
      (st'.snAt s).edges = (st.snAt s).edges ∧
      (st'.snAt s).spqr_node_type = (st.snAt s).spqr_node_type) := by
  rw [add_spqr_edge_registration, obind_eq_some] at h
  obtain ⟨nda, hea, h⟩ := h
  rw [guard_bind_eq_some] at h
  obtain ⟨hm1, h⟩ := h
  rw [guard_bind_eq_some] at h
  obtain ⟨hm2, h⟩ := h
  rw [obind_eq_some] at h
  obtain ⟨ndb, heb, h⟩ := h
  rw [guard_bind_eq_some] at h
  obtain ⟨hm3, h⟩ := h
  rw [guard_bind_eq_some] at h
  obtain ⟨hm4, h⟩ := h
  rw [obind_eq_some] at h
  obtain ⟨su, hsu, h⟩ := h
  rw [guard_bind_eq_some] at h
  obtain ⟨-, h⟩ := h
  rw [obind_eq_some] at h
  obtain ⟨sv, hsv, h⟩ := h
  rw [guard_bind_eq_some] at h
  obtain ⟨-, h⟩ := h
  rw [obind_eq_some] at h
  obtain ⟨sv2, hsv2, h⟩ := h
  rw [Option.some_inj] at h
  injection h with h1 h2
  subst h1
  subst h2
  have hnda : st.ndAt virtual_edge.1 = nda := getD_of_some _ hea
  have hndb : st.ndAt virtual_edge.2 = ndb := getD_of_some _ heb
  have hult : endpoints.1 < st.spqr_nodes.length := length_of_some hsu
  have hvlt : endpoints.2 < st.spqr_nodes.length := length_of_some hsv
  have hsnpre : ∀ s, ((setSPQRNode (setSPQRNode st endpoints.1
      { su with spqr_edges := su.spqr_edges ++ [index] }) endpoints.2
      { sv2 with spqr_edges := sv2.spqr_edges ++ [index] }).snAt s).block =
      (st.snAt s).block ∧
      ((setSPQRNode (setSPQRNode st endpoints.1
      { su with spqr_edges := su.spqr_edges ++ [index] }) endpoints.2
      { sv2 with spqr_edges := sv2.spqr_edges ++ [index] }).snAt s).nodes =
      (st.snAt s).nodes ∧
      ((setSPQRNode (setSPQRNode st endpoints.1
      { su with spqr_edges := su.spqr_edges ++ [index] }) endpoints.2
      { sv2 with spqr_edges := sv2.spqr_edges ++ [index] }).snAt s).edges =
      (st.snAt s).edges ∧
      ((setSPQRNode (setSPQRNode st endpoints.1
      { su with spqr_edges := su.spqr_edges ++ [index] }) endpoints.2
      { sv2 with spqr_edges := sv2.spqr_edges ++ [index] }).snAt s).spqr_node_type =
      (st.snAt s).spqr_node_type := by
    intro s
    have hsu2 : st.snAt endpoints.1 = su := getD_of_some _ hsu
    have hsv22 : (setSPQRNode st endpoints.1 { su with spqr_edges :=
        su.spqr_edges ++ [index] }).snAt endpoints.2 = sv2 := getD_of_some _ hsv2
    have hlt2 : endpoints.2 < (setSPQRNode st endpoints.1
        { su with spqr_edges := su.spqr_edges ++ [index] }).spqr_nodes.length := by
      simpa [setSPQRNode] using hvlt
    have hinner : ∀ k, (((setSPQRNode st endpoints.1 { su with spqr_edges :=
        su.spqr_edges ++ [index] }).snAt k).block = (st.snAt k).block ∧
        ((setSPQRNode st endpoints.1 { su with spqr_edges :=
        su.spqr_edges ++ [index] }).snAt k).nodes = (st.snAt k).nodes ∧
        ((setSPQRNode st endpoints.1 { su with spqr_edges :=
        su.spqr_edges ++ [index] }).snAt k).edges = (st.snAt k).edges ∧
        ((setSPQRNode st endpoints.1 { su with spqr_edges :=
        su.spqr_edges ++ [index] }).snAt k).spqr_node_type =
        (st.snAt k).spqr_node_type) := by
      intro k
      rcases eq_or_ne k endpoints.1 with rfl | hne
      · rw [snAt_setSPQRNode_self _ _ hult, hsu2]
        exact ⟨rfl, rfl, rfl, rfl⟩
      · rw [snAt_setSPQRNode_ne _ _ (Ne.symm hne)]
        exact ⟨rfl, rfl, rfl, rfl⟩
    rcases eq_or_ne s endpoints.2 with rfl | hne2
    · rw [snAt_setSPQRNode_self _ _ hlt2, ← hsv22]
      exact hinner endpoints.2
    · rw [snAt_setSPQRNode_ne _ _ (Ne.symm hne2)]
      exact hinner s
  refine ⟨rfl, length_of_some hea, length_of_some heb, hult, hvlt,
    by rw [hnda]; exact hm1, by rw [hnda]; exact hm2,
    by rw [hndb]; exact hm3, by rw [hndb]; exact hm4,
    rfl, rfl, rfl, rfl, rfl, rfl, ?_, ?_⟩
  · simp [setSPQRNode]
  · intro s
    obtain ⟨q1, q2, q3, q4⟩ := hsnpre s
    have hA : ∀ k, (pushSPQREdge (setSPQRNode (setSPQRNode st endpoints.1
        { su with spqr_edges := su.spqr_edges ++ [index] }) endpoints.2
        { sv2 with spqr_edges := sv2.spqr_edges ++ [index] })
        (SPQREdge.mk endpoints virtual_edge)).snAt k =
        (setSPQRNode (setSPQRNode st endpoints.1
        { su with spqr_edges := su.spqr_edges ++ [index] }) endpoints.2
        { sv2 with spqr_edges := sv2.spqr_edges ++ [index] }).snAt k :=
      fun k => snAt_pushSPQREdge _ _ k
    rw [hA s]
    exact ⟨q1, q2, q3, q4⟩

theorem add_spqr_edge_spec {st st' : BuilderState} {blockArg : Option Nat} {idx : Nat}
    {endpoints virtual_edge : Nat × Nat}
    (h : add_spqr_edge st blockArg endpoints virtual_edge = some (st', idx)) :
    idx = st.spqr_edges.length ∧
    virtual_edge.1 < st.node_data.length ∧ virtual_edge.2 < st.node_data.length ∧
    endpoints.1 < st.spqr_nodes.length ∧ endpoints.2 < st.spqr_nodes.length ∧
    endpoints.1 ∈ (st.ndAt virtual_edge.1).spqr_node_indices ∧
    endpoints.2 ∈ (st.ndAt virtual_edge.1).spqr_node_indices ∧
    endpoints.1 ∈ (st.ndAt virtual_edge.2).spqr_node_indices ∧
    endpoints.2 ∈ (st.ndAt virtual_edge.2).spqr_node_indices ∧
    (st.snAt endpoints.1).block = (st.snAt endpoints.2).block ∧
    st'.components = st.components ∧ st'.cut_nodes = st.cut_nodes ∧
    st'.node_data = st.node_data ∧ st'.edge_data = st.edge_data ∧
    st'.spqr_edges = st.spqr_edges ++ [SPQREdge.mk endpoints virtual_edge] ∧
    st'.spqr_nodes.length = st.spqr_nodes.length ∧
    st'.blocks.length = st.blocks.length ∧
    (∀ b, (st'.blkAt b).component = (st.blkAt b).component ∧
      (st'.blkAt b).nodes = (st.blkAt b).nodes ∧
      (st'.blkAt b).cut_nodes = (st.blkAt b).cut_nodes ∧
      (st'.blkAt b).spqr_nodes = (st.blkAt b).spqr_nodes) ∧
    (∀ s, (st'.snAt s).block = (st.snAt s).block ∧
      (st'.snAt s).nodes = (st.snAt s).nodes ∧
      (st'.snAt s).edges = (st.snAt s).edges ∧
      (st'.snAt s).spqr_node_type = (st.snAt s).spqr_node_type) := by
  suffices H : ∀ block, (st.spqr_nodes[endpoints.1]? >>= fun su =>
      guard (su.block = block) >>= fun _ =>
      st.spqr_nodes[endpoints.2]? >>= fun sv =>
      guard (sv.block = block) >>= fun _ =>
      st.blocks[block]? >>= fun blk =>
      add_spqr_edge_registration
        (setBlock st block { blk with spqr_edges := blk.spqr_edges ++
          [st.spqr_edges.length] })
        st.spqr_edges.length endpoints virtual_edge) = some (st', idx) →
      (idx = st.spqr_edges.length ∧
      virtual_edge.1 < st.node_data.length ∧ virtual_edge.2 < st.node_data.length ∧
      endpoints.1 < st.spqr_nodes.length ∧ endpoints.2 < st.spqr_nodes.length ∧
      endpoints.1 ∈ (st.ndAt virtual_edge.1).spqr_node_indices ∧
      endpoints.2 ∈ (st.ndAt virtual_edge.1).spqr_node_indices ∧
      endpoints.1 ∈ (st.ndAt virtual_edge.2).spqr_node_indices ∧
      endpoints.2 ∈ (st.ndAt virtual_edge.2).spqr_node_indices ∧
      (st.snAt endpoints.1).block = (st.snAt endpoints.2).block ∧
      st'.components = st.components ∧ st'.cut_nodes = st.cut_nodes ∧
      st'.node_data = st.node_data ∧ st'.edge_data = st.edge_data ∧
      st'.spqr_edges = st.spqr_edges ++ [SPQREdge.mk endpoints virtual_edge] ∧
      st'.spqr_nodes.length = st.spqr_nodes.length ∧
      st'.blocks.length = st.blocks.length ∧
      (∀ b, (st'.blkAt b).component = (st.blkAt b).component ∧
        (st'.blkAt b).nodes = (st.blkAt b).nodes ∧
        (st'.blkAt b).cut_nodes = (st.blkAt b).cut_nodes ∧
        (st'.blkAt b).spqr_nodes = (st.blkAt b).spqr_nodes) ∧
      (∀ s, (st'.snAt s).block = (st.snAt s).block ∧
        (st'.snAt s).nodes = (st.snAt s).nodes ∧
        (st'.snAt s).edges = (st.snAt s).edges ∧
        (st'.snAt s).spqr_node_type = (st.snAt s).spqr_node_type)) by
    rcases blockArg with - | b
    · rw [add_spqr_edge.eq_def] at h
      dsimp only at h
      rw [obind_eq_some] at h
      obtain ⟨su0, hsu0, h⟩ := h
      rw [obind_eq_some] at h
      obtain ⟨sv0, hsv0, h⟩ := h
      rw [guard_bind_eq_some] at h
      obtain ⟨-, h⟩ := h
      rw [obind_eq_some] at h
      obtain ⟨y, hy, h⟩ := h
      rw [Option.some_inj] at hy
      subst hy
      exact H _ h
    · rw [add_spqr_edge.eq_def] at h
      dsimp only at h
      rw [obind_eq_some] at h
      obtain ⟨y, hy, h⟩ := h
      rw [Option.some_inj] at hy
      subst hy
      exact H _ h
  intro block h
  rw [obind_eq_some] at h
  obtain ⟨su, hsu, h⟩ := h
  rw [guard_bind_eq_some] at h
  obtain ⟨hsub, h⟩ := h
  rw [obind_eq_some] at h
  obtain ⟨sv, hsv, h⟩ := h
  rw [guard_bind_eq_some] at h
  obtain ⟨hsvb, h⟩ := h
  rw [obind_eq_some] at h
  obtain ⟨blk, hblk, h⟩ := h
  obtain ⟨r1, r2, r3, r4, r5, r6, r7, r8, r9, r10, r11, r12, r13, r14, r15, r16, r17⟩ :=
    add_spqr_edge_registration_spec h
  have hsuAt : st.snAt endpoints.1 = su := getD_of_some _ hsu
  have hsvAt : st.snAt endpoints.2 = sv := getD_of_some _ hsv
  have hblt : block < st.blocks.length := length_of_some hblk
  have hblkAt : st.blkAt block = blk := getD_of_some _ hblk
  have hnd1 : ∀ m, (setBlock st block
      { blk with spqr_edges := blk.spqr_edges ++ [st.spqr_edges.length] }).ndAt m =
      st.ndAt m := fun m => rfl
  have hsn1 : ∀ s, (setBlock st block
      { blk with spqr_edges := blk.spqr_edges ++ [st.spqr_edges.length] }).snAt s =
      st.snAt s := fun s => rfl
  refine ⟨r1, by simpa [setBlock] using r2, by simpa [setBlock] using r3,
    by simpa [setBlock] using r4, by simpa [setBlock] using r5,
    by rw [← hnd1]; exact r6, by rw [← hnd1]; exact r7,
    by rw [← hnd1]; exact r8, by rw [← hnd1]; exact r9,
    by rw [hsuAt, hsvAt, hsub, hsvb],
    by rw [r10, setBlock_components], by rw [r12, setBlock_cut_nodes],
    by rw [r13, setBlock_node_data], by rw [r14, setBlock_edge_data],
    by rw [r15, setBlock_spqr_edges], by rw [r16]; simp [setBlock],
    ?_, ?_, ?_⟩
  · rw [r11]
    simp [setBlock]
  · intro b
    have hb1 : st'.blkAt b = (setBlock st block
        { blk with spqr_edges := blk.spqr_edges ++ [st.spqr_edges.length] }).blkAt b := by
      unfold BuilderState.blkAt
      rw [r11]
    rw [hb1]
    rcases eq_or_ne b block with rfl | hne
    · rw [blkAt_setBlock_self st _ hblt, hblkAt]
      exact ⟨rfl, rfl, rfl, rfl⟩
    · rw [blkAt_setBlock_ne st _ (Ne.symm hne)]
      exact ⟨rfl, rfl, rfl, rfl⟩
  · intro s
    obtain ⟨q1, q2, q3, q4⟩ := r17 s
    rw [hsn1] at q1 q2 q3 q4
    exact ⟨q1, q2, q3, q4⟩

/-- Wiring invariant of cut-node records: each record points back to a node
that references it, lies in a registered component, and is registered in every
adjacent block. -/
def CutReg (st : BuilderState) : Prop :=
  ∀ c, c < st.cut_nodes.length →
    ((st.cnAt c).node < st.node_data.length ∧
    (st.ndAt (st.cnAt c).node).cut_node_index = some c ∧
    (st.ndAt (st.cnAt c).node).component_index = some (st.cnAt c).component ∧
    (st.cnAt c).component < st.components.length ∧
    c ∈ (st.compAt (st.cnAt c).component).cut_nodes ∧
    ∀ b ∈ (st.cnAt c).adjacent_blocks, b < st.blocks.length ∧
      c ∈ (st.blkAt b).cut_nodes)

theorem inferCutNode_spec {st st' : BuilderState} {n : Nat}
    (h : inferCutNode st n = some st') :
    n < st.node_data.length ∧
    st'.spqr_nodes = st.spqr_nodes ∧ st'.spqr_edges = st.spqr_edges ∧
    st'.edge_data = st.edge_data ∧
    st'.node_data.length = st.node_data.length ∧
    st'.components.length = st.components.length ∧
    st'.blocks.length = st.blocks.length ∧
    (∀ m, m ≠ n → st'.ndAt m = st.ndAt m) ∧
    ((st'.ndAt n).block_indices = (st.ndAt n).block_indices ∧
      (st'.ndAt n).component_index = (st.ndAt n).component_index ∧
      (st'.ndAt n).spqr_node_indices = (st.ndAt n).spqr_node_indices ∧
      (st'.ndAt n).extra_data = (st.ndAt n).extra_data) ∧
    (∀ c, (st'.compAt c).nodes = (st.compAt c).nodes ∧
      (st'.compAt c).blocks = (st.compAt c).blocks ∧
      (∀ i2 ∈ (st.compAt c).cut_nodes, i2 ∈ (st'.compAt c).cut_nodes)) ∧
    (∀ b, (st'.blkAt b).component = (st.blkAt b).component ∧
      (st'.blkAt b).nodes = (st.blkAt b).nodes ∧
      (st'.blkAt b).spqr_nodes = (st.blkAt b).spqr_nodes ∧
      (st'.blkAt b).spqr_edges = (st.blkAt b).spqr_edges ∧
      (∀ i2 ∈ (st.blkAt b).cut_nodes, i2 ∈ (st'.blkAt b).cut_nodes)) ∧
    (((st'.ndAt n).cut_node_index = (st.ndAt n).cut_node_index ∧
        st'.cut_nodes = st.cut_nodes) ∨
      ((st.ndAt n).cut_node_index = none ∧ 2 ≤ (st.ndAt n).block_indices.length ∧
        (st'.ndAt n).cut_node_index = some st.cut_nodes.length ∧
        (∃ ci, (st.ndAt n).component_index = some ci ∧ ci < st.components.length ∧
          st'.cut_nodes = st.cut_nodes ++
            [CutNode.mk ci n (st.ndAt n).block_indices] ∧
          st.cut_nodes.length ∈ (st'.compAt ci).cut_nodes ∧
          ∀ b ∈ (st.ndAt n).block_indices, b < st.blocks.length ∧
            st.cut_nodes.length ∈ (st'.blkAt b).cut_nodes))) ∧
    (2 ≤ (st.ndAt n).block_indices.length → (st'.ndAt n).cut_node_index.isSome) := by
  rw [inferCutNode, obind_eq_some] at h
  obtain ⟨nd, he, h⟩ := h
  have hnlt : n < st.node_data.length := length_of_some he
  have hnd : st.ndAt n = nd := getD_of_some _ he
  split at h
  · rename_i hsome
    cases h
    refine ⟨hnlt, rfl, rfl, rfl, rfl, rfl, rfl, fun m _ => rfl, ⟨rfl, rfl, rfl, rfl⟩,
      fun c => ⟨rfl, rfl, fun i2 hi => hi⟩,
      fun b => ⟨rfl, rfl, rfl, rfl, fun i2 hi => hi⟩,
      Or.inl ⟨rfl, rfl⟩, fun _ => ?_⟩
    rw [hnd]
    exact hsome
  · rename_i hnotsome
    split at h
    · rename_i htwo
      rw [obind_eq_some] at h
      obtain ⟨ci, hci, h⟩ := h
      rw [obind_eq_some] at h
      obtain ⟨comp, hcomp, h⟩ := h
      rw [obind_eq_some] at h
      obtain ⟨st2, hreg, h⟩ := h
      rw [obind_eq_some] at h
      obtain ⟨nd2, hnd2, h⟩ := h
      rw [guard_bind_eq_some] at h
      obtain ⟨hnone2, h⟩ := h
      cases h
      obtain ⟨r1, r2, r3, r4, r5, r6, r7, r8, r9, r10⟩ := registerCutNodeBlocks_spec hreg
      have hcilt : ci < st.components.length := length_of_some hcomp
      have hcompAt : st.components.getD ci { nodes := [], blocks := [], cut_nodes := [] } =
          comp := getD_of_some _ hcomp
      have hnd2eq : nd2 = nd := by
        have h1 : st2.node_data = st.node_data := by
          rw [r5, setComponent_node_data]
        rw [h1] at hnd2
        rw [he] at hnd2
        exact (Option.some_inj.mp hnd2).symm
      subst hnd2eq
      have hndAt2 : ∀ m, st2.ndAt m = st.ndAt m := by
        intro m
        unfold BuilderState.ndAt
        rw [r5, setComponent_node_data]
      have hblkAt1 : ∀ b, (setComponent st ci
          { comp with cut_nodes := comp.cut_nodes ++ [st.cut_nodes.length] }).blkAt b =
          st.blkAt b := fun b => rfl
      refine ⟨hnlt, ?_, ?_, ?_, ?_, ?_, ?_, ?_, ?_, ?_, ?_, ?_, ?_⟩
      · rw [pushCutNode_spqr_nodes, setNodeData_spqr_nodes, r3, setComponent_spqr_nodes]
      · rw [pushCutNode_spqr_edges, setNodeData_spqr_edges, r4, setComponent_spqr_edges]
      · rw [pushCutNode_edge_data, setNodeData_edge_data, r6, setComponent_edge_data]
      · rw [pushCutNode_node_data]
        have h1 : st2.node_data.length = st.node_data.length := by
          rw [r5, setComponent_node_data]
        simp [setNodeData]
        omega
      · rw [pushCutNode_components, setNodeData_components, r1]
        simp [setComponent]
      · rw [pushCutNode_blocks, setNodeData_blocks]
        have h1 : (setComponent st ci { comp with cut_nodes := comp.cut_nodes ++
          [st.cut_nodes.length] }).blocks.length = st.blocks.length := rfl
        omega
      · intro m hm
        rw [ndAt_pushCutNode, ndAt_setNodeData_ne _ _ (Ne.symm hm), hndAt2]
      · have h1 : n < st2.node_data.length := by
          have h2 : st2.node_data.length = st.node_data.length := by
            rw [r5, setComponent_node_data]
          omega
        rw [ndAt_pushCutNode, ndAt_setNodeData_self _ _ h1, hnd]
        exact ⟨rfl, rfl, rfl, rfl⟩
      · intro c
        have hc : ∀ k, (pushCutNode (setNodeData st2 n
            { nd2 with cut_node_index := some st.cut_nodes.length })
            (CutNode.mk ci n nd2.block_indices)).compAt k =
            (setComponent st ci { comp with cut_nodes :=
              comp.cut_nodes ++ [st.cut_nodes.length] }).compAt k := by
          intro k
          unfold BuilderState.compAt
          rw [pushCutNode_components, setNodeData_components, r1]
        rw [hc]
        rcases eq_or_ne c ci with rfl | hne
        · rw [compAt_setComponent_self st _ hcilt]
          have hcomp2 : st.compAt c = comp := hcompAt
          rw [hcomp2]
          exact ⟨rfl, rfl, fun i2 hi => List.mem_append_left _ hi⟩
        · rw [compAt_setComponent_ne st _ (Ne.symm hne)]
          exact ⟨rfl, rfl, fun i2 hi => hi⟩
      · intro b
        have hb : ∀ k, (pushCutNode (setNodeData st2 n
            { nd2 with cut_node_index := some st.cut_nodes.length })
            (CutNode.mk ci n nd2.block_indices)).blkAt k = st2.blkAt k := by
          intro k
          unfold BuilderState.blkAt
          rw [pushCutNode_blocks, setNodeData_blocks]
        rw [hb]
        obtain ⟨q1, q2, q3, q4, q5⟩ := r9 b
        rw [hblkAt1] at q1 q2 q3 q4 q5
        exact ⟨q1, q2, q3, q4, q5⟩
      · right
        have h1n : n < st2.node_data.length := by
          have h2 : st2.node_data.length = st.node_data.length := by
            rw [r5, setComponent_node_data]
          omega
        have hndn : (st.ndAt n).cut_node_index = none := by
          rw [hnd]
          simpa using hnotsome
        refine ⟨hndn, by rw [hnd]; exact htwo, ?_, ci, by rw [hnd]; exact hci,
          hcilt, ?_, ?_, ?_⟩
        · rw [ndAt_pushCutNode, ndAt_setNodeData_self _ _ h1n]
        · rw [hnd, pushCutNode_cut_nodes, setNodeData_cut_nodes, r2,
            setComponent_cut_nodes]
        · have hc : ∀ k, (pushCutNode (setNodeData st2 n
              { nd2 with cut_node_index := some st.cut_nodes.length })
              (CutNode.mk ci n nd2.block_indices)).compAt k =
              (setComponent st ci { comp with cut_nodes :=
                comp.cut_nodes ++ [st.cut_nodes.length] }).compAt k := by
            intro k
            unfold BuilderState.compAt
            rw [pushCutNode_components, setNodeData_components, r1]
          rw [hc, compAt_setComponent_self st _ hcilt]
          exact List.mem_append_right _ (List.mem_singleton.mpr rfl)
        · intro b hbm
          rw [hnd] at hbm
          obtain ⟨q1, q2⟩ := r10 b hbm
          have hb : ∀ k, (pushCutNode (setNodeData st2 n
              { nd2 with cut_node_index := some st.cut_nodes.length })
              (CutNode.mk ci n nd2.block_indices)).blkAt k = st2.blkAt k := by
            intro k
            unfold BuilderState.blkAt
            rw [pushCutNode_blocks, setNodeData_blocks]
          refine ⟨q1, ?_⟩
          rw [hb]
          exact q2
      · intro htwo2
        have h1n : n < st2.node_data.length := by
          have h2 : st2.node_data.length = st.node_data.length := by
            rw [r5, setComponent_node_data]
          omega
        rw [ndAt_pushCutNode, ndAt_setNodeData_self _ _ h1n]
        rfl
    · cases h
      refine ⟨hnlt, rfl, rfl, rfl, rfl, rfl, rfl, fun m _ => rfl, ⟨rfl, rfl, rfl, rfl⟩,
        fun c => ⟨rfl, rfl, fun i2 hi => hi⟩,
        fun b => ⟨rfl, rfl, rfl, rfl, fun i2 hi => hi⟩,
        Or.inl ⟨rfl, rfl⟩, fun htwo => ?_⟩
      rename_i hnottwo
      rw [hnd] at htwo
      exact absurd htwo hnottwo

theorem inferCutNodes_spec {st st' : BuilderState} {ns : List Nat}
    (h : inferCutNodes st ns = some st') :
    st'.spqr_nodes = st.spqr_nodes ∧ st'.spqr_edges = st.spqr_edges ∧
    st'.edge_data = st.edge_data ∧
    st'.node_data.length = st.node_data.length ∧
    st'.components.length = st.components.length ∧
    st'.blocks.length = st.blocks.length ∧
    (∀ m, (st'.ndAt m).block_indices = (st.ndAt m).block_indices ∧
      (st'.ndAt m).component_index = (st.ndAt m).component_index ∧
      (st'.ndAt m).spqr_node_indices = (st.ndAt m).spqr_node_indices ∧
      (st'.ndAt m).extra_data = (st.ndAt m).extra_data ∧
      (∀ c, (st.ndAt m).cut_node_index = some c →
        (st'.ndAt m).cut_node_index = some c)) ∧
    (∀ c, (st'.compAt c).nodes = (st.compAt c).nodes ∧
      (st'.compAt c).blocks = (st.compAt c).blocks ∧
      (∀ i2 ∈ (st.compAt c).cut_nodes, i2 ∈ (st'.compAt c).cut_nodes)) ∧
    (∀ b, (st'.blkAt b).component = (st.blkAt b).component ∧
      (st'.blkAt b).nodes = (st.blkAt b).nodes ∧
      (st'.blkAt b).spqr_nodes = (st.blkAt b).spqr_nodes ∧
      (st'.blkAt b).spqr_edges = (st.blkAt b).spqr_edges ∧
      (∀ i2 ∈ (st.blkAt b).cut_nodes, i2 ∈ (st'.blkAt b).cut_nodes)) ∧
    (∀ m ∈ ns, 2 ≤ (st.ndAt m).block_indices.length →
      (st'.ndAt m).cut_node_index.isSome) := by
  induction ns generalizing st with
  | nil =>
    simp only [inferCutNodes] at h
    cases h
    exact ⟨rfl, rfl, rfl, rfl, rfl, rfl,
      fun m => ⟨rfl, rfl, rfl, rfl, fun c hc => hc⟩,
      fun c => ⟨rfl, rfl, fun i2 hi => hi⟩,
      fun b => ⟨rfl, rfl, rfl, rfl, fun i2 hi => hi⟩, by simp⟩
  | cons x xs ih =>
    rw [inferCutNodes, obind_eq_some] at h
    obtain ⟨st1, hstep, h⟩ := h
    obtain ⟨s0, s1, s2, s3, s4, s5, s6, s7, s8, s9, s10, s11, s12⟩ :=
      inferCutNode_spec hstep
    obtain ⟨i1, i2, i3, i4, i5, i6, i7, i8, i9, i10⟩ := ih h
    have hstep_nd : ∀ m, ((st1.ndAt m).block_indices = (st.ndAt m).block_indices ∧
        (st1.ndAt m).component_index = (st.ndAt m).component_index ∧
        (st1.ndAt m).spqr_node_indices = (st.ndAt m).spqr_node_indices ∧
        (st1.ndAt m).extra_data = (st.ndAt m).extra_data ∧
        (∀ c, (st.ndAt m).cut_node_index = some c →
          (st1.ndAt m).cut_node_index = some c)) := by
      intro m
      rcases eq_or_ne m x with rfl | hne
      · obtain ⟨p1, p2, p3, p4⟩ := s8
        refine ⟨p1, p2, p3, p4, ?_⟩
        intro c hc
        rcases s11 with ⟨hcut, -⟩ | ⟨hnone, -⟩
        · rw [hcut, hc]
        · rw [hnone] at hc
          exact Option.noConfusion hc
      · rw [s7 m hne]
        exact ⟨rfl, rfl, rfl, rfl, fun c hc => hc⟩
    refine ⟨i1.trans s1, i2.trans s2, i3.trans s3, by omega, by omega, by omega,
      ?_, ?_, ?_, ?_⟩
    · intro m
      obtain ⟨p1, p2, p3, p4, p5⟩ := i7 m
      obtain ⟨q1, q2, q3, q4, q5⟩ := hstep_nd m
      exact ⟨p1.trans q1, p2.trans q2, p3.trans q3, p4.trans q4,
        fun c hc => p5 c (q5 c hc)⟩
    · intro c
      obtain ⟨p1, p2, p3⟩ := i8 c
      obtain ⟨q1, q2, q3⟩ := s9 c
      exact ⟨p1.trans q1, p2.trans q2, fun i2m hi => p3 i2m (q3 i2m hi)⟩
    · intro b
      obtain ⟨p1, p2, p3, p4, p5⟩ := i9 b
      obtain ⟨q1, q2, q3, q4, q5⟩ := s10 b
      exact ⟨p1.trans q1, p2.trans q2, p3.trans q3, p4.trans q4,
        fun i2m hi => p5 i2m (q5 i2m hi)⟩
    · intro m hm htwo
      rcases List.mem_cons.mp hm with rfl | hxs
      · have hs : (st1.ndAt m).cut_node_index.isSome := s12 htwo
        obtain ⟨c, hc⟩ := Option.isSome_iff_exists.mp hs
        have := (i7 m).2.2.2.2 c hc
        rw [this]
        rfl
      · have htwo1 : 2 ≤ (st1.ndAt m).block_indices.length := by
          rw [(hstep_nd m).1]
          exact htwo
        exact i10 m hxs htwo1

theorem inferCutNode_cutreg {st st' : BuilderState} {n : Nat}
    (h : inferCutNode st n = some st') (hreg : CutReg st) : CutReg st' := by
  obtain ⟨hnlt, s1, s2, s3, s4, s5, s6, s7, s8, s9, s10, s11, s12⟩ :=
    inferCutNode_spec h
  have hpres : ∀ m c0, (st.ndAt m).cut_node_index = some c0 →
      (st'.ndAt m).cut_node_index = some c0 := by
    intro m c0 hc
    rcases eq_or_ne m n with rfl | hne
    · rcases s11 with ⟨hcut, -⟩ | ⟨hnone, -⟩
      · rw [hcut, hc]
      · rw [hnone] at hc
        exact Option.noConfusion hc
    · rw [s7 m hne, hc]
  have hcomp_pres : ∀ m, (st'.ndAt m).component_index = (st.ndAt m).component_index := by
    intro m
    rcases eq_or_ne m n with rfl | hne
    · exact s8.2.1
    · rw [s7 m hne]
  rcases s11 with ⟨hcut, hcn⟩ | ⟨hnone, htwo, hset, ci, hci, hcilt, hcn, hcm, hblks⟩
  · intro c hc
    rw [hcn] at hc
    obtain ⟨q1, q2, q3, q4, q5, q6⟩ := hreg c hc
    have hcn2 : st'.cnAt c = st.cnAt c := by
      unfold BuilderState.cnAt
      rw [hcn]
    rw [hcn2]
    refine ⟨by omega, hpres _ c q2, by rw [hcomp_pres]; exact q3, by omega,
      (s9 _).2.2 c q5, ?_⟩
    intro b hb
    obtain ⟨w1, w2⟩ := q6 b hb
    exact ⟨by omega, (s10 b).2.2.2.2 c w2⟩
  · intro c hc
    rw [hcn] at hc
    rw [List.length_append, List.length_singleton] at hc
    rcases Nat.lt_succ_iff_lt_or_eq.mp hc with hlt | heq
    · obtain ⟨q1, q2, q3, q4, q5, q6⟩ := hreg c hlt
      have hcn2 : st'.cnAt c = st.cnAt c := by
        unfold BuilderState.cnAt
        rw [hcn]
        exact getD_append_lt _ hlt
      rw [hcn2]
      refine ⟨by omega, hpres _ c q2, by rw [hcomp_pres]; exact q3, by omega,
        (s9 _).2.2 c q5, ?_⟩
      intro b hb
      obtain ⟨w1, w2⟩ := q6 b hb
      exact ⟨by omega, (s10 b).2.2.2.2 c w2⟩
    · subst heq
      have hcn2 : st'.cnAt st.cut_nodes.length =
          CutNode.mk ci n (st.ndAt n).block_indices := by
        unfold BuilderState.cnAt
        rw [hcn]
        exact getD_append_self_len _ _
      rw [hcn2]
      dsimp only
      refine ⟨by omega, hset, by rw [hcomp_pres]; exact hci, by omega, hcm, ?_⟩
      intro b hb
      obtain ⟨w1, w2⟩ := hblks b hb
      exact ⟨by omega, w2⟩

theorem inferCutNodes_cutreg {st st' : BuilderState} {ns : List Nat}
    (h : inferCutNodes st ns = some st') (hreg : CutReg st) : CutReg st' := by
  induction ns generalizing st with
  | nil =>
    simp only [inferCutNodes] at h
    cases h
    exact hreg
  | cons x xs ih =>
    rw [inferCutNodes, obind_eq_some] at h
    obtain ⟨st1, hstep, h⟩ := h
    exact ih h (inferCutNode_cutreg hstep hreg)

theorem finalizeNodeDataList_spec {nds : List SPQRDecompositionNodeDataBuilder}
    {out : List SPQRDecompositionNodeData} (h : finalizeNodeDataList nds = some out) :
    out.length = nds.length ∧
    ∀ i, i < nds.length → ∃ nd, nds[i]? = some nd ∧
      ∃ c, nd.component_index = some c ∧
      out[i]? = some (SPQRDecompositionNodeData.mk c nd.block_indices
        nd.cut_node_index nd.spqr_node_indices nd.extra_data) := by
  induction nds generalizing out with
  | nil =>
    simp only [finalizeNodeDataList] at h
    cases h
    exact ⟨rfl, by simp⟩
  | cons nd rest ih =>
    rw [finalizeNodeDataList, obind_eq_some] at h
    obtain ⟨nd1, hnd1, h⟩ := h
    rw [obind_eq_some] at h
    obtain ⟨rest1, hrest1, h⟩ := h
    cases h
    obtain ⟨i1, i2⟩ := ih hrest1
    rw [finalizeNodeData, obind_eq_some] at hnd1
    obtain ⟨c, hc, hnd1⟩ := hnd1
    rw [Option.some_inj] at hnd1
    refine ⟨by simp [i1], ?_⟩
    intro i hi
    match i with
    | 0 =>
      refine ⟨nd, by simp, c, hc, ?_⟩
      simp only [List.getElem?_cons_zero, hnd1]
    | j + 1 =>
      have hj : j < rest.length := by
        simp at hi
        omega
      obtain ⟨nd2, hnd2, c2, hc2, hout⟩ := i2 j hj
      exact ⟨nd2, by simpa using hnd2, c2, hc2, by simpa using hout⟩

theorem finalizeEdgeDataList_spec {eds : List SPQRDecompositionEdgeDataBuilder}
    {out : List SPQRDecompositionEdgeData} (h : finalizeEdgeDataList eds = some out) :
    out.length = eds.length ∧
    ∀ i, i < eds.length → ∃ ed, eds[i]? = some ed ∧
      ∃ c b sp, ed.component_index = some c ∧ ed.block_index = some b ∧
      ed.spqr_node_index = some sp ∧
      out[i]? = some (SPQRDecompositionEdgeData.mk c b sp ed.extra_data) := by
  induction eds generalizing out with
  | nil =>
    simp only [finalizeEdgeDataList] at h
    cases h
    exact ⟨rfl, by simp⟩
  | cons ed rest ih =>
    rw [finalizeEdgeDataList, obind_eq_some] at h
    obtain ⟨ed1, hed1, h⟩ := h
    rw [obind_eq_some] at h
    obtain ⟨rest1, hrest1, h⟩ := h
    cases h
    obtain ⟨i1, i2⟩ := ih hrest1
    rw [finalizeEdgeData, obind_eq_some] at hed1
    obtain ⟨c, hc, hed1⟩ := hed1
    rw [obind_eq_some] at hed1
    obtain ⟨b, hb, hed1⟩ := hed1
    rw [obind_eq_some] at hed1
    obtain ⟨sp, hsp, hed1⟩ := hed1
    rw [Option.some_inj] at hed1
    refine ⟨by simp [i1], ?_⟩
    intro i hi
    match i with
    | 0 =>
      refine ⟨ed, by simp, c, b, sp, hc, hb, hsp, ?_⟩
      simp only [List.getElem?_cons_zero, hed1]
    | j + 1 =>
      have hj : j < rest.length := by
        simp at hi
        omega
      obtain ⟨ed2, hed2, c2, b2, sp2, hc2, hb2, hsp2, hout⟩ := i2 j hj
      exact ⟨ed2, by simpa using hed2, c2, b2, sp2, hc2, hb2, hsp2, by simpa using hout⟩

theorem ndAt_oor {st : BuilderState} {m : Nat} (h : st.node_data.length ≤ m) :
    st.ndAt m = emptyNodeDataBuilder := by
  unfold BuilderState.ndAt
  exact List.getD_eq_default _ _ h

/-- Back-pointer invariant: a node referencing a cut-node record references a
real record that points back to the node. -/
def CutBack (st : BuilderState) : Prop :=
  ∀ m, m < st.node_data.length → ∀ c, (st.ndAt m).cut_node_index = some c →
    c < st.cut_nodes.length ∧ (st.cnAt c).node = m

/-- Builder-state invariant maintained by every `SPQRDecompositionBuilder`
operation. -/
structure Inv (g : Graph) (st : BuilderState) : Prop where
  len_node : st.node_data.length = g.nodeCount
  len_edge : st.edge_data.length = g.edgeCount
  block_bound : ∀ n, n < st.node_data.length →
    ∀ b ∈ (st.ndAt n).block_indices, b < st.blocks.length
  eb_iff : ∀ e, e < st.edge_data.length → ∀ b,
    ((st.edAt e).block_index = some b ↔
      (b ∈ (st.ndAt (g.edgeEndpoints e).1).block_indices ∧
       b ∈ (st.ndAt (g.edgeEndpoints e).2).block_indices))
  spqr_bound : ∀ n, n < st.node_data.length →
    ∀ s ∈ (st.ndAt n).spqr_node_indices, s < st.spqr_nodes.length
  spqr_mem_iff : ∀ n, n < st.node_data.length → ∀ s, s < st.spqr_nodes.length →
    (s ∈ (st.ndAt n).spqr_node_indices ↔ n ∈ (st.snAt s).nodes)
  spqr_two : ∀ s, s < st.spqr_nodes.length → 2 ≤ (st.snAt s).nodes.length
  se_ok : ∀ i, i < st.spqr_edges.length →
    ((st.seAt i).endpoints.1 < st.spqr_nodes.length ∧
     (st.seAt i).endpoints.2 < st.spqr_nodes.length ∧
     (st.seAt i).virtual_edge.1 ∈ (st.snAt (st.seAt i).endpoints.1).nodes ∧
     (st.seAt i).virtual_edge.1 ∈ (st.snAt (st.seAt i).endpoints.2).nodes ∧
     (st.seAt i).virtual_edge.2 ∈ (st.snAt (st.seAt i).endpoints.1).nodes ∧
     (st.seAt i).virtual_edge.2 ∈ (st.snAt (st.seAt i).endpoints.2).nodes ∧
     (st.snAt (st.seAt i).endpoints.1).block = (st.snAt (st.seAt i).endpoints.2).block)
  cut_reg : CutReg st
  cut_back : CutBack st

theorem inv_new (g : Graph) : Inv g (BuilderState.new g) := by
  have hnd : ∀ n, (BuilderState.new g).ndAt n = emptyNodeDataBuilder := by
    intro n
    unfold BuilderState.ndAt BuilderState.new
    rcases Nat.lt_or_ge n g.nodeCount with h | h
    · refine getD_of_some _ ?_
      simp [List.getElem?_replicate, h]
    · exact List.getD_eq_default _ _ (by simpa using h)
  have hed : ∀ e, (BuilderState.new g).edAt e = emptyEdgeDataBuilder := by
    intro e
    unfold BuilderState.edAt BuilderState.new
    rcases Nat.lt_or_ge e g.edgeCount with h | h
    · refine getD_of_some _ ?_
      simp [List.getElem?_replicate, h]
    · exact List.getD_eq_default _ _ (by simpa using h)
  refine ⟨by simp [BuilderState.new], by simp [BuilderState.new], ?_, ?_, ?_, ?_, ?_,
    ?_, ?_, ?_⟩
  · intro n hn b hb
    rw [hnd n] at hb
    simp [emptyNodeDataBuilder] at hb
  · intro e he b
    rw [hed e, hnd, hnd]
    simp [emptyEdgeDataBuilder, emptyNodeDataBuilder]
  · intro n hn s hs
    rw [hnd n] at hs
    simp [emptyNodeDataBuilder] at hs
  · intro n hn s hs
    simp [BuilderState.new] at hs
  · intro s hs
    simp [BuilderState.new] at hs
  · intro i hi
    simp [BuilderState.new] at hi
  · intro c hc
    simp [BuilderState.new] at hc
  · intro m hm c hc
    rw [hnd m] at hc
    simp [emptyNodeDataBuilder] at hc

theorem inv_add_component {g : Graph} {st st' : BuilderState} {nodes : List Nat}
    {idx : Nat} (h : add_component g st nodes = some (st', idx)) (hi : Inv g st) :
    Inv g st' := by
  obtain ⟨a1, a2, a3, a4, a5, a6, a7, a8, a9, a10, a11⟩ := add_component_spec g h
  have hsn : ∀ s, st'.snAt s = st.snAt s := by
    intro s
    unfold BuilderState.snAt
    rw [a5]
  have hse : ∀ i, st'.seAt i = st.seAt i := by
    intro i
    unfold BuilderState.seAt
    rw [a6]
  have hcn : ∀ c, st'.cnAt c = st.cnAt c := by
    intro c
    unfold BuilderState.cnAt
    rw [a4]
  have hblkat : ∀ b, st'.blkAt b = st.blkAt b := by
    intro b
    unfold BuilderState.blkAt
    rw [a3]
  have hndp : ∀ m, (st'.ndAt m).block_indices = (st.ndAt m).block_indices ∧
      (st'.ndAt m).spqr_node_indices = (st.ndAt m).spqr_node_indices ∧
      (st'.ndAt m).cut_node_index = (st.ndAt m).cut_node_index := by
    intro m
    by_cases hm : m ∈ nodes
    · rw [(a10 m hm).2.2]
      exact ⟨rfl, rfl, rfl⟩
    · rw [a9 m hm]
      exact ⟨rfl, rfl, rfl⟩
  have hblen : st'.blocks.length = st.blocks.length := by rw [a3]
  have hslen : st'.spqr_nodes.length = st.spqr_nodes.length := by rw [a5]
  have hselen : st'.spqr_edges.length = st.spqr_edges.length := by rw [a6]
  have hctlen : st'.cut_nodes.length = st.cut_nodes.length := by rw [a4]
  have hclen : st'.components.length = st.components.length + 1 := by
    rw [a2]
    simp
  have hcompat : ∀ x, x < st.components.length → st'.compAt x = st.compAt x := by
    intro x hx
    unfold BuilderState.compAt
    rw [a2]
    exact getD_append_lt _ hx
  have hgn := hi.len_node
  have hge := hi.len_edge
  refine ⟨by omega, by omega, ?_, ?_, ?_, ?_, ?_, ?_, ?_, ?_⟩
  · intro n hn b hb
    rw [(hndp n).1] at hb
    rw [hblen]
    exact hi.block_bound n (by omega) b hb
  · intro e he b
    rw [(a11 e).1, (hndp _).1, (hndp _).1]
    exact hi.eb_iff e (by omega) b
  · intro n hn s hs
    rw [(hndp n).2.1] at hs
    rw [hslen]
    exact hi.spqr_bound n (by omega) s hs
  · intro n hn s hs
    rw [(hndp n).2.1, hsn s]
    exact hi.spqr_mem_iff n (by omega) s (by omega)
  · intro s hs
    rw [hsn s]
    exact hi.spqr_two s (by omega)
  · intro i hi2
    simp only [hse, hsn, hslen]
    exact hi.se_ok i (by omega)
  · intro c hc
    obtain ⟨q1, q2, q3, q4, q5, q6⟩ := hi.cut_reg c (by omega)
    rw [hcn c]
    refine ⟨by omega, ?_, ?_, by omega, ?_, ?_⟩
    · rw [(hndp _).2.2]
      exact q2
    · by_cases hm : (st.cnAt c).node ∈ nodes
      · rw [(a10 _ hm).2.1] at q3
        exact Option.noConfusion q3
      · rw [a9 _ hm]
        exact q3
    · rw [hcompat _ q4]
      exact q5
    · intro b hb
      obtain ⟨w1, w2⟩ := q6 b hb
      rw [hblkat b]
      exact ⟨by omega, w2⟩
  · intro m hm c hc
    rw [(hndp m).2.2] at hc
    obtain ⟨q1, q2⟩ := hi.cut_back m (by omega) c hc
    rw [hcn c]
    exact ⟨by omega, q2⟩

theorem inv_add_extra_data {g : Graph} {st st' : BuilderState} {node : Nat}
    {xd : String} (h : add_extra_data_to_node st node xd = some st') (hi : Inv g st) :
    Inv g st' := by
  obtain ⟨a1, a2, a3, a4, a5, a6, a7, a8, a9, a10⟩ := add_extra_data_to_node_spec h
  have hsn : ∀ s, st'.snAt s = st.snAt s := by
    intro s
    unfold BuilderState.snAt
    rw [a4]
  have hse : ∀ i, st'.seAt i = st.seAt i := by
    intro i
    unfold BuilderState.seAt
    rw [a5]
  have hcn : ∀ c, st'.cnAt c = st.cnAt c := by
    intro c
    unfold BuilderState.cnAt
    rw [a3]
  have hblkat : ∀ b, st'.blkAt b = st.blkAt b := by
    intro b
    unfold BuilderState.blkAt
    rw [a2]
  have hcompat : ∀ x, st'.compAt x = st.compAt x := by
    intro x
    unfold BuilderState.compAt
    rw [a1]
  have hedat : ∀ e, st'.edAt e = st.edAt e := by
    intro e
    unfold BuilderState.edAt
    rw [a7]
  have hndp : ∀ m, (st'.ndAt m).block_indices = (st.ndAt m).block_indices ∧
      (st'.ndAt m).spqr_node_indices = (st.ndAt m).spqr_node_indices ∧
      (st'.ndAt m).cut_node_index = (st.ndAt m).cut_node_index ∧
      (st'.ndAt m).component_index = (st.ndAt m).component_index := by
    intro m
    rcases eq_or_ne m node with rfl | hm
    · rw [a9]
      exact ⟨rfl, rfl, rfl, rfl⟩
    · rw [a8 m hm]
      exact ⟨rfl, rfl, rfl, rfl⟩
  have hblen : st'.blocks.length = st.blocks.length := by rw [a2]
  have hslen : st'.spqr_nodes.length = st.spqr_nodes.length := by rw [a4]
  have hselen : st'.spqr_edges.length = st.spqr_edges.length := by rw [a5]
  have hctlen : st'.cut_nodes.length = st.cut_nodes.length := by rw [a3]
  have hclen : st'.components.length = st.components.length := by rw [a1]
  have helen : st'.edge_data.length = st.edge_data.length := by rw [a7]
  have hgn := hi.len_node
  have hge := hi.len_edge
  refine ⟨by omega, by omega, ?_, ?_, ?_, ?_, ?_, ?_, ?_, ?_⟩
  · intro n hn b hb
    rw [(hndp n).1] at hb
    rw [hblen]
    exact hi.block_bound n (by omega) b hb
  · intro e he b
    rw [hedat e, (hndp _).1, (hndp _).1]
    exact hi.eb_iff e (by omega) b
  · intro n hn s hs
    rw [(hndp n).2.1] at hs
    rw [hslen]
    exact hi.spqr_bound n (by omega) s hs
  · intro n hn s hs
    rw [(hndp n).2.1, hsn s]
    exact hi.spqr_mem_iff n (by omega) s (by omega)
  · intro s hs
    rw [hsn s]
    exact hi.spqr_two s (by omega)
  · intro i hi2
    simp only [hse, hsn, hslen]
    exact hi.se_ok i (by omega)
  · intro c hc
    obtain ⟨q1, q2, q3, q4, q5, q6⟩ := hi.cut_reg c (by omega)
    rw [hcn c]
    refine ⟨by omega, ?_, ?_, by omega, ?_, ?_⟩
    · rw [(hndp _).2.2.1]
      exact q2
    · rw [(hndp _).2.2.2]
      exact q3
    · rw [hcompat]
      exact q5
    · intro b hb
      obtain ⟨w1, w2⟩ := q6 b hb
      rw [hblkat b]
      exact ⟨by omega, w2⟩
  · intro m hm c hc
    rw [(hndp m).2.2.1] at hc
    obtain ⟨q1, q2⟩ := hi.cut_back m (by omega) c hc
    rw [hcn c]
    exact ⟨by omega, q2⟩

theorem inv_add_block {g : Graph} {st st' : BuilderState} {component idx : Nat}
    {nodes : List Nat} (h : add_block g st component nodes = some (st', idx))
    (hi : Inv g st) : Inv g st' := by
  obtain ⟨a1, a2, a3, a4, a5, a6, a7, a8, a9, a10, a11, a12, a13, a14, a15, a16⟩ :=
    add_block_spec g h
  have hsn : ∀ s, st'.snAt s = st.snAt s := by
    intro s
    unfold BuilderState.snAt
    rw [a8]
  have hse : ∀ i, st'.seAt i = st.seAt i := by
    intro i
    unfold BuilderState.seAt
    rw [a9]
  have hcn : ∀ c, st'.cnAt c = st.cnAt c := by
    intro c
    unfold BuilderState.cnAt
    rw [a7]
  have hblen : st'.blocks.length = st.blocks.length + 1 := by
    rw [a6]
    simp
  have hblkat : ∀ b, b < st.blocks.length → st'.blkAt b = st.blkAt b := by
    intro b hb
    unfold BuilderState.blkAt
    rw [a6]
    exact getD_append_lt _ hb
  have hslen : st'.spqr_nodes.length = st.spqr_nodes.length := by rw [a8]
  have hselen : st'.spqr_edges.length = st.spqr_edges.length := by rw [a9]
  have hctlen : st'.cut_nodes.length = st.cut_nodes.length := by rw [a7]
  have hgn := hi.len_node
  have hge := hi.len_edge
  have hfresh : ∀ m, idx ∉ (st.ndAt m).block_indices := by
    intro m hmem
    rcases Nat.lt_or_ge m st.node_data.length with hm | hm
    · have := hi.block_bound m hm idx hmem
      omega
    · rw [ndAt_oor hm] at hmem
      simp [emptyNodeDataBuilder] at hmem
  have hndp : ∀ m, (st'.ndAt m).spqr_node_indices = (st.ndAt m).spqr_node_indices ∧
      (st'.ndAt m).cut_node_index = (st.ndAt m).cut_node_index ∧
      (st'.ndAt m).component_index = (st.ndAt m).component_index := by
    intro m
    by_cases hm : m ∈ nodes
    · rw [(a13 m hm).2.2.2]
      exact ⟨rfl, rfl, rfl⟩
    · rw [a12 m hm]
      exact ⟨rfl, rfl, rfl⟩
  have hbi : ∀ m b, b ≠ idx →
      (b ∈ (st'.ndAt m).block_indices ↔ b ∈ (st.ndAt m).block_indices) := by
    intro m b hb
    by_cases hm : m ∈ nodes
    · rw [(a13 m hm).2.2.2]
      show b ∈ (st.ndAt m).block_indices ++ [idx] ↔ b ∈ (st.ndAt m).block_indices
      simp only [List.mem_append, List.mem_singleton]
      constructor
      · rintro (h1 | h1)
        · exact h1
        · exact absurd h1 hb
      · exact fun h1 => Or.inl h1
    · rw [a12 m hm]
  refine ⟨by omega, by omega, ?_, ?_, ?_, ?_, ?_, ?_, ?_, ?_⟩
  · intro n hn b hb
    by_cases hm : n ∈ nodes
    · rw [(a13 n hm).2.2.2] at hb
      simp only [List.mem_append, List.mem_singleton] at hb
      rcases hb with hb | hb
      · have := hi.block_bound n (by omega) b hb
        omega
      · omega
    · rw [a12 n hm] at hb
      have := hi.block_bound n (by omega) b hb
      omega
  · intro e he b
    have he2 : e < st.edge_data.length := by omega
    by_cases hbidx : b = idx
    · subst hbidx
      constructor
      · intro h1
        rcases a14 e with h2 | h2
        · rw [h2] at h1
          obtain ⟨hm1, -⟩ := (hi.eb_iff e he2 b).mp h1
          exact absurd hm1 (hfresh _)
        · exact ⟨h2.2.2.1, h2.2.2.2⟩
      · rintro ⟨hm1, hm2⟩
        exact a16 hfresh e (by omega) hm1 hm2
    · rw [hbi (g.edgeEndpoints e).1 b hbidx, hbi (g.edgeEndpoints e).2 b hbidx]
      constructor
      · intro h1
        rcases a14 e with h2 | h2
        · rw [h2] at h1
          exact (hi.eb_iff e he2 b).mp h1
        · rw [h2.2.1] at h1
          exact absurd (Option.some_inj.mp h1).symm hbidx
      · intro hmm
        have h1 := (hi.eb_iff e he2 b).mpr hmm
        rcases a14 e with h2 | h2
        · rw [h2]
          exact h1
        · rw [h2.1] at h1
          exact Option.noConfusion h1
  · intro n hn s hs
    rw [(hndp n).1] at hs
    rw [hslen]
    exact hi.spqr_bound n (by omega) s hs
  · intro n hn s hs
    rw [(hndp n).1, hsn s]
    exact hi.spqr_mem_iff n (by omega) s (by omega)
  · intro s hs
    rw [hsn s]
    exact hi.spqr_two s (by omega)
  · intro i hi2
    simp only [hse, hsn, hslen]
    exact hi.se_ok i (by omega)
  · intro c hc
    obtain ⟨q1, q2, q3, q4, q5, q6⟩ := hi.cut_reg c (by omega)
    rw [hcn c]
    refine ⟨by omega, ?_, ?_, by omega, ?_, ?_⟩
    · rw [(hndp _).2.1]
      exact q2
    · rw [(hndp _).2.2]
      exact q3
    · by_cases hcc : (st.cnAt c).component = component
      · rw [hcc, a5]
        show c ∈ (st.compAt component).cut_nodes
        rw [← hcc]
        exact q5
      · rw [a4 _ hcc]
        exact q5
    · intro b hb
      obtain ⟨w1, w2⟩ := q6 b hb
      rw [hblkat b w1]
      exact ⟨by omega, w2⟩
  · intro m hm c hc
    rw [(hndp m).2.1] at hc
    obtain ⟨q1, q2⟩ := hi.cut_back m (by omega) c hc
    rw [hcn c]
    exact ⟨by omega, q2⟩

theorem inv_add_cut_node {g : Graph} {st st' : BuilderState} {cut_node idx : Nat}
    {blocks : List Nat} (h : add_cut_node st cut_node blocks = some (st', idx))
    (hi : Inv g st) : Inv g st' := by
  obtain ⟨a1, a2, a3, a4, a5, a6, a7, a8, a9, a10, a11, a12, a13, a14, a15⟩ :=
    add_cut_node_spec h
  obtain ⟨ci, hci, hcilt, hcnlist, hcompne, hcompself⟩ := a15
  have hsn : ∀ s, st'.snAt s = st.snAt s := by
    intro s
    unfold BuilderState.snAt
    rw [a6]
  have hse : ∀ i, st'.seAt i = st.seAt i := by
    intro i
    unfold BuilderState.seAt
    rw [a7]
  have hedat : ∀ e, st'.edAt e = st.edAt e := by
    intro e
    unfold BuilderState.edAt
    rw [a9]
  have hslen : st'.spqr_nodes.length = st.spqr_nodes.length := by rw [a6]
  have hselen : st'.spqr_edges.length = st.spqr_edges.length := by rw [a7]
  have hctlen : st'.cut_nodes.length = st.cut_nodes.length + 1 := by
    rw [hcnlist]
    simp
  have hcnat_lt : ∀ c, c < st.cut_nodes.length → st'.cnAt c = st.cnAt c := by
    intro c hc
    unfold BuilderState.cnAt
    rw [hcnlist]
    exact getD_append_lt _ hc
  have hcnat_new : st'.cnAt st.cut_nodes.length = CutNode.mk ci cut_node blocks := by
    unfold BuilderState.cnAt
    rw [hcnlist]
    exact getD_append_self_len _ _
  have helen : st'.edge_data.length = st.edge_data.length := by rw [a9]
  have hgn := hi.len_node
  have hge := hi.len_edge
  have hndp : ∀ m, (st'.ndAt m).block_indices = (st.ndAt m).block_indices ∧
      (st'.ndAt m).spqr_node_indices = (st.ndAt m).spqr_node_indices ∧
      (st'.ndAt m).component_index = (st.ndAt m).component_index := by
    intro m
    rcases eq_or_ne m cut_node with rfl | hm
    · rw [a11]
      exact ⟨rfl, rfl, rfl⟩
    · rw [a10 m hm]
      exact ⟨rfl, rfl, rfl⟩
  refine ⟨by omega, by omega, ?_, ?_, ?_, ?_, ?_, ?_, ?_, ?_⟩
  · intro n hn b hb
    rw [(hndp n).1] at hb
    have := hi.block_bound n (by omega) b hb
    omega
  · intro e he b
    rw [hedat e, (hndp _).1, (hndp _).1]
    exact hi.eb_iff e (by omega) b
  · intro n hn s hs
    rw [(hndp n).2.1] at hs
    rw [hslen]
    exact hi.spqr_bound n (by omega) s hs
  · intro n hn s hs
    rw [(hndp n).2.1, hsn s]
    exact hi.spqr_mem_iff n (by omega) s (by omega)
  · intro s hs
    rw [hsn s]
    exact hi.spqr_two s (by omega)
  · intro i hi2
    simp only [hse, hsn, hslen]
    exact hi.se_ok i (by omega)
  · intro c hc
    rcases Nat.lt_or_ge c st.cut_nodes.length with hlt | hge2
    · obtain ⟨q1, q2, q3, q4, q5, q6⟩ := hi.cut_reg c hlt
      have hnodene : (st.cnAt c).node ≠ cut_node := by
        intro heq
        rw [heq, a3] at q2
        exact Option.noConfusion q2
      rw [hcnat_lt c hlt]
      refine ⟨by omega, by rw [a10 _ hnodene]; exact q2,
        by rw [a10 _ hnodene]; exact q3, by omega, ?_, ?_⟩
      · by_cases hcc : (st.cnAt c).component = ci
        · rw [hcc, hcompself]
          show c ∈ (st.compAt ci).cut_nodes ++ [idx]
          rw [← hcc]
          exact List.mem_append_left _ q5
        · rw [hcompne _ hcc]
          exact q5
      · intro b hb
        obtain ⟨w1, w2⟩ := q6 b hb
        refine ⟨by omega, ?_⟩
        by_cases hbm : b ∈ blocks
        · exact (a13 b).2.2.2.2 c w2
        · rw [a12 b hbm]
          exact w2
    · have hceq : c = st.cut_nodes.length := by omega
      subst hceq
      rw [hcnat_new]
      dsimp only
      refine ⟨by omega, ?_, ?_, by omega, ?_, ?_⟩
      · rw [a11]
        show some idx = some st.cut_nodes.length
        rw [a1]
      · rw [a11]
        show (st.ndAt cut_node).component_index = some ci
        exact hci
      · rw [hcompself]
        show st.cut_nodes.length ∈ (st.compAt ci).cut_nodes ++ [idx]
        rw [a1]
        exact List.mem_append_right _ (List.mem_singleton.mpr rfl)
      · intro b hb
        obtain ⟨w1, w2⟩ := a14 b hb
        rw [← a1]
        exact ⟨by omega, w2⟩
  · intro m hm c hc
    rcases eq_or_ne m cut_node with rfl | hmn
    · rw [a11] at hc
      have hceq : c = idx := by
        have : some idx = some c := hc
        exact (Option.some_inj.mp this).symm
      subst hceq
      rw [a1, hcnat_new]
      exact ⟨by omega, rfl⟩
    · rw [a10 m hmn] at hc
      obtain ⟨q1, q2⟩ := hi.cut_back m (by omega) c hc
      rw [hcnat_lt c q1]
      exact ⟨by omega, q2⟩

theorem inv_add_spqr_node {g : Graph} {st st' : BuilderState} {block idx : Nat}
    {nodes : List Nat} {t : SPQRNodeType}
    (h : add_spqr_node st block nodes t = some (st', idx)) (hi : Inv g st) :
    Inv g st' := by
  obtain ⟨a1, a2, a3, a4, a5, a6, a7, a8, a9, a10, a11, a12, a13, a14⟩ :=
    add_spqr_node_spec h
  have hse : ∀ i, st'.seAt i = st.seAt i := by
    intro i
    unfold BuilderState.seAt
    rw [a6]
  have hcn : ∀ c, st'.cnAt c = st.cnAt c := by
    intro c
    unfold BuilderState.cnAt
    rw [a5]
  have hcompat : ∀ x, st'.compAt x = st.compAt x := by
    intro x
    unfold BuilderState.compAt
    rw [a4]
  have hedat : ∀ e, st'.edAt e = st.edAt e := by
    intro e
    unfold BuilderState.edAt
    rw [a8]
  have hslen : st'.spqr_nodes.length = st.spqr_nodes.length + 1 := by
    rw [a9]
    simp
  have hsnat_lt : ∀ s, s < st.spqr_nodes.length → st'.snAt s = st.snAt s := by
    intro s hs
    unfold BuilderState.snAt
    rw [a9]
    exact getD_append_lt _ hs
  have hsnat_new : st'.snAt st.spqr_nodes.length = SPQRNode.mk block nodes [] t [] := by
    unfold BuilderState.snAt
    rw [a9]
    exact getD_append_self_len _ _
  have hselen : st'.spqr_edges.length = st.spqr_edges.length := by rw [a6]
  have hctlen : st'.cut_nodes.length = st.cut_nodes.length := by rw [a5]
  have helen : st'.edge_data.length = st.edge_data.length := by rw [a8]
  have hgn := hi.len_node
  have hge := hi.len_edge
  have hfresh : ∀ m, idx ∉ (st.ndAt m).spqr_node_indices := by
    intro m hmem
    rcases Nat.lt_or_ge m st.node_data.length with hm | hm
    · have := hi.spqr_bound m hm idx hmem
      omega
    · rw [ndAt_oor hm] at hmem
      simp [emptyNodeDataBuilder] at hmem
  have hndp : ∀ m, (st'.ndAt m).block_indices = (st.ndAt m).block_indices ∧
      (st'.ndAt m).cut_node_index = (st.ndAt m).cut_node_index ∧
      (st'.ndAt m).component_index = (st.ndAt m).component_index := by
    intro m
    by_cases hm : m ∈ nodes
    · rw [(a14 m hm).2.2.2.2]
      exact ⟨rfl, rfl, rfl⟩
    · rw [a13 m hm]
      exact ⟨rfl, rfl, rfl⟩
  have hsi : ∀ m s, s ≠ idx →
      (s ∈ (st'.ndAt m).spqr_node_indices ↔ s ∈ (st.ndAt m).spqr_node_indices) := by
    intro m s hs
    by_cases hm : m ∈ nodes
    · rw [(a14 m hm).2.2.2.2]
      show s ∈ (st.ndAt m).spqr_node_indices ++ [idx] ↔
        s ∈ (st.ndAt m).spqr_node_indices
      simp only [List.mem_append, List.mem_singleton]
      constructor
      · rintro (h1 | h1)
        · exact h1
        · exact absurd h1 hs
      · exact fun h1 => Or.inl h1
    · rw [a13 m hm]
  have hsiidx : ∀ m, idx ∈ (st'.ndAt m).spqr_node_indices ↔ m ∈ nodes := by
    intro m
    by_cases hm : m ∈ nodes
    · simp only [hm, iff_true]
      rw [(a14 m hm).2.2.2.2]
      show idx ∈ (st.ndAt m).spqr_node_indices ++ [idx]
      simp
    · simp only [hm, iff_false]
      rw [a13 m hm]
      exact hfresh m
  refine ⟨by omega, by omega, ?_, ?_, ?_, ?_, ?_, ?_, ?_, ?_⟩
  · intro n hn b hb
    rw [(hndp n).1] at hb
    rw [a10]
    exact hi.block_bound n (by omega) b hb
  · intro e he b
    rw [hedat e, (hndp _).1, (hndp _).1]
    exact hi.eb_iff e (by omega) b
  · intro n hn s hs
    by_cases hsidx : s = idx
    · omega
    · rw [hsi n s hsidx] at hs
      have := hi.spqr_bound n (by omega) s hs
      omega
  · intro n hn s hs
    rcases Nat.lt_or_ge s st.spqr_nodes.length with hlt | hge2
    · have hsidx : s ≠ idx := by omega
      rw [hsi n s hsidx, hsnat_lt s hlt]
      exact hi.spqr_mem_iff n (by omega) s hlt
    · have hseq : s = st.spqr_nodes.length := by omega
      subst hseq
      rw [← a1, hsiidx n, a1, hsnat_new]
  · intro s hs
    rcases Nat.lt_or_ge s st.spqr_nodes.length with hlt | hge2
    · rw [hsnat_lt s hlt]
      exact hi.spqr_two s hlt
    · have hseq : s = st.spqr_nodes.length := by omega
      subst hseq
      rw [hsnat_new]
      exact a2
  · intro i hi2
    obtain ⟨w1, w2, w3, w4, w5, w6, w7⟩ := hi.se_ok i (by omega)
    rw [hse i]
    rw [hsnat_lt _ w1, hsnat_lt _ w2]
    exact ⟨by omega, by omega, w3, w4, w5, w6, w7⟩
  · intro c hc
    obtain ⟨q1, q2, q3, q4, q5, q6⟩ := hi.cut_reg c (by omega)
    rw [hcn c]
    refine ⟨by omega, by rw [(hndp _).2.1]; exact q2,
      by rw [(hndp _).2.2]; exact q3, by rw [a4]; exact q4,
      by rw [hcompat]; exact q5, ?_⟩
    intro b hb
    obtain ⟨w1, w2⟩ := q6 b hb
    refine ⟨by omega, ?_⟩
    by_cases hbb : b = block
    · subst hbb
      rw [a12]
      show c ∈ (st.blkAt b).cut_nodes
      exact w2
    · rw [a11 b hbb]
      exact w2
  · intro m hm c hc
    rw [(hndp m).2.1] at hc
    obtain ⟨q1, q2⟩ := hi.cut_back m (by omega) c hc
    rw [hcn c]
    exact ⟨by omega, q2⟩

theorem inv_add_edge_to_spqr_node {g : Graph} {st st' : BuilderState}
    {edge spqr_node : Nat} (h : add_edge_to_spqr_node g st edge spqr_node = some st')
    (hi : Inv g st) : Inv g st' := by
  obtain ⟨a1, a2, a3, a4, a5, a6, a7, a8, a9, a10, a11, a12, a13, a14, a15, a16⟩ :=
    add_edge_to_spqr_node_spec g h
  have hse : ∀ i, st'.seAt i = st.seAt i := by
    intro i
    unfold BuilderState.seAt
    rw [a9]
  have hcn : ∀ c, st'.cnAt c = st.cnAt c := by
    intro c
    unfold BuilderState.cnAt
    rw [a8]
  have hcompat : ∀ x, st'.compAt x = st.compAt x := by
    intro x
    unfold BuilderState.compAt
    rw [a6]
  have hblkat : ∀ b, st'.blkAt b = st.blkAt b := by
    intro b
    unfold BuilderState.blkAt
    rw [a7]
  have hndat : ∀ m, st'.ndAt m = st.ndAt m := by
    intro m
    unfold BuilderState.ndAt
    rw [a10]
  have hgn := hi.len_node
  have hge := hi.len_edge
  have hnlen : st'.node_data.length = st.node_data.length := by rw [a10]
  have hblen : st'.blocks.length = st.blocks.length := by rw [a7]
  have hctlen : st'.cut_nodes.length = st.cut_nodes.length := by rw [a8]
  have hselen : st'.spqr_edges.length = st.spqr_edges.length := by rw [a9]
  have hbie : ∀ e, (st'.edAt e).block_index = (st.edAt e).block_index := by
    intro e
    rcases eq_or_ne e edge with rfl | hne
    · rw [a14]
    · rw [a13 e hne]
  have hsnp : ∀ s, (st'.snAt s).nodes = (st.snAt s).nodes ∧
      (st'.snAt s).block = (st.snAt s).block := by
    intro s
    rcases eq_or_ne s spqr_node with rfl | hne
    · rw [a16]
      exact ⟨rfl, rfl⟩
    · rw [a15 s hne]
      exact ⟨rfl, rfl⟩
  refine ⟨by omega, by omega, ?_, ?_, ?_, ?_, ?_, ?_, ?_, ?_⟩
  · intro n hn b hb
    rw [hndat n] at hb
    rw [hblen]
    exact hi.block_bound n (by omega) b hb
  · intro e he b
    rw [hbie e, hndat, hndat]
    exact hi.eb_iff e (by omega) b
  · intro n hn s hs
    rw [hndat n] at hs
    rw [a12]
    exact hi.spqr_bound n (by omega) s hs
  · intro n hn s hs
    rw [hndat n, (hsnp s).1]
    exact hi.spqr_mem_iff n (by omega) s (by omega)
  · intro s hs
    rw [(hsnp s).1]
    exact hi.spqr_two s (by omega)
  · intro i hi2
    obtain ⟨w1, w2, w3, w4, w5, w6, w7⟩ := hi.se_ok i (by omega)
    rw [hse i]
    refine ⟨by omega, by omega, ?_, ?_, ?_, ?_, ?_⟩
    · rw [(hsnp _).1]
      exact w3
    · rw [(hsnp _).1]
      exact w4
    · rw [(hsnp _).1]
      exact w5
    · rw [(hsnp _).1]
      exact w6
    · rw [(hsnp _).2, (hsnp _).2]
      exact w7
  · intro c hc
    obtain ⟨q1, q2, q3, q4, q5, q6⟩ := hi.cut_reg c (by omega)
    rw [hcn c]
    refine ⟨by omega, by rw [hndat]; exact q2, by rw [hndat]; exact q3,
      by rw [a6]; exact q4, by rw [hcompat]; exact q5, ?_⟩
    intro b hb
    obtain ⟨w1, w2⟩ := q6 b hb
    rw [hblkat b]
    exact ⟨by omega, w2⟩
  · intro m hm c hc
    rw [hndat m] at hc
    obtain ⟨q1, q2⟩ := hi.cut_back m (by omega) c hc
    rw [hcn c]
    exact ⟨by omega, q2⟩

theorem inv_add_spqr_edge {g : Graph} {st st' : BuilderState} {blockArg : Option Nat}
    {idx : Nat} {endpoints virtual_edge : Nat × Nat}
    (h : add_spqr_edge st blockArg endpoints virtual_edge = some (st', idx))
    (hi : Inv g st) : Inv g st' := by
  obtain ⟨a1, a2, a3, a4, a5, a6, a7, a8, a9, a10, a11, a12, a13, a14, a15, a16,
    a17, a18, a19⟩ := add_spqr_edge_spec h
  have hcn : ∀ c, st'.cnAt c = st.cnAt c := by
    intro c
    unfold BuilderState.cnAt
    rw [a12]
  have hcompat : ∀ x, st'.compAt x = st.compAt x := by
    intro x
    unfold BuilderState.compAt
    rw [a11]
  have hndat : ∀ m, st'.ndAt m = st.ndAt m := by
    intro m
    unfold BuilderState.ndAt
    rw [a13]
  have hedat : ∀ e, st'.edAt e = st.edAt e := by
    intro e
    unfold BuilderState.edAt
    rw [a14]
  have hgn := hi.len_node
  have hge := hi.len_edge
  have hnlen : st'.node_data.length = st.node_data.length := by rw [a13]
  have helen : st'.edge_data.length = st.edge_data.length := by rw [a14]
  have hctlen : st'.cut_nodes.length = st.cut_nodes.length := by rw [a12]
  have hselen : st'.spqr_edges.length = st.spqr_edges.length + 1 := by
    rw [a15]
    simp
  have hseat_lt : ∀ i, i < st.spqr_edges.length → st'.seAt i = st.seAt i := by
    intro i hi2
    unfold BuilderState.seAt
    rw [a15]
    exact getD_append_lt _ hi2
  have hseat_new : st'.seAt st.spqr_edges.length =
      SPQREdge.mk endpoints virtual_edge := by
    unfold BuilderState.seAt
    rw [a15]
    exact getD_append_self_len _ _
  refine ⟨by omega, by omega, ?_, ?_, ?_, ?_, ?_, ?_, ?_, ?_⟩
  · intro n hn b hb
    rw [hndat n] at hb
    rw [a17]
    exact hi.block_bound n (by omega) b hb
  · intro e he b
    rw [hedat e, hndat, hndat]
    exact hi.eb_iff e (by omega) b
  · intro n hn s hs
    rw [hndat n] at hs
    rw [a16]
    exact hi.spqr_bound n (by omega) s hs
  · intro n hn s hs
    rw [hndat n, (a19 s).2.1]
    exact hi.spqr_mem_iff n (by omega) s (by omega)
  · intro s hs
    rw [(a19 s).2.1]
    exact hi.spqr_two s (by omega)
  · intro i hi2
    rcases Nat.lt_or_ge i st.spqr_edges.length with hlt | hge2
    · obtain ⟨w1, w2, w3, w4, w5, w6, w7⟩ := hi.se_ok i hlt
      rw [hseat_lt i hlt]
      refine ⟨by omega, by omega, ?_, ?_, ?_, ?_, ?_⟩
      · rw [(a19 _).2.1]
        exact w3
      · rw [(a19 _).2.1]
        exact w4
      · rw [(a19 _).2.1]
        exact w5
      · rw [(a19 _).2.1]
        exact w6
      · rw [(a19 _).1, (a19 _).1]
        exact w7
    · have hieq : i = st.spqr_edges.length := by omega
      subst hieq
      rw [hseat_new]
      dsimp only
      have hm1 : virtual_edge.1 ∈ (st.snAt endpoints.1).nodes :=
        (hi.spqr_mem_iff virtual_edge.1 a2 endpoints.1 a4).mp a6
      have hm2 : virtual_edge.1 ∈ (st.snAt endpoints.2).nodes :=
        (hi.spqr_mem_iff virtual_edge.1 a2 endpoints.2 a5).mp a7
      have hm3 : virtual_edge.2 ∈ (st.snAt endpoints.1).nodes :=
        (hi.spqr_mem_iff virtual_edge.2 a3 endpoints.1 a4).mp a8
      have hm4 : virtual_edge.2 ∈ (st.snAt endpoints.2).nodes :=
        (hi.spqr_mem_iff virtual_edge.2 a3 endpoints.2 a5).mp a9
      refine ⟨by omega, by omega, ?_, ?_, ?_, ?_, ?_⟩
      · rw [(a19 _).2.1]
        exact hm1
      · rw [(a19 _).2.1]
        exact hm2
      · rw [(a19 _).2.1]
        exact hm3
      · rw [(a19 _).2.1]
        exact hm4
      · rw [(a19 _).1, (a19 _).1]
        exact a10
  · intro c hc
    obtain ⟨q1, q2, q3, q4, q5, q6⟩ := hi.cut_reg c (by omega)
    rw [hcn c]
    refine ⟨by omega, by rw [hndat]; exact q2, by rw [hndat]; exact q3,
      by rw [a11]; exact q4, by rw [hcompat]; exact q5, ?_⟩
    intro b hb
    obtain ⟨w1, w2⟩ := q6 b hb
    refine ⟨by omega, ?_⟩
    rw [(a18 b).2.2.1]
    exact w2
  · intro m hm c hc
    rw [hndat m] at hc
    obtain ⟨q1, q2⟩ := hi.cut_back m (by omega) c hc
    rw [hcn c]
    exact ⟨by omega, q2⟩

theorem applyOp_inv {g : Graph} {st st' : BuilderState} {op : BuilderOp}
    (h : applyOp g st op = some st') (hi : Inv g st) : Inv g st' := by
  cases op with
  | addComponent nodes =>
    simp only [applyOp] at h
    rw [Option.map_eq_some'] at h
    obtain ⟨⟨st2, idx⟩, hpr, heq⟩ := h
    cases heq
    exact inv_add_component hpr hi
  | addExtraDataToNode node xd =>
    simp only [applyOp] at h
    exact inv_add_extra_data h hi
  | addBlock component nodes =>
    simp only [applyOp] at h
    rw [Option.map_eq_some'] at h
    obtain ⟨⟨st2, idx⟩, hpr, heq⟩ := h
    cases heq
    exact inv_add_block hpr hi
  | addCutNode cut_node blocks =>
    simp only [applyOp] at h
    rw [Option.map_eq_some'] at h
    obtain ⟨⟨st2, idx⟩, hpr, heq⟩ := h
    cases heq
    exact inv_add_cut_node hpr hi
  | addSPQRNode block nodes t =>
    simp only [applyOp] at h
    rw [Option.map_eq_some'] at h
    obtain ⟨⟨st2, idx⟩, hpr, heq⟩ := h
    cases heq
    exact inv_add_spqr_node hpr hi
  | addEdgeToSPQRNode edge spqr_node =>
    simp only [applyOp] at h
    exact inv_add_edge_to_spqr_node h hi
  | addSPQREdge blockArg endpoints virtual_edge =>
    simp only [applyOp] at h
    rw [Option.map_eq_some'] at h
    obtain ⟨⟨st2, idx⟩, hpr, heq⟩ := h
    cases heq
    exact inv_add_spqr_edge hpr hi

theorem runOps_inv {g : Graph} {st st' : BuilderState} {ops : List BuilderOp}
    (h : runOps g st ops = some st') (hi : Inv g st) : Inv g st' := by
  induction ops generalizing st with
  | nil =>
    simp only [runOps] at h
    cases h
    exact hi
  | cons op rest ih =>
    rw [runOps, obind_eq_some] at h
    obtain ⟨st1, hop, h⟩ := h
    exact ih h (applyOp_inv hop hi)

theorem inferCutNode_cutback {st st' : BuilderState} {n : Nat}
    (h : inferCutNode st n = some st') (hb : CutBack st) : CutBack st' := by
  obtain ⟨hnlt, s1, s2, s3, s4, s5, s6, s7, s8, s9, s10, s11, s12⟩ :=
    inferCutNode_spec h
  rcases s11 with ⟨hcut, hcn⟩ | ⟨hnone, htwo, hset, ci, hci, hcilt, hcn, hcm, hblks⟩
  · intro m hm c hc
    have hc2 : (st.ndAt m).cut_node_index = some c := by
      rcases eq_or_ne m n with rfl | hne
      · rw [← hcut]
        exact hc
      · rw [← s7 m hne]
        exact hc
    obtain ⟨q1, q2⟩ := hb m (by omega) c hc2
    have hctlen : st'.cut_nodes.length = st.cut_nodes.length := by rw [hcn]
    have hcnat : st'.cnAt c = st.cnAt c := by
      unfold BuilderState.cnAt
      rw [hcn]
    rw [hcnat]
    exact ⟨by omega, q2⟩
  · have hctlen : st'.cut_nodes.length = st.cut_nodes.length + 1 := by
      rw [hcn]
      simp
    intro m hm c hc
    rcases eq_or_ne m n with rfl | hne
    · rw [hset] at hc
      have hceq : c = st.cut_nodes.length := (Option.some_inj.mp hc).symm
      subst hceq
      have hcnat : st'.cnAt st.cut_nodes.length =
          CutNode.mk ci m (st.ndAt m).block_indices := by
        unfold BuilderState.cnAt
        rw [hcn]
        exact getD_append_self_len _ _
      rw [hcnat]
      exact ⟨by omega, rfl⟩
    · have hc2 : (st.ndAt m).cut_node_index = some c := by
        rw [← s7 m hne]
        exact hc
      obtain ⟨q1, q2⟩ := hb m (by omega) c hc2
      have hcnat : st'.cnAt c = st.cnAt c := by
        unfold BuilderState.cnAt
        rw [hcn]
        exact getD_append_lt _ q1
      rw [hcnat]
      exact ⟨by omega, q2⟩

theorem inferCutNodes_cutback {st st' : BuilderState} {ns : List Nat}
    (h : inferCutNodes st ns = some st') (hb : CutBack st) : CutBack st' := by
  induction ns generalizing st with
  | nil =>
    simp only [inferCutNodes] at h
    cases h
    exact hb
  | cons x xs ih =>
    rw [inferCutNodes, obind_eq_some] at h
    obtain ⟨st1, hstep, h⟩ := h
    exact ih h (inferCutNode_cutback hstep hb)

theorem buildDecomposition_props {g : Graph} {ops : List BuilderOp}
    {d : SPQRDecomposition} (h : buildDecomposition g ops = some d) :
    d.node_data.length = g.nodeCount ∧
    d.edge_data.length = g.edgeCount ∧
    (∀ e, e < d.edge_data.length → ∀ b,
      ((d.edAt e).block_index = b ↔
        (b ∈ (d.ndAt (g.edgeEndpoints e).1).block_indices ∧
         b ∈ (d.ndAt (g.edgeEndpoints e).2).block_indices))) ∧
    (∀ s, s < d.spqr_nodes.length → 2 ≤ (d.snAt s).nodes.length) ∧
    (∀ i, i < d.spqr_edges.length →
      ((d.seAt i).endpoints.1 < d.spqr_nodes.length ∧
       (d.seAt i).endpoints.2 < d.spqr_nodes.length ∧
       (d.seAt i).virtual_edge.1 ∈ (d.snAt (d.seAt i).endpoints.1).nodes ∧
       (d.seAt i).virtual_edge.1 ∈ (d.snAt (d.seAt i).endpoints.2).nodes ∧
       (d.seAt i).virtual_edge.2 ∈ (d.snAt (d.seAt i).endpoints.1).nodes ∧
       (d.seAt i).virtual_edge.2 ∈ (d.snAt (d.seAt i).endpoints.2).nodes ∧
       (d.snAt (d.seAt i).endpoints.1).block = (d.snAt (d.seAt i).endpoints.2).block)) ∧
    (∀ n, n < d.node_data.length → 2 ≤ (d.ndAt n).block_indices.length →
      ∃ c, (d.ndAt n).cut_node_index = some c ∧ c < d.cut_nodes.length ∧
        (d.cnAt c).node = n ∧
        (d.cnAt c).component = (d.ndAt n).component_index ∧
        c ∈ (d.compAt (d.cnAt c).component).cut_nodes ∧
        ∀ b ∈ (d.cnAt c).adjacent_blocks, b < d.blocks.length ∧
          c ∈ (d.blkAt b).cut_nodes) := by
  rw [buildDecomposition, obind_eq_some] at h
  obtain ⟨st1, hrun, h⟩ := h
  have hinv : Inv g st1 := runOps_inv hrun (inv_new g)
  rw [build, obind_eq_some] at h
  obtain ⟨u1, hchk1, h⟩ := h
  rw [obind_eq_some] at h
  obtain ⟨u2, hchk2, h⟩ := h
  rw [obind_eq_some] at h
  obtain ⟨st2, hinfer, h⟩ := h
  rw [obind_eq_some] at h
  obtain ⟨nds, hnds, h⟩ := h
  rw [obind_eq_some] at h
  obtain ⟨eds, heds, h⟩ := h
  rw [Option.some_inj] at h
  obtain ⟨i1, i2, i3, i4, i5, i6, i7, i8, i9, i10⟩ := inferCutNodes_spec hinfer
  have hreg2 : CutReg st2 := inferCutNodes_cutreg hinfer hinv.cut_reg
  have hback2 : CutBack st2 := inferCutNodes_cutback hinfer hinv.cut_back
  obtain ⟨f1, f2⟩ := finalizeNodeDataList_spec hnds
  obtain ⟨g1, g2⟩ := finalizeEdgeDataList_spec heds
  have hd1 : d.components = st2.components := by rw [← h]
  have hd2 : d.blocks = st2.blocks := by rw [← h]
  have hd3 : d.cut_nodes = st2.cut_nodes := by rw [← h]
  have hd4 : d.spqr_nodes = st2.spqr_nodes := by rw [← h]
  have hd5 : d.spqr_edges = st2.spqr_edges := by rw [← h]
  have hd6 : d.node_data = nds := by rw [← h]
  have hd7 : d.edge_data = eds := by rw [← h]
  have hlen_nd2 : st2.node_data.length = g.nodeCount := by
    rw [i4, hinv.len_node]
  have hlen_ed2 : st2.edge_data.length = g.edgeCount := by
    rw [i3, hinv.len_edge]
  have hlen_ndd : d.node_data.length = g.nodeCount := by
    rw [hd6, f1, hlen_nd2]
  have hlen_edd : d.edge_data.length = g.edgeCount := by
    rw [hd7, g1, hlen_ed2]
  have hdnd : ∀ n, n < g.nodeCount →
      ((d.ndAt n).block_indices = (st2.ndAt n).block_indices ∧
       (d.ndAt n).cut_node_index = (st2.ndAt n).cut_node_index ∧
       (d.ndAt n).spqr_node_indices = (st2.ndAt n).spqr_node_indices ∧
       (st2.ndAt n).component_index = some ((d.ndAt n).component_index)) := by
    intro n hn
    obtain ⟨nd, hnd_eq, c, hc, hout⟩ := f2 n (by omega)
    have h1 : st2.ndAt n = nd := getD_of_some _ hnd_eq
    have h2 : d.ndAt n = SPQRDecompositionNodeData.mk c nd.block_indices
        nd.cut_node_index nd.spqr_node_indices nd.extra_data := by
      unfold SPQRDecomposition.ndAt
      rw [hd6]
      exact getD_of_some _ hout
    rw [h1, h2]
    exact ⟨rfl, rfl, rfl, hc⟩
  have hded : ∀ e, e < g.edgeCount →
      (st2.edAt e).block_index = some ((d.edAt e).block_index) := by
    intro e he
    obtain ⟨ed, hed_eq, c, b, sp, hc, hbb, hsp, hout⟩ := g2 e (by omega)
    have h1 : st2.edAt e = ed := getD_of_some _ hed_eq
    have h2 : d.edAt e = SPQRDecompositionEdgeData.mk c b sp ed.extra_data := by
      unfold SPQRDecomposition.edAt
      rw [hd7]
      exact getD_of_some _ hout
    rw [h1, h2]
    exact hbb
  have hmem : ∀ n b, (b ∈ (d.ndAt n).block_indices ↔
      b ∈ (st2.ndAt n).block_indices) := by
    intro n b
    rcases Nat.lt_or_ge n g.nodeCount with hn | hn
    · rw [(hdnd n hn).1]
    · have hA : (d.ndAt n) = SPQRDecompositionNodeData.mk 0 [] none [] "" := by
        unfold SPQRDecomposition.ndAt
        exact List.getD_eq_default _ _ (by omega)
      have hB : (st2.ndAt n) = emptyNodeDataBuilder := ndAt_oor (by omega)
      rw [hA, hB]
      simp [emptyNodeDataBuilder]
  have hedat12 : ∀ e, st2.edAt e = st1.edAt e := by
    intro e
    unfold BuilderState.edAt
    rw [i3]
  have hsnd : ∀ s, d.snAt s = st1.snAt s := by
    intro s
    unfold SPQRDecomposition.snAt BuilderState.snAt
    rw [hd4, i1]
  have hsed : ∀ i, d.seAt i = st1.seAt i := by
    intro i
    unfold SPQRDecomposition.seAt BuilderState.seAt
    rw [hd5, i2]
  have hcnd : ∀ c, d.cnAt c = st2.cnAt c := by
    intro c
    unfold SPQRDecomposition.cnAt BuilderState.cnAt
    rw [hd3]
  have hcompd : ∀ c, d.compAt c = st2.compAt c := by
    intro c
    unfold SPQRDecomposition.compAt BuilderState.compAt
    rw [hd1]
  have hblkd : ∀ b, d.blkAt b = st2.blkAt b := by
    intro b
    unfold SPQRDecomposition.blkAt BuilderState.blkAt
    rw [hd2]
  have hslen : d.spqr_nodes.length = st1.spqr_nodes.length := by rw [hd4, i1]
  have hselen : d.spqr_edges.length = st1.spqr_edges.length := by rw [hd5, i2]
  refine ⟨hlen_ndd, hlen_edd, ?_, ?_, ?_, ?_⟩
  · intro e he b
    have he2 : e < g.edgeCount := by omega
    have he1 : e < st1.edge_data.length := by
      rw [hinv.len_edge]
      exact he2
    have hbd := hded e he2
    have key : ((d.edAt e).block_index = b) ↔
        ((st2.edAt e).block_index = some b) := by
      rw [hbd]
      constructor
      · intro hb
        rw [hb]
      · intro hb
        exact Option.some_inj.mp hb
    rw [key, hedat12 e, hmem, hmem, (i7 (g.edgeEndpoints e).1).1,
      (i7 (g.edgeEndpoints e).2).1]
    exact hinv.eb_iff e he1 b
  · intro s hs
    rw [hsnd s]
    exact hinv.spqr_two s (by omega)
  · intro i hi2
    obtain ⟨w1, w2, w3, w4, w5, w6, w7⟩ := hinv.se_ok i (by omega)
    rw [hsed i]
    simp only [hsnd]
    exact ⟨by omega, by omega, w3, w4, w5, w6, w7⟩
  · intro n hn htwo
    have hn2 : n < g.nodeCount := by omega
    have htwo2 : 2 ≤ (st2.ndAt n).block_indices.length := by
      rw [← (hdnd n hn2).1]
      exact htwo
    have htwo1 : 2 ≤ (st1.ndAt n).block_indices.length := by
      rw [← (i7 n).1]
      exact htwo2
    have hcov : (st2.ndAt n).cut_node_index.isSome :=
      i10 n (List.mem_range.mpr hn2) htwo1
    obtain ⟨c, hc⟩ := Option.isSome_iff_exists.mp hcov
    obtain ⟨q1, q2⟩ := hback2 n (by omega) c hc
    obtain ⟨w1, w2, w3, w4, w5, w6⟩ := hreg2 c q1
    rw [q2] at w2 w3
    refine ⟨c, ?_, ?_, ?_, ?_, ?_, ?_⟩
    · rw [(hdnd n hn2).2.1]
      exact hc
    · rw [hd3]
      exact q1
    · rw [hcnd c]
      exact q2
    · rw [hcnd c]
      have h1 := (hdnd n hn2).2.2.2
      rw [w3] at h1
      exact Option.some_inj.mp h1
    · rw [hcompd, hcnd c]
      exact w5
    · intro b hb
      rw [hcnd c] at hb
      obtain ⟨v1, v2⟩ := w6 b hb
      rw [hblkd b, hd2]
      exact ⟨v1, v2⟩

/-- A 4-cycle: nodes `0..3`, edges around the square. -/
def squareGraph : Graph :=
  { nodeCount := 4, edges := [(0, 1), (1, 2), (2, 3), (3, 0)] }

/-- A valid builder run for `squareGraph` with one block, two S-nodes
sharing the pole pair `(0, 2)`, and one SPQR edge between them. -/
def squareOps : List BuilderOp :=
  [ .addComponent [0, 1, 2, 3],
    .addBlock 0 [0, 1, 2, 3],
    .addSPQRNode 0 [0, 1, 2] .SNode,
    .addSPQRNode 0 [0, 2, 3] .SNode,
    .addEdgeToSPQRNode 0 0,
    .addEdgeToSPQRNode 1 0,
    .addEdgeToSPQRNode 2 1,
    .addEdgeToSPQRNode 3 1,
    .addSPQREdge (some 0) (0, 1) (0, 2) ]

/-- The decomposition `buildDecomposition squareGraph squareOps` produces
(pinned as a literal). -/
def squareD : SPQRDecomposition :=
  { components := [{ nodes := [0, 1, 2, 3], blocks := [0], cut_nodes := [] }],
    blocks :=
      [{ component := 0, nodes := [0, 1, 2, 3], cut_nodes := [], spqr_nodes := [0, 1],
         spqr_edges := [0] }],
    cut_nodes := [],
    spqr_nodes :=
      [{ block := 0, nodes := [0, 1, 2], edges := [0, 1], spqr_node_type := .SNode,
         spqr_edges := [0] },
       { block := 0, nodes := [0, 2, 3], edges := [2, 3], spqr_node_type := .SNode,
         spqr_edges := [0] }],
    spqr_edges := [{ endpoints := (0, 1), virtual_edge := (0, 2) }],
    node_data :=
      [{ component_index := 0, block_indices := [0], cut_node_index := none,
         spqr_node_indices := [0, 1], extra_data := "" },
       { component_index := 0, block_indices := [0], cut_node_index := none,
         spqr_node_indices := [0], extra_data := "" },
       { component_index := 0, block_indices := [0], cut_node_index := none,
         spqr_node_indices := [0, 1], extra_data := "" },
       { component_index := 0, block_indices := [0], cut_node_index := none,
         spqr_node_indices := [1], extra_data := "" }],
    edge_data :=
      [{ component_index := 0, block_index := 0, spqr_node_index := 0, extra_data := "" },
       { component_index := 0, block_index := 0, spqr_node_index := 0, extra_data := "" },
       { component_index := 0, block_index := 0, spqr_node_index := 1, extra_data := "" },
       { component_index := 0, block_index := 0, spqr_node_index := 1, extra_data := "" }] }

/-- C5: in every decomposition produced by the builder pipeline, an edge
belongs to a Block exactly when both of its endpoints are members of that
Block — `add_block` claims an edge into the new block the moment both
endpoints have become members, and a previously different claim is an
assertion failure. -/
theorem C5_edge_block_iff (g : Graph) (ops : List BuilderOp) (d : SPQRDecomposition)
    (h : buildDecomposition g ops = some d) (e : Nat) (he : e < d.edge_data.length)
    (b : Nat) :
    ((d.edAt e).block_index = b ↔
      (b ∈ (d.ndAt (g.edgeEndpoints e).1).block_indices ∧
       b ∈ (d.ndAt (g.edgeEndpoints e).2).block_indices)) :=
  (buildDecomposition_props h).2.2.1 e he b

theorem C5_witness :
    buildDecomposition twoTrianglesGraph twoTrianglesOps = some twoTrianglesD ∧
    3 < twoTrianglesD.edge_data.length ∧
    ((twoTrianglesD.edAt 3).block_index = 1 ↔
      (1 ∈ (twoTrianglesD.ndAt (twoTrianglesGraph.edgeEndpoints 3).1).block_indices ∧
       1 ∈ (twoTrianglesD.ndAt (twoTrianglesGraph.edgeEndpoints 3).2).block_indices)) :=
  ⟨by decide, by decide,
    C5_edge_block_iff twoTrianglesGraph twoTrianglesOps twoTrianglesD (by decide) 3
      (by decide) 1⟩

/-- C9: every SPQR node of a built decomposition declares at least two
skeleton vertices, and `p_node_poles` returns exactly the pair of the first
two declared vertices when the type tag is P, and `none` for S- and R-type
nodes. -/
theorem C9_p_node_poles_build (g : Graph) (ops : List BuilderOp)
    (d : SPQRDecomposition) (h : buildDecomposition g ops = some d) (s : Nat)
    (hs : s < d.spqr_nodes.length) :
    ∃ a b rest, (d.snAt s).nodes = a :: b :: rest ∧
      (d.snAt s).p_node_poles =
        (if (d.snAt s).spqr_node_type = SPQRNodeType.PNode then some (a, b)
         else none) := by
  have h2 := (buildDecomposition_props h).2.2.2.1 s hs
  obtain ⟨a, b, rest, hn⟩ : ∃ a b rest, (d.snAt s).nodes = a :: b :: rest := by
    rcases hls : (d.snAt s).nodes with - | ⟨a, tl⟩
    · rw [hls] at h2
      simp at h2
    · rcases htl : tl with - | ⟨b, rest⟩
      · rw [hls, htl] at h2
        simp at h2
      · exact ⟨a, b, rest, rfl⟩
  refine ⟨a, b, rest, hn, ?_⟩
  rw [SPQRNode.p_node_poles]
  by_cases ht : (d.snAt s).spqr_node_type = SPQRNodeType.PNode
  · rw [if_pos ht, if_pos ht, hn]
    rfl
  · rw [if_neg ht, if_neg ht]

theorem C9_witness :
    buildDecomposition twoTrianglesGraph twoTrianglesOps = some twoTrianglesD ∧
    0 < twoTrianglesD.spqr_nodes.length ∧
    (∃ a b rest, (twoTrianglesD.snAt 0).nodes = a :: b :: rest ∧
      (twoTrianglesD.snAt 0).p_node_poles =
        (if (twoTrianglesD.snAt 0).spqr_node_type = SPQRNodeType.PNode then some (a, b)
         else none)) :=
  ⟨by decide, by decide,
    C9_p_node_poles_build twoTrianglesGraph twoTrianglesOps twoTrianglesD (by decide) 0
      (by decide)⟩

/-- C6: for every SPQR edge of a built decomposition, both incident SPQR
node indices are in range, both pole nodes of the virtual edge are members
of the skeleton vertex sets of both incident SPQR nodes, and the two
incident SPQR nodes belong to the same block — exactly the assertions of
`add_spqr_edge`. -/
theorem C6_spqr_edge_pole_sharing (g : Graph) (ops : List BuilderOp)
    (d : SPQRDecomposition) (h : buildDecomposition g ops = some d) (i : Nat)
    (hi2 : i < d.spqr_edges.length) :
    ((d.seAt i).endpoints.1 < d.spqr_nodes.length ∧
     (d.seAt i).endpoints.2 < d.spqr_nodes.length ∧
     (d.seAt i).virtual_edge.1 ∈ (d.snAt (d.seAt i).endpoints.1).nodes ∧
     (d.seAt i).virtual_edge.1 ∈ (d.snAt (d.seAt i).endpoints.2).nodes ∧
     (d.seAt i).virtual_edge.2 ∈ (d.snAt (d.seAt i).endpoints.1).nodes ∧
     (d.seAt i).virtual_edge.2 ∈ (d.snAt (d.seAt i).endpoints.2).nodes ∧
     (d.snAt (d.seAt i).endpoints.1).block = (d.snAt (d.seAt i).endpoints.2).block) :=
  (buildDecomposition_props h).2.2.2.2.1 i hi2

theorem C6_witness :
    buildDecomposition squareGraph squareOps = some squareD ∧
    0 < squareD.spqr_edges.length ∧
    ((squareD.seAt 0).endpoints.1 < squareD.spqr_nodes.length ∧
     (squareD.seAt 0).endpoints.2 < squareD.spqr_nodes.length ∧
     (squareD.seAt 0).virtual_edge.1 ∈ (squareD.snAt (squareD.seAt 0).endpoints.1).nodes ∧
     (squareD.seAt 0).virtual_edge.1 ∈ (squareD.snAt (squareD.seAt 0).endpoints.2).nodes ∧
     (squareD.seAt 0).virtual_edge.2 ∈ (squareD.snAt (squareD.seAt 0).endpoints.1).nodes ∧
     (squareD.seAt 0).virtual_edge.2 ∈ (squareD.snAt (squareD.seAt 0).endpoints.2).nodes ∧
     (squareD.snAt (squareD.seAt 0).endpoints.1).block =
       (squareD.snAt (squareD.seAt 0).endpoints.2).block) :=
  ⟨by decide, by decide,
    C6_spqr_edge_pole_sharing squareGraph squareOps squareD (by decide) 0 (by decide)⟩

/-- C1 (corrected): after `build()`, every node with at least two Block
memberships has a CutNode record, wired into the node's Component and into
each of the record's adjacent Blocks.  The claimed converse — a record only
for nodes with two or more memberships — is false: `add_cut_node` never
checks memberships, so an explicit cut node on a single-block node survives
`build()` (see the counterexample). -/
theorem C1_cut_node_records_after_build (g : Graph) (ops : List BuilderOp)
    (d : SPQRDecomposition) (h : buildDecomposition g ops = some d) (n : Nat)
    (hn : n < d.node_data.length) (htwo : 2 ≤ (d.ndAt n).block_indices.length) :
    ∃ c, (d.ndAt n).cut_node_index = some c ∧ c < d.cut_nodes.length ∧
      (d.cnAt c).node = n ∧
      (d.cnAt c).component = (d.ndAt n).component_index ∧
      c ∈ (d.compAt (d.cnAt c).component).cut_nodes ∧
      ∀ b ∈ (d.cnAt c).adjacent_blocks, b < d.blocks.length ∧
        c ∈ (d.blkAt b).cut_nodes :=
  (buildDecomposition_props h).2.2.2.2.2 n hn htwo

theorem C1_witness :
    buildDecomposition twoTrianglesGraph twoTrianglesOps = some twoTrianglesD ∧
    2 < twoTrianglesD.node_data.length ∧
    2 ≤ (twoTrianglesD.ndAt 2).block_indices.length ∧
    (∃ c, (twoTrianglesD.ndAt 2).cut_node_index = some c ∧
      c < twoTrianglesD.cut_nodes.length ∧
      (twoTrianglesD.cnAt c).node = 2 ∧
      (twoTrianglesD.cnAt c).component = (twoTrianglesD.ndAt 2).component_index ∧
      c ∈ (twoTrianglesD.compAt (twoTrianglesD.cnAt c).component).cut_nodes ∧
      ∀ b ∈ (twoTrianglesD.cnAt c).adjacent_blocks, b < twoTrianglesD.blocks.length ∧
        c ∈ (twoTrianglesD.blkAt b).cut_nodes) :=
  ⟨by decide, by decide, by decide,
    C1_cut_node_records_after_build twoTrianglesGraph twoTrianglesOps twoTrianglesD
      (by decide) 2 (by decide) (by decide)⟩

end SPQRTree
